import Mathlib

/-!
# gost-panel: quota monitoring and alert dispatch

A shallow embedding of `internal/notify/alert.go`, of the notifiers and their
factory in `internal/notify/notify.go`, of `matchTunnelService` in
`internal/gost/client.go` and of the origin check in `internal/api/websocket.go`,
together with theorems about them.

Modelling conventions

* The relational store behind `gorm.DB` is a record of tables, each table a list
  of rows in table order.  `Find` with a `Where` is a filter, `First(&x, id)` is
  the first row with that primary key, `Model(&x).Update` rewrites the rows whose
  primary key equals `x.ID` (and, as gorm does, refuses to run when that key is
  the zero value), `Create` appends a row.
* A time instant is an `Int` number of nanoseconds, a `time.Duration` is an `Int`
  in the `int64` range.  `Time.Sub` saturates and `Duration * Duration` wraps, as
  in Go.  Every top-level call reads the clock once: the value `now` it is given
  is what each `time.Now()` / `time.Since` inside the call observes.
* Whatever the Go code obtains from outside the repository (the outcome of a
  network send, `encoding/json`, floating-point arithmetic and formatting) is a
  field of `Env`.
* `State.sent`, `State.calls` and `State.stamps` are traces: the first records
  every `Notifier.Send` that was attempted, the second every entry into
  `TriggerAlert`, the third every write of a rule's `last_alert_at`.
-/

namespace GostPanel

/-! ## Time -/

/-- Largest `time.Duration` (`math.MaxInt64` nanoseconds). -/
def maxDuration : Int := 2 ^ 63 - 1

/-- Smallest `time.Duration` (`math.MinInt64` nanoseconds). -/
def minDuration : Int := -(2 ^ 63)

/-- Reduction of an integer to the two's-complement `int64` range. -/
def wrapInt64 (x : Int) : Int := (x + 2 ^ 63) % 2 ^ 64 - 2 ^ 63

/-- Go `t.Sub(u)`: the difference of two instants, saturated to the `Duration` range. -/
def timeSub (t u : Int) : Int :=
  if t - u > maxDuration then maxDuration
  else if t - u < minDuration then minDuration
  else t - u

/-- Go `time.Minute` in nanoseconds. -/
def Minute : Int := 60000000000

/-- Go `time.Hour` in nanoseconds. -/
def Hour : Int := 60 * Minute

/-- Go `time.Duration(n) * time.Minute` for an integer field `n` (`int64` product). -/
def minutesDuration (n : Int) : Int := wrapInt64 (n * Minute)

/-- Go `time.Since(t) < time.Duration(c) * time.Minute`, the cooldown test of a rule. -/
def inCooldown (now lastAlertAt cooldownMin : Int) : Bool :=
  decide (timeSub now lastAlertAt < minutesDuration cooldownMin)

/-! ## Data model (`internal/model`, fields as used by the alert service; the Go field
`Type` is spelled `Typ`, `Type` being reserved) -/

/-- Row of the node table. -/
structure Node where
  ID : Nat
  Name : String
  TrafficQuota : Int
  QuotaUsed : Int
  QuotaExceeded : Bool
  Status : String
  LastSeen : Int
  QuotaResetDay : Int
  QuotaResetAt : Option Int
  deriving DecidableEq, Repr

/-- Row of the client table. -/
structure Client where
  ID : Nat
  Name : String
  TrafficQuota : Int
  QuotaUsed : Int
  QuotaExceeded : Bool
  QuotaResetDay : Int
  QuotaResetAt : Option Int
  deriving DecidableEq, Repr

/-- Row of the alert rule table. -/
structure AlertRule where
  ID : Nat
  Name : String
  Typ : String
  Condition : String
  Enabled : Bool
  CooldownMin : Int
  ChannelIDs : String
  LastAlertAt : Int
  deriving DecidableEq, Repr

/-- Row of the notification channel table. -/
structure NotifyChannel where
  ID : Nat
  Name : String
  Typ : String
  Config : String
  Enabled : Bool
  deriving DecidableEq, Repr

/-- Row of the alert log table (its position in the table is its identity). -/
structure AlertLog where
  RuleID : Nat
  RuleName : String
  Typ : String
  Message : String
  TargetType : String
  TargetID : Nat
  TargetName : String
  Status : String
  CreatedAt : Int
  deriving DecidableEq, Repr

/-- The condition payload of a rule (`AlertRuleCondition`). -/
structure AlertRuleCondition where
  Threshold : Int
  Duration : Int
  deriving DecidableEq, Repr

/-- The three notifier variants built by `CreateNotifier`. -/
inductive Notifier where
  | telegram (channel : NotifyChannel)
  | webhook (channel : NotifyChannel)
  | smtp (channel : NotifyChannel)
  deriving DecidableEq, Repr

/-- One attempted `Notifier.Send`: who sent what, on behalf of which rule, and how it ended. -/
structure Notification where
  RuleID : Nat
  ChannelID : Nat
  Title : String
  Message : String
  Ok : Bool
  deriving DecidableEq, Repr

/-- One entry into `TriggerAlert`, with its arguments and the clock reading. -/
structure Dispatch where
  AlertType : String
  TargetType : String
  TargetID : Nat
  TargetName : String
  Message : String
  At : Int
  deriving DecidableEq, Repr

/-- One execution of `Update("last_alert_at", now)` on a rule: the rule has fired. -/
structure Stamp where
  RuleID : Nat
  At : Int
  deriving DecidableEq, Repr

/-- The store and the three traces. -/
structure State where
  nodes : List Node
  clients : List Client
  rules : List AlertRule
  channels : List NotifyChannel
  logs : List AlertLog
  sent : List Notification
  calls : List Dispatch
  stamps : List Stamp
  deriving DecidableEq, Repr

/-- Behaviour the alert service obtains from outside the repository. -/
structure Env where
  /-- Result of `json.Unmarshal([]byte(s), &condition)`: the decoded value and the error, if any. -/
  unmarshalCondition : String → AlertRuleCondition × Option String
  /-- Whether `json.Unmarshal` of a channel payload into the configuration type of the
  given channel type fails, and with which error. -/
  unmarshalConfig : String → String → Option String
  /-- Outcome of the send attempt number `k` (counted over the whole run): `true` when
  `Send` returned no error. -/
  sendOk : Nat → Notifier → String → String → Bool
  /-- The float comparison `float64(used) / float64(quota) * 100 < float64(threshold)`. -/
  percentLt : Int → Int → Int → Bool
  /-- Rendering `%.1f` of `float64(used) / float64(quota) * 100`. -/
  fmtPercent : Int → Int → String
  /-- Rendering `%.2f` of `float64(bytes) / unit`. -/
  fmtScaled : Int → Int → String
  /-- Rendering `t.Format("2006-01-02 15:04:05")`. -/
  fmtTime : Int → String
  /-- Calendar day of the month of an instant (`t.Day()`). -/
  dayOfMonth : Int → Int
  /-- Calendar shift `t.AddDate(0, 0, days)`. -/
  addDays : Int → Int → Int

/-! ## String helpers of the Go standard library -/

/-- Go `strings.Split(s, ",")` on the characters of `s`. -/
def splitComma : List Char → List (List Char)
  | [] => [[]]
  | c :: cs =>
    match splitComma cs with
    | [] => [[]]
    | w :: ws => if c = ',' then [] :: w :: ws else (c :: w) :: ws

/-- Go `unicode.IsSpace`. -/
def isSpace (c : Char) : Bool :=
  let n := c.toNat
  (9 ≤ n && n ≤ 13) || n == 32 || n == 0x85 || n == 0xA0 || n == 0x1680 ||
    (0x2000 ≤ n && n ≤ 0x200A) || n == 0x2028 || n == 0x2029 || n == 0x202F ||
    n == 0x205F || n == 0x3000

/-- Go `strings.TrimSpace`. -/
def trimSpace (s : List Char) : List Char :=
  ((s.dropWhile isSpace).reverse.dropWhile isSpace).reverse

/-- Value of a decimal digit, `none` for any other character. -/
def digitVal (c : Char) : Option Nat :=
  if 48 ≤ c.toNat ∧ c.toNat ≤ 57 then some (c.toNat - 48) else none

/-- The digit loop of `strconv.ParseUint` in base 10: fails on the first non-digit. -/
def parseDigits : List Char → Nat → Option Nat
  | [], acc => some acc
  | c :: cs, acc =>
    match digitVal c with
    | none => none
    | some d => parseDigits cs (acc * 10 + d)

/-- Go `strconv.ParseUint(s, 10, 32)`: `none` stands for a returned error (empty input,
a character that is not a digit, or a value above `2^32 - 1`). -/
def ParseUint32 (s : List Char) : Option Nat :=
  if s = [] then none
  else
    match parseDigits s 0 with
    | none => none
    | some n => if n ≤ 4294967295 then some n else none

/-- ASCII lower-casing, the case folding of SQLite `LIKE`. -/
def asciiLower (c : Char) : Char :=
  if 65 ≤ c.toNat ∧ c.toNat ≤ 90 then Char.ofNat (c.toNat + 32) else c

/-- Whether `f` accepts some suffix of the text (the text itself included). -/
def anySuffix (f : List Char → Bool) : List Char → Bool
  | [] => f []
  | c :: t => f (c :: t) || anySuffix f t

/-- SQLite `text LIKE pattern`: `%` stands for any run of characters, `_` for any one
character, every other character for itself up to ASCII case. -/
def likeMatch : List Char → List Char → Bool
  | [], t => t.isEmpty
  | a :: p, t =>
    if a = '%' then anySuffix (likeMatch p) t
    else
      match t with
      | [] => false
      | c :: t' => (a == '_' || asciiLower a == asciiLower c) && likeMatch p t'

/-! ## `internal/notify/notify.go`: the notifier factory -/

/-- Go `CreateNotifier`: the notifier for a channel, or the error message. -/
def CreateNotifier (env : Env) (channel : NotifyChannel) : Except String Notifier :=
  if channel.Typ = "telegram" then
    match env.unmarshalConfig "telegram" channel.Config with
    | some err => .error ("parse telegram config failed: " ++ err)
    | none => .ok (Notifier.telegram channel)
  else if channel.Typ = "webhook" then
    match env.unmarshalConfig "webhook" channel.Config with
    | some err => .error ("parse webhook config failed: " ++ err)
    | none => .ok (Notifier.webhook channel)
  else if channel.Typ = "smtp" then
    match env.unmarshalConfig "smtp" channel.Config with
    | some err => .error ("parse smtp config failed: " ++ err)
    | none => .ok (Notifier.smtp channel)
  else .error ("unknown channel type: " ++ channel.Typ)

/-! ## `internal/notify/alert.go` -/

/-- Go `alertTypeToTitle`. -/
def alertTypeToTitle (alertType : String) : String :=
  if alertType = "node_offline" then "节点离线"
  else if alertType = "quota_exceeded" then "流量超限"
  else if alertType = "quota_warning" then "流量预警"
  else if alertType = "traffic_spike" then "流量异常"
  else if alertType = "agent_update" then "Agent 更新"
  else "告警"

/-- Go `targetTypeToName`. -/
def targetTypeToName (targetType : String) : String :=
  if targetType = "node" then "节点"
  else if targetType = "client" then "客户端"
  else targetType

/-- Go `formatBytes`. -/
def formatBytes (env : Env) (bytes : Int) : String :=
  if bytes ≥ 1024 * 1024 * 1024 * 1024 then env.fmtScaled bytes (1024 * 1024 * 1024 * 1024) ++ " TB"
  else if bytes ≥ 1024 * 1024 * 1024 then env.fmtScaled bytes (1024 * 1024 * 1024) ++ " GB"
  else if bytes ≥ 1024 * 1024 then env.fmtScaled bytes (1024 * 1024) ++ " MB"
  else if bytes ≥ 1024 then env.fmtScaled bytes 1024 ++ " KB"
  else toString bytes ++ " B"

/-- Go `ParseCondition`: the condition and the error, if any. -/
def ParseCondition (env : Env) (conditionJSON : String) : AlertRuleCondition × Option String :=
  if conditionJSON = "" ∨ conditionJSON = "\x7b\x7d" then (⟨0, 0⟩, none)
  else env.unmarshalCondition conditionJSON

/-- Go `a.db.Model(&rule).Update(...)`: rewrite the rule rows with this primary key. -/
def updateRule (rules : List AlertRule) (id : Nat) (f : AlertRule → AlertRule) : List AlertRule :=
  if id = 0 then rules else rules.map (fun r => if r.ID = id then f r else r)

/-- Go `a.db.Model(node).Update(...)`: rewrite the node rows with this primary key. -/
def updateNode (nodes : List Node) (id : Nat) (f : Node → Node) : List Node :=
  if id = 0 then nodes else nodes.map (fun n => if n.ID = id then f n else n)

/-- Go `a.db.Model(client).Update(...)`: rewrite the client rows with this primary key. -/
def updateClient (clients : List Client) (id : Nat) (f : Client → Client) : List Client :=
  if id = 0 then clients else clients.map (fun c => if c.ID = id then f c else c)

/-- Body of the channel loop of `TriggerAlert` for one entry of the split channel list. -/
def notifyChannel (env : Env) (now : Int) (alertType targetType : String) (targetID : Nat)
    (targetName message : String) (rule : AlertRule) (s : State) (entry : List Char) : State :=
  let idStr := trimSpace entry
  if idStr = [] then s
  else
    match ParseUint32 idStr with
    | none => s
    | some channelID =>
      match s.channels.find? (fun c => c.ID == channelID) with
      | none => s
      | some channel =>
        if channel.Enabled = false then s
        else
          match CreateNotifier env channel with
          | .error _ => s
          | .ok notifier =>
            let title := "[" ++ alertTypeToTitle alertType ++ "] " ++ targetName
            let ok := env.sendOk s.sent.length notifier title message
            { s with
              sent := s.sent ++ [⟨rule.ID, channel.ID, title, message, ok⟩]
              logs := s.logs ++ [{
                RuleID := rule.ID
                RuleName := rule.Name
                Typ := alertType
                Message := message
                TargetType := targetType
                TargetID := targetID
                TargetName := targetName
                Status := if ok then "sent" else "failed"
                CreatedAt := now }] }

/-- Body of the rule loop of `TriggerAlert`: cooldown test, channel loop, bookkeeping. -/
def fireRule (env : Env) (now : Int) (alertType targetType : String) (targetID : Nat)
    (targetName message : String) (s : State) (rule : AlertRule) : State :=
  if inCooldown now rule.LastAlertAt rule.CooldownMin then s
  else
    let s1 := (splitComma rule.ChannelIDs.toList).foldl
      (notifyChannel env now alertType targetType targetID targetName message rule) s
    { s1 with
      rules := updateRule s1.rules rule.ID (fun r => { r with LastAlertAt := now })
      stamps := s1.stamps ++ [⟨rule.ID, now⟩] }

/-- The rules `TriggerAlert` loads: `type = ? AND enabled = ?` with `alertType`, `true`. -/
def matchingRules (alertType : String) (s : State) : List AlertRule :=
  s.rules.filter (fun r => r.Typ == alertType && r.Enabled)

/-- Go `TriggerAlert`. -/
def TriggerAlert (env : Env) (now : Int) (alertType targetType : String) (targetID : Nat)
    (targetName message : String) (s : State) : State :=
  (matchingRules alertType s).foldl
    (fireRule env now alertType targetType targetID targetName message)
    { s with calls := s.calls ++ [⟨alertType, targetType, targetID, targetName, message, now⟩] }

/-- Go `TriggerAlertWithKey`. -/
def TriggerAlertWithKey (env : Env) (now : Int) (alertType targetType : String) (targetID : Nat)
    (targetName message key : String) (s : State) : State :=
  let messageWithKey := message ++ "\n<!-- " ++ key ++ " -->"
  TriggerAlert env now alertType targetType targetID targetName messageWithKey s

/-- Go `hasRecentWarning`. -/
def hasRecentWarning (now : Int) (key : String) (duration : Int) (s : State) : Bool :=
  let threshold := now - duration
  let count := (s.logs.filter (fun l =>
    l.Typ == "quota_warning" && likeMatch ("%" ++ key ++ "%").toList l.Message.toList &&
      decide (l.CreatedAt > threshold))).length
  decide (count > 0)

/-- The dedup key `fmt.Sprintf("quota_warning_%s_%d_%d", targetType, targetID, threshold)`. -/
def warningKey (targetType : String) (targetID : Nat) (threshold : Int) : String :=
  "quota_warning_" ++ targetType ++ "_" ++ toString targetID ++ "_" ++ toString threshold

/-- The threshold a rule is evaluated with: the parsed one, 80 when that is not positive. -/
def effectiveThreshold (condition : AlertRuleCondition) : Int :=
  if condition.Threshold ≤ 0 then 80 else condition.Threshold

/-- The warning text rendered by `checkQuotaWarning`. -/
def warningMessage (env : Env) (targetType targetName : String) (used quota : Int) : String :=
  targetTypeToName targetType ++ " " ++ targetName ++ " 流量使用已达 " ++
    env.fmtPercent used quota ++ "%\n已用: " ++ formatBytes env used ++ " / 配额: " ++
    formatBytes env quota ++ "\n请及时关注流量使用情况"

/-- Body of the rule loop of `checkQuotaWarning`. -/
def warnRule (env : Env) (now : Int) (targetID : Nat) (targetType targetName : String)
    (used quota : Int) (s : State) (rule : AlertRule) : State :=
  let parsed := ParseCondition env rule.Condition
  if parsed.2.isSome then s
  else
    let threshold := effectiveThreshold parsed.1
    if env.percentLt used quota threshold then s
    else if inCooldown now rule.LastAlertAt rule.CooldownMin then s
    else
      let key := warningKey targetType targetID threshold
      if hasRecentWarning now key (24 * Hour) s then s
      else
        TriggerAlertWithKey env now "quota_warning" targetType targetID targetName
          (warningMessage env targetType targetName used quota) key s

/-- Go `checkQuotaWarning`; the float argument `percent` is `float64(used)/float64(quota)*100`
at both call sites and is represented by its operands. -/
def checkQuotaWarning (env : Env) (now : Int) (targetID : Nat) (targetType targetName : String)
    (used quota : Int) (s : State) : State :=
  (matchingRules "quota_warning" s).foldl
    (warnRule env now targetID targetType targetName used quota) s

/-- Go `CheckNodeQuota`. -/
def CheckNodeQuota (env : Env) (now : Int) (node : Node) (s : State) : State :=
  if node.TrafficQuota ≤ 0 then s
  else
    let totalUsed := node.QuotaUsed
    let s1 := checkQuotaWarning env now node.ID "node" node.Name totalUsed node.TrafficQuota s
    if totalUsed ≥ node.TrafficQuota ∧ node.QuotaExceeded = false then
      let s2 := { s1 with
        nodes := updateNode s1.nodes node.ID (fun n => { n with QuotaExceeded := true }) }
      TriggerAlert env now "quota_exceeded" "node" node.ID node.Name
        ("节点 " ++ node.Name ++ " 流量已超限\n已用: " ++ formatBytes env totalUsed ++
          " / 配额: " ++ formatBytes env node.TrafficQuota) s2
    else s1

/-- Go `CheckClientQuota`. -/
def CheckClientQuota (env : Env) (now : Int) (client : Client) (s : State) : State :=
  if client.TrafficQuota ≤ 0 then s
  else
    let totalUsed := client.QuotaUsed
    let s1 := checkQuotaWarning env now client.ID "client" client.Name totalUsed
      client.TrafficQuota s
    if totalUsed ≥ client.TrafficQuota ∧ client.QuotaExceeded = false then
      let s2 := { s1 with
        clients := updateClient s1.clients client.ID (fun c => { c with QuotaExceeded := true }) }
      TriggerAlert env now "quota_exceeded" "client" client.ID client.Name
        ("客户端 " ++ client.Name ++ " 流量已超限\n已用: " ++ formatBytes env totalUsed ++
          " / 配额: " ++ formatBytes env client.TrafficQuota) s2
    else s1

/-- Go `CheckNodeOffline`. -/
def CheckNodeOffline (env : Env) (now : Int) (node : Node) (previousStatus : String)
    (s : State) : State :=
  if previousStatus = "online" ∧ node.Status = "offline" then
    TriggerAlert env now "node_offline" "node" node.ID node.Name
      ("节点 " ++ node.Name ++ " 已离线\n最后在线: " ++ env.fmtTime node.LastSeen) s
  else s

/-- Body of the node loop of `CheckOfflineNodes`. -/
def markOffline (env : Env) (now : Int) (s : State) (node : Node) : State :=
  let s1 := { s with nodes := updateNode s.nodes node.ID (fun n => { n with Status := "offline" }) }
  TriggerAlert env now "node_offline" "node" node.ID node.Name
    ("节点 " ++ node.Name ++ " 心跳超时，已标记为离线\n最后心跳: " ++ env.fmtTime node.LastSeen) s1

/-- Go `CheckOfflineNodes`. -/
def CheckOfflineNodes (env : Env) (now : Int) (timeoutMinutes : Int) (s : State) : State :=
  let threshold := now + wrapInt64 (wrapInt64 (-timeoutMinutes) * Minute)
  (s.nodes.filter (fun n => n.Status == "online" && decide (n.LastSeen < threshold))).foldl
    (markOffline env now) s

/-- Go `CleanupAlertLogs`; `-retentionDays` is a negation of an `int`. -/
def CleanupAlertLogs (env : Env) (now : Int) (retentionDays : Int) (s : State) : State :=
  let threshold := env.addDays now (wrapInt64 (-retentionDays))
  { s with logs := s.logs.filter (fun l => !decide (l.CreatedAt < threshold)) }

/-- The `Where` clause of `ResetQuotas`:
`quota_reset_day = ? AND (quota_reset_at IS NULL OR quota_reset_at < ?)` with today's day
of the month and `time.Now().AddDate(0, 0, -28)`. -/
def resetSelected (env : Env) (now : Int) (resetDay : Int) (resetAt : Option Int) : Bool :=
  resetDay == env.dayOfMonth now &&
    (match resetAt with
    | none => true
    | some t => decide (t < env.addDays now (-28)))

/-- Body of the node loop of `ResetQuotas`: `Updates` of three columns by primary key. -/
def resetNode (now : Int) (s : State) (node : Node) : State :=
  { s with
    nodes := updateNode s.nodes node.ID
      (fun n => { n with QuotaUsed := 0, QuotaExceeded := false, QuotaResetAt := some now }) }

/-- Body of the client loop of `ResetQuotas`: `Updates` of three columns by primary key. -/
def resetClient (now : Int) (s : State) (client : Client) : State :=
  { s with
    clients := updateClient s.clients client.ID
      (fun c => { c with QuotaUsed := 0, QuotaExceeded := false, QuotaResetAt := some now }) }

/-- Go `ResetQuotas`. -/
def ResetQuotas (env : Env) (now : Int) (s : State) : State :=
  let s1 := (s.nodes.filter
    (fun n => resetSelected env now n.QuotaResetDay n.QuotaResetAt)).foldl (resetNode now) s
  (s1.clients.filter
    (fun c => resetSelected env now c.QuotaResetDay c.QuotaResetAt)).foldl (resetClient now) s1

/-! ## `internal/notify/notify.go`: the Telegram notifier -/

/-- The characters `escapeMarkdown` escapes, in the order of its passes (`Char.ofNat 96`
is the backquote). -/
def markdownChars : List Char :=
  ['_', '*', '[', ']', '(', ')', '~', Char.ofNat 96, '>', '#', '+', '-', '=', '|',
    '\x7b', '\x7d', '.', '!']

/-- Go `strings.ReplaceAll(text, c, "\\" + c)` for a one-character string `c`: every
occurrence of `c` gets a backslash in front. -/
def escapeChar (c : Char) : List Char → List Char
  | [] => []
  | x :: t => if x = c then '\\' :: c :: escapeChar c t else x :: escapeChar c t

/-- Go `escapeMarkdown`: one `ReplaceAll` pass per character of the list, in order. -/
def escapeMarkdown (text : List Char) : List Char :=
  markdownChars.foldl (fun t c => escapeChar c t) text

/-- What `http.Client.Post` hands back when the exchange succeeded: the status code and
the body as `io.ReadAll` returned it. -/
structure HttpResponse where
  StatusCode : Int
  Body : String
  deriving DecidableEq, Repr

/-- Go `TelegramNotifier.Send`: the returned error, `none` for `nil`.  `marshal` stands for
`json.Marshal` of the payload `chat_id`, `text`, `parse_mode`; `post` for
`client.Post(url, "application/json", body)`, which yields a transport error or a
response. -/
def TelegramNotifier.Send (marshal : String → String → String → String)
    (post : String → String → Except String HttpResponse)
    (botToken chatID title message : String) : Option String :=
  let url := "https://api.telegram.org/bot" ++ botToken ++ "/sendMessage"
  let text := "*" ++ String.mk (escapeMarkdown title.toList) ++ "*\n\n" ++
    String.mk (escapeMarkdown message.toList)
  let body := marshal chatID text "MarkdownV2"
  match post url body with
  | .error err => some ("telegram request failed: " ++ err)
  | .ok resp =>
    if resp.StatusCode ≠ 200 then some ("telegram API error: " ++ resp.Body)
    else none

/-! ## Sample data

A concrete environment and store on which the definitions are evaluated.  The
environment agrees with Go on the inputs that occur below: the two condition
payloads of the default warning rules, the sample channel payload, whole
percentages, byte counts under 1024. -/

/-- The zero `time.Time` (1 January of year 1, UTC) in nanoseconds since the Unix epoch:
the `LastAlertAt` of a rule that has never fired. -/
def zeroTime : Int := -62135596800000000000

/-- A sample instant (14 November 2023, 22:13:20 UTC). -/
def sampleNow : Int := 1700000000000000000

/-- Condition payload of the default 80% warning rule. -/
def cond80 : String := "\x7b\"threshold\": 80\x7d"

/-- Condition payload of the default 90% warning rule. -/
def cond90 : String := "\x7b\"threshold\": 90\x7d"

/-- A well-formed webhook payload. -/
def hookConfig : String := "\x7b\"url\": \"http://127.0.0.1:9/hook\"\x7d"

/-- Sample environment in which every send succeeds. -/
def sampleEnv : Env where
  unmarshalCondition := fun s =>
    if s = cond80 then (⟨80, 0⟩, none)
    else if s = cond90 then (⟨90, 0⟩, none)
    else (⟨0, 0⟩, some "invalid character")
  unmarshalConfig := fun _ c => if c = hookConfig then none else some "unexpected end of JSON input"
  sendOk := fun _ _ _ _ => true
  percentLt := fun used quota threshold => decide (used * 100 < threshold * quota)
  fmtPercent := fun used quota => toString (used * 100 / quota) ++ ".0"
  fmtScaled := fun bytes unit => toString (bytes / unit) ++ ".00"
  fmtTime := fun _ => "2023-11-14 22:13:20"
  dayOfMonth := fun _ => 14
  addDays := fun t d => t + d * (24 * Hour)

/-- Sample environment in which the first send attempt fails and every later one succeeds. -/
def flakyEnv : Env := { sampleEnv with sendOk := fun k _ _ _ => decide (k ≠ 0) }

/-- An enabled webhook channel. -/
def hook (id : Nat) : NotifyChannel := ⟨id, "ops", "webhook", hookConfig, true⟩

/-- The default 80% warning rule, never fired, notifying the given channels. -/
def rule80 (channelIDs : String) : AlertRule :=
  ⟨1, "流量预警 (80%)", "quota_warning", cond80, true, 60, channelIDs, zeroTime⟩

/-- The default 90% warning rule, never fired, notifying the given channels. -/
def rule90 (channelIDs : String) : AlertRule :=
  ⟨2, "流量预警 (90%)", "quota_warning", cond90, true, 30, channelIDs, zeroTime⟩

/-- The default quota-exceeded rule, never fired, notifying the given channels. -/
def ruleExceeded (channelIDs : String) : AlertRule :=
  ⟨3, "流量超限告警", "quota_exceeded", "\x7b\x7d", true, 60, channelIDs, zeroTime⟩

/-- A node with quota 1000 and the given usage and flag. -/
def sampleNode (used : Int) (exceeded : Bool) : Node :=
  ⟨7, "edge", 1000, used, exceeded, "online", sampleNow, 1, none⟩

/-- A client with quota 1000 and the given usage and flag. -/
def sampleClient (used : Int) (exceeded : Bool) : Client :=
  ⟨9, "laptop", 1000, used, exceeded, 1, none⟩

/-- A store with the given rules, channels and node, empty log and empty traces. -/
def sampleState (rules : List AlertRule) (channels : List NotifyChannel) (node : Node) : State :=
  ⟨[node], [sampleClient 0 false], rules, channels, [], [], [], []⟩

/-! ## Closed forms of the dispatch loops

The loops of `TriggerAlert` written out as lists: which entries of a channel list
lead to a send, what one pass over a rule appends, what a whole call appends.
The lemmas `notifyChannel_eq`, `fireRule_eq` and `TriggerAlert_eq` below connect
them with the loops. -/

/-- The title `fmt.Sprintf("[%s] %s", alertTypeToTitle(alertType), targetName)`. -/
def alertTitle (alertType targetName : String) : String :=
  "[" ++ alertTypeToTitle alertType ++ "] " ++ targetName

/-- The `AlertLog` row written after a send with outcome `ok`. -/
def logRow (now : Int) (alertType targetType : String) (targetID : Nat)
    (targetName message : String) (rule : AlertRule) (ok : Bool) : AlertLog :=
  { RuleID := rule.ID
    RuleName := rule.Name
    Typ := alertType
    Message := message
    TargetType := targetType
    TargetID := targetID
    TargetName := targetName
    Status := if ok then "sent" else "failed"
    CreatedAt := now }

/-- The channel and notifier an entry of a channel list leads to, `none` when the loop
body skips the entry (empty, not a number, no such channel, disabled, no notifier). -/
def resolveEntry (env : Env) (channels : List NotifyChannel) (entry : List Char) :
    Option (NotifyChannel × Notifier) :=
  if trimSpace entry = [] then none
  else
    match ParseUint32 (trimSpace entry) with
    | none => none
    | some channelID =>
      match channels.find? (fun c => c.ID == channelID) with
      | none => none
      | some channel =>
        if channel.Enabled = false then none
        else
          match CreateNotifier env channel with
          | .error _ => none
          | .ok notifier => some (channel, notifier)

/-- The usable channels of a rule, in list order (an id listed twice occurs twice). -/
def usableChannels (env : Env) (channels : List NotifyChannel) (rule : AlertRule) :
    List (NotifyChannel × Notifier) :=
  (splitComma rule.ChannelIDs.toList).filterMap (resolveEntry env channels)

/-- What one pass over the usable channels of a rule produces when the first send is
attempt number `k`: per channel the notification and the row logged for it. -/
def passEffects (env : Env) (now : Int) (alertType targetType : String) (targetID : Nat)
    (targetName message : String) (rule : AlertRule) :
    Nat → List (NotifyChannel × Notifier) → List (Notification × AlertLog)
  | _, [] => []
  | k, j :: js =>
    (⟨rule.ID, j.1.ID, alertTitle alertType targetName, message,
        env.sendOk k j.2 (alertTitle alertType targetName) message⟩,
      logRow now alertType targetType targetID targetName message rule
        (env.sendOk k j.2 (alertTitle alertType targetName) message)) ::
      passEffects env now alertType targetType targetID targetName message rule (k + 1) js

/-- What the passes over a list of firing rules produce, the first send being attempt `k`. -/
def callEffects (env : Env) (now : Int) (alertType targetType : String) (targetID : Nat)
    (targetName message : String) (channels : List NotifyChannel) :
    Nat → List AlertRule → List (Notification × AlertLog)
  | _, [] => []
  | k, r :: rs =>
    passEffects env now alertType targetType targetID targetName message r k
        (usableChannels env channels r) ++
      callEffects env now alertType targetType targetID targetName message channels
        (k + (usableChannels env channels r).length) rs

/-- The rules a `TriggerAlert` call fires: loaded by type and `enabled`, cooldown elapsed. -/
def firedRules (now : Int) (alertType : String) (s : State) : List AlertRule :=
  (matchingRules alertType s).filter (fun r => !inCooldown now r.LastAlertAt r.CooldownMin)

/-- The rule table after `last_alert_at` of each fired rule was written. -/
def stampRules (now : Int) (fired : List AlertRule) (rules : List AlertRule) : List AlertRule :=
  fired.foldl (fun rs r => updateRule rs r.ID (fun x => { x with LastAlertAt := now })) rules

/-- What a dispatch may do to a state: the node, client and channel tables stay as they
are, the log and the traces only gain entries at the end, and the new rows, sends and
calls satisfy `P`, `Q` and `C`. -/
structure Grows (P : AlertLog → Prop) (Q : Notification → Prop) (C : Dispatch → Prop)
    (s s' : State) : Prop where
  nodes : s'.nodes = s.nodes
  clients : s'.clients = s.clients
  channels : s'.channels = s.channels
  logs : ∃ ls, s'.logs = s.logs ++ ls ∧ ∀ l ∈ ls, P l
  sent : ∃ ns, s'.sent = s.sent ++ ns ∧ ∀ n ∈ ns, Q n
  calls : ∃ cs, s'.calls = s.calls ++ cs ∧ ∀ c ∈ cs, C c

/-- The call left the node and client tables alone, and every row, send and dispatch
it added is a quota warning about `targetName`. -/
def RaisedOnlyWarnings (targetName : String) (s s' : State) : Prop :=
  s'.nodes = s.nodes ∧ s'.clients = s.clients ∧
    ∃ ls ns cs, s'.logs = s.logs ++ ls ∧ s'.sent = s.sent ++ ns ∧ s'.calls = s.calls ++ cs ∧
      (∀ l ∈ ls, l.Typ = "quota_warning") ∧
      (∀ n ∈ ns, n.Title = alertTitle "quota_warning" targetName) ∧
      (∀ c ∈ cs, c.AlertType = "quota_warning")

/-! ## Scenarios of the claims -/

/-- The store after the node at 85% was checked against the two default warning rules. -/
def afterFirstCheck : State :=
  CheckNodeQuota sampleEnv sampleNow (sampleNode 850 false)
    (sampleState [rule80 "1", rule90 "1"] [hook 1] (sampleNode 850 false))

/-- The same store five minutes later, the node having reached 90%, after it was checked
again. -/
def afterSecondCheck : State :=
  CheckNodeQuota sampleEnv (sampleNow + 5 * Minute) (sampleNode 900 false)
    { afterFirstCheck with nodes := [sampleNode 900 false] }

/-- One scheduled pass over a node: read it from the store by primary key, then check it. -/
def recheckNode (env : Env) (id : Nat) (s : State) (now : Int) : State :=
  match s.nodes.find? (fun n => n.ID == id) with
  | none => s
  | some node => CheckNodeQuota env now node s

/-- One scheduled pass over a client: read it from the store by primary key, then check it. -/
def recheckClient (env : Env) (id : Nat) (s : State) (now : Int) : State :=
  match s.clients.find? (fun c => c.ID == id) with
  | none => s
  | some client => CheckClientQuota env now client s

/-- Number of times `TriggerAlert` was entered with the type quota_exceeded for the
given target. -/
def exceededCalls (targetType : String) (targetID : Nat) (s : State) : Nat :=
  (s.calls.filter (fun c =>
    c.AlertType == "quota_exceeded" && c.TargetType == targetType && c.TargetID == targetID)).length

/-- The operations of the alert service other than `ResetQuotas`: the quota checks,
the two dispatch entry points, the offline checks and the log cleanup. -/
inductive Op where
  | checkNodeQuota (node : Node)
  | checkClientQuota (client : Client)
  | triggerAlert (alertType targetType : String) (targetID : Nat) (targetName message : String)
  | triggerAlertWithKey (alertType targetType : String) (targetID : Nat)
      (targetName message key : String)
  | checkNodeOffline (node : Node) (previousStatus : String)
  | checkOfflineNodes (timeoutMinutes : Int)
  | cleanupAlertLogs (retentionDays : Int)
  deriving DecidableEq, Repr

/-- Run one operation at the given instant. -/
def runOp (env : Env) (s : State) (step : Int × Op) : State :=
  match step.2 with
  | .checkNodeQuota node => CheckNodeQuota env step.1 node s
  | .checkClientQuota client => CheckClientQuota env step.1 client s
  | .triggerAlert aT tT tid tn msg => TriggerAlert env step.1 aT tT tid tn msg s
  | .triggerAlertWithKey aT tT tid tn msg key =>
    TriggerAlertWithKey env step.1 aT tT tid tn msg key s
  | .checkNodeOffline node prev => CheckNodeOffline env step.1 node prev s
  | .checkOfflineNodes m => CheckOfflineNodes env step.1 m s
  | .cleanupAlertLogs d => CleanupAlertLogs env step.1 d s

/-- Run a sequence of operations, each at its own instant. -/
def runOps (env : Env) (s : State) (steps : List (Int × Op)) : State :=
  steps.foldl (runOp env) s

/-- Row by row, the node and client tables of `s'` are those of `s` with the same primary
keys, and every `QuotaExceeded` flag that is set in `s` is set in `s'`. -/
def FlagsKept (s s' : State) : Prop :=
  List.Forall₂ (fun (n n' : Node) => n'.ID = n.ID ∧ (n.QuotaExceeded = true →
      n'.QuotaExceeded = true)) s.nodes s'.nodes ∧
    List.Forall₂ (fun (c c' : Client) => c'.ID = c.ID ∧ (c.QuotaExceeded = true →
      c'.QuotaExceeded = true)) s.clients s'.clients

/-- The call passed over the rule without touching it: its row is still in the table, and
no new log row, send or `last_alert_at` write is on its behalf. -/
def Untouched (r : AlertRule) (s s' : State) : Prop :=
  r ∈ s'.rules ∧
    ∃ ls ns st, s'.logs = s.logs ++ ls ∧ s'.sent = s.sent ++ ns ∧ s'.stamps = s.stamps ++ st ∧
      (∀ l ∈ ls, l.RuleID ≠ r.ID) ∧ (∀ n ∈ ns, n.RuleID ≠ r.ID) ∧ (∀ x ∈ st, x.RuleID ≠ r.ID)

/-- The call processed the rule: its `last_alert_at` was written exactly once, with `now`,
and its row now carries that value. -/
def Processed (now : Int) (r : AlertRule) (s s' : State) : Prop :=
  { r with LastAlertAt := now } ∈ s'.rules ∧
    ∃ st, s'.stamps = s.stamps ++ st ∧ st.count ⟨r.ID, now⟩ = 1 ∧
      ∀ x ∈ st, x.RuleID = r.ID → x = ⟨r.ID, now⟩

/-- A rule table with one rule of each kind for a quota_exceeded dispatch at `sampleNow`:
another type, due, disabled, and inside its cooldown. -/
def mixedRules : List AlertRule :=
  [rule80 "1", ruleExceeded "1, 2",
    ⟨4, "off", "quota_exceeded", "\x7b\x7d", false, 60, "1", zeroTime⟩,
    ⟨5, "cooling", "quota_exceeded", "\x7b\x7d", true, 60, "1", sampleNow - 10 * Minute⟩]

/-- A store with the rules `mixedRules` and two webhook channels. -/
def mixedState : State :=
  sampleState mixedRules [hook 1, hook 2] (sampleNode 1000 false)

/-- The invariant behind the cooldown property of the rule with primary key `rid` and
cooldown `C`, relative to the stamps `old` present at the start: the rule is stored under
a unique key, and the writes of its `last_alert_at` made since are spaced by at least `C`
minutes, none later than the stored `LastAlertAt`. -/
def CooldownInv (rid : Nat) (C : Int) (old : List Stamp) (s : State) : Prop :=
  (s.rules.map (fun r => r.ID)).Nodup ∧
    ∃ r ∈ s.rules, r.ID = rid ∧ r.CooldownMin = C ∧
      ∃ st, s.stamps = old ++ st ∧
        (st.filter (fun x => x.RuleID == rid)).Pairwise (fun a b => a.At + C * Minute ≤ b.At) ∧
        ∀ x ∈ st.filter (fun x => x.RuleID == rid), x.At ≤ r.LastAlertAt

/-- A quota_exceeded rule whose cooldown, 153722868 minutes, does not fit `int64`
nanoseconds. -/
def longCooldownRule : AlertRule :=
  ⟨3, "流量超限告警", "quota_exceeded", "\x7b\x7d", true, 153722868, "1", zeroTime⟩

/-- The trailing line `TriggerAlertWithKey` appends to a message to carry a dedup key. -/
def keyMarker (key : String) : String := "\n<!-- " ++ key ++ " -->"

/-- Whether the text ends with the given characters. -/
def endsWith (suffix text : List Char) : Bool :=
  text.drop (text.length - suffix.length) == suffix

/-- The row is a quota warning whose message ends with the marker line of the key. -/
def carriesKey (key : String) (l : AlertLog) : Bool :=
  l.Typ == "quota_warning" && endsWith (keyMarker key).toList l.Message.toList

/-- If both rows carry the key, the second was created at least 24 hours after the first. -/
def Spaced (key : String) (a b : AlertLog) : Prop :=
  carriesKey key a = true → carriesKey key b = true → a.CreatedAt + 24 * Hour ≤ b.CreatedAt

/-- One quota check, of a node or of a client, at the given instant. -/
def runCheck (env : Env) (s : State) (step : Int × (Node ⊕ Client)) : State :=
  match step.2 with
  | .inl node => CheckNodeQuota env step.1 node s
  | .inr client => CheckClientQuota env step.1 client s

/-- A sequence of quota checks, each at its own instant. -/
def runChecks (env : Env) (s : State) (steps : List (Int × (Node ⊕ Client))) : State :=
  steps.foldl (runCheck env) s

/-- The invariant behind the dedup property for one key during a quota check, relative to
the log `old` present when the check started: the log has only grown, and the rows
appended since are spaced from the old rows. -/
def DedupInv (key : String) (old : List AlertLog) (s : State) : Prop :=
  ∃ new, s.logs = old ++ new ∧ ∀ a ∈ old, ∀ b ∈ new, Spaced key a b

/-- The store after the node at 85% was checked against the 80% warning rule notifying
two channels. -/
def afterTwoChannelCheck : State :=
  CheckNodeQuota sampleEnv sampleNow (sampleNode 850 false)
    (sampleState [rule80 "1, 2"] [hook 1, hook 2] (sampleNode 850 false))

/-- Sample environment in which every send fails. -/
def failEnv : Env := { sampleEnv with sendOk := fun _ _ _ _ => false }

/-- The store after node 7180 at 85% was checked against the 80% warning rule. -/
def afterFarNodeCheck : State :=
  CheckNodeQuota sampleEnv sampleNow ⟨7180, "far", 1000, 850, false, "online", sampleNow, 1, none⟩
    (sampleState [rule80 "1"] [hook 1] (sampleNode 0 false))

/-- The store in which the node at 100%, its flag clear, meets the 80% warning rule and
the quota-exceeded rule. -/
def warnAndExceedState : State :=
  sampleState [rule80 "1", ruleExceeded "1"] [hook 1] (sampleNode 1000 false)

/-- The node and client tables have unique, non-zero primary keys. -/
def StoreKeys (s : State) : Prop :=
  ((s.nodes.map (fun n => n.ID)).Nodup ∧ ∀ n ∈ s.nodes, n.ID ≠ 0) ∧
    ((s.clients.map (fun c => c.ID)).Nodup ∧ ∀ c ∈ s.clients, c.ID ≠ 0)

/-- A store for the reset: on day 14 (the day of `sampleEnv`), node 7 and client 9 are to
be reset on day 14 and were never reset, node 8 is to be reset on day 1, and client 10 was
reset a day ago. -/
def resetState : State :=
  ⟨[⟨7, "edge", 1000, 900, true, "online", sampleNow, 14, none⟩,
      ⟨8, "core", 1000, 300, false, "online", sampleNow, 1, none⟩],
    [⟨9, "laptop", 1000, 1000, true, 14, none⟩,
      ⟨10, "phone", 1000, 20, false, 14, some (sampleNow - 24 * Hour)⟩],
    [], [], [], [], [], []⟩

/-- The store two hours after `resetState` was reset, node 7 having used 50 and client 9
having used 70 in the meantime. -/
def laterState : State :=
  ⟨[⟨7, "edge", 1000, 50, false, "online", sampleNow, 14, some sampleNow⟩,
      ⟨8, "core", 1000, 300, false, "online", sampleNow, 1, none⟩],
    [⟨9, "laptop", 1000, 70, false, 14, some sampleNow⟩,
      ⟨10, "phone", 1000, 20, false, 14, some (sampleNow - 24 * Hour)⟩],
    [], [], [], [], [], []⟩

/-- The instant `time.Now().Add(-time.Duration(timeoutMinutes) * time.Minute)` of
`CheckOfflineNodes`. -/
def offlineThreshold (now timeoutMinutes : Int) : Int :=
  now + wrapInt64 (wrapInt64 (-timeoutMinutes) * Minute)

/-- The `Where` clause of `CheckOfflineNodes`: `status = "online" AND last_seen < ?`. -/
def staleOnline (now timeoutMinutes : Int) (n : Node) : Bool :=
  n.Status == "online" && decide (n.LastSeen < offlineThreshold now timeoutMinutes)

/-- The `TriggerAlert` entry `CheckOfflineNodes` makes for a node. -/
def offlineCall (env : Env) (now : Int) (n : Node) : Dispatch :=
  ⟨"node_offline", "node", n.ID, n.Name,
    "节点 " ++ n.Name ++ " 心跳超时，已标记为离线\n最后心跳: " ++ env.fmtTime n.LastSeen, now⟩

/-- The default node-offline rule, never fired, notifying the given channels. -/
def ruleOffline (channelIDs : String) : AlertRule :=
  ⟨6, "节点离线告警", "node_offline", "\x7b\x7d", true, 30, channelIDs, zeroTime⟩

/-- A store for the heartbeat sweep at `sampleNow` with a timeout of 5 minutes: node 7 is
online and was last seen 10 minutes ago, node 8 is online and was seen a minute ago,
node 11 is offline and was last seen an hour ago. -/
def sweepState : State :=
  ⟨[⟨7, "edge", 0, 0, false, "online", sampleNow - 10 * Minute, 1, none⟩,
      ⟨8, "core", 0, 0, false, "online", sampleNow - Minute, 1, none⟩,
      ⟨11, "old", 0, 0, false, "offline", sampleNow - 60 * Minute, 1, none⟩],
    [], [ruleOffline "1"], [hook 1], [], [], [], []⟩

/-! ### The Telegram message, piece by piece -/

/-- The address `TelegramNotifier.Send` posts to. -/
def sendMessageURL (botToken : String) : String :=
  "https://api.telegram.org/bot" ++ botToken ++ "/sendMessage"

/-- The `text` field `TelegramNotifier.Send` builds from a title and a message. -/
def telegramText (title message : String) : String :=
  "*" ++ String.mk (escapeMarkdown title.toList) ++ "*\n\n" ++
    String.mk (escapeMarkdown message.toList)

/-- The reserved characters of MarkdownV2 as the specification lists them. -/
def reservedChars : List Char :=
  ['_', '*', '[', ']', '(', ')', '~', Char.ofNat 96, '>', '#', '+', '-', '=', '|', '\x7b',
   '\x7d', '.', '!']

/-- One character-wise pass that puts a backslash before every character satisfying `p`
and copies every other character. -/
def escapeWhere (p : Char → Bool) : List Char → List Char
  | [] => []
  | x :: t => if p x then '\\' :: x :: escapeWhere p t else x :: escapeWhere p t

/-- The escaping as the specification words it: one simultaneous pass that prefixes each
reserved character with one backslash and leaves every other character unchanged. -/
def escapeOnePass (text : List Char) : List Char :=
  escapeWhere (fun c => decide (c ∈ reservedChars)) text

/-! ## `internal/notify/notify.go`: the webhook notifier -/

/-- The webhook payload of a channel (`model.WebhookConfig`), fields as `NewWebhookNotifier`
reads them; `Headers` lists the entries of the Go map in the order `range` visits them. -/
structure WebhookConfig where
  URL : String
  Method : String
  Headers : List (String × String)
  deriving DecidableEq, Repr

/-- Go `WebhookNotifier`. -/
structure WebhookNotifier where
  URL : String
  Method : String
  Headers : List (String × String)
  deriving DecidableEq, Repr

/-- Go `NewWebhookNotifier`. -/
def NewWebhookNotifier (config : WebhookConfig) : WebhookNotifier :=
  let method := if config.Method = "" then "POST" else config.Method
  { URL := config.URL, Method := method, Headers := config.Headers }

/-- The request `WebhookNotifier.Send` hands to `client.Do`: method, address, body and the
`Header.Set` calls made on it, in order. -/
structure HttpRequest where
  Method : String
  URL : String
  Body : String
  Header : List (String × String)
  deriving DecidableEq, Repr

/-- Go `WebhookNotifier.Send`: the returned error, `none` for `nil`.  `marshal` stands for
`json.Marshal` of the payload `title`, `message`, `timestamp`; `newRequest` for the error
of `http.NewRequest(method, url, body)`, if any; `doRequest` for `client.Do`, which
yields a transport error or a response. -/
def WebhookNotifier.Send (marshal : String → String → Int → String)
    (newRequest : String → String → Option String)
    (doRequest : HttpRequest → Except String HttpResponse)
    (now : Int) (w : WebhookNotifier) (title message : String) : Option String :=
  let body := marshal title message (now / 1000000000)
  match newRequest w.Method w.URL with
  | some err => some ("create request failed: " ++ err)
  | none =>
    let req : HttpRequest :=
      { Method := w.Method, URL := w.URL, Body := body,
        Header := ("Content-Type", "application/json") :: w.Headers }
    match doRequest req with
    | .error err => some ("webhook request failed: " ++ err)
    | .ok resp =>
      if resp.StatusCode ≥ 400 then
        some ("webhook error (status " ++ toString resp.StatusCode ++ "): " ++ resp.Body)
      else none

/-- The request `WebhookNotifier.Send` builds. -/
def webhookRequest (marshal : String → String → Int → String) (now : Int)
    (w : WebhookNotifier) (title message : String) : HttpRequest :=
  { Method := w.Method, URL := w.URL, Body := marshal title message (now / 1000000000),
    Header := ("Content-Type", "application/json") :: w.Headers }

/-! ## `internal/notify/alert.go`: the default rules -/

/-- The rule literals of `CreateDefaultRules`, before the store assigns their keys. -/
def defaultRules : List AlertRule :=
  [⟨0, "节点离线告警", "node_offline", "\x7b\x7d", true, 30, "", zeroTime⟩,
    ⟨0, "流量超限告警", "quota_exceeded", "\x7b\x7d", true, 60, "", zeroTime⟩,
    ⟨0, "流量预警 (80%)", "quota_warning", "\x7b\"threshold\": 80\x7d", true, 60, "", zeroTime⟩,
    ⟨0, "流量预警 (90%)", "quota_warning", "\x7b\"threshold\": 90\x7d", true, 30, "", zeroTime⟩]

/-- Go `a.db.Create(&rule)`: append the row under the primary key the store assigns;
`newID` gives that key for the current content of the table. -/
def createRule (newID : List AlertRule → Nat) (s : State) (rule : AlertRule) : State :=
  { s with rules := s.rules ++ [{ rule with ID := newID s.rules }] }

/-- Go `CreateDefaultRules`. -/
def CreateDefaultRules (newID : List AlertRule → Nat) (s : State) : State :=
  if s.rules.length > 0 then s
  else defaultRules.foldl (createRule newID) s

/-- The retention threshold `time.Now().AddDate(0, 0, -retentionDays)` of
`CleanupAlertLogs`. -/
def retentionThreshold (env : Env) (now retentionDays : Int) : Int :=
  env.addDays now (wrapInt64 (-retentionDays))

/-- A store with the quota-exceeded rule alone, notifying channel 1, in which node 7 and
client 9 have used their whole quota and are not flagged yet. -/
def lostAlertState : State :=
  ⟨[sampleNode 1000 false], [sampleClient 1000 false], [ruleExceeded "1"], [hook 1],
    [], [], [], []⟩

/-- A store with a log of three rows, created 40 days, 30 days and one hour before
`sampleNow`. -/
def agedLogState : State :=
  ⟨[], [], [ruleExceeded "1"], [hook 1],
    [⟨3, "r", "quota_exceeded", "a", "node", 7, "edge", "sent", sampleNow - 40 * (24 * Hour)⟩,
      ⟨3, "r", "quota_exceeded", "b", "node", 7, "edge", "failed", sampleNow - 30 * (24 * Hour)⟩,
      ⟨3, "r", "quota_exceeded", "c", "node", 7, "edge", "sent", sampleNow - Hour⟩],
    [], [], []⟩

/-! ### The channel loop, entry by entry -/

/-- The channel id an entry of the split channel list stands for: the entry is trimmed,
and skipped when it is empty or `strconv.ParseUint(idStr, 10, 32)` fails. -/
def entryID (entry : List Char) : Option Nat :=
  if trimSpace entry = [] then none else ParseUint32 (trimSpace entry)

/-- The channel ids a channel list addresses, in list order. -/
def addressedIDs (channelIDs : String) : List Nat :=
  (splitComma channelIDs.toList).filterMap entryID

/-- The channel loop body of `TriggerAlert` from the lookup of the channel on, for an
entry that parsed to `channelID`. -/
def notifyID (env : Env) (now : Int) (alertType targetType : String) (targetID : Nat)
    (targetName message : String) (rule : AlertRule) (s : State) (channelID : Nat) : State :=
  match s.channels.find? (fun c => c.ID == channelID) with
  | none => s
  | some channel =>
    if channel.Enabled = false then s
    else
      match CreateNotifier env channel with
      | .error _ => s
      | .ok notifier =>
        let title := "[" ++ alertTypeToTitle alertType ++ "] " ++ targetName
        let ok := env.sendOk s.sent.length notifier title message
        { s with
          sent := s.sent ++ [⟨rule.ID, channel.ID, title, message, ok⟩]
          logs := s.logs ++ [{
            RuleID := rule.ID
            RuleName := rule.Name
            Typ := alertType
            Message := message
            TargetType := targetType
            TargetID := targetID
            TargetName := targetName
            Status := if ok then "sent" else "failed"
            CreatedAt := now }] }

/-- The channel and notifier a channel id leads to, `none` when the loop body skips it
(no such channel, disabled, no notifier). -/
def resolveID (env : Env) (channels : List NotifyChannel) (channelID : Nat) :
    Option (NotifyChannel × Notifier) :=
  match channels.find? (fun c => c.ID == channelID) with
  | none => none
  | some channel =>
    if channel.Enabled = false then none
    else
      match CreateNotifier env channel with
      | .error _ => none
      | .ok notifier => some (channel, notifier)

/-- Whether the character is one of `0` to `9`. -/
def isDecimalDigit (c : Char) : Bool := decide (48 ≤ c.toNat ∧ c.toNat ≤ 57)

/-- The number a string of decimal digits denotes. -/
def decimalValue (w : List Char) : Nat :=
  w.foldl (fun acc c => acc * 10 + (c.toNat - 48)) 0

/-- A channel table with a usable channel 1, a disabled channel 2, a channel 3 of an
unknown type and a channel 4 whose payload does not parse. -/
def patchyChannels : List NotifyChannel :=
  [hook 1, ⟨2, "ops", "webhook", hookConfig, false⟩, ⟨3, "ops", "pager", hookConfig, true⟩,
    ⟨4, "ops", "webhook", "\x7b", true⟩]

/-- A store with `patchyChannels` and the quota-exceeded rule notifying the given list. -/
def patchyState (channelIDs : String) : State :=
  ⟨[sampleNode 1000 false], [], [ruleExceeded channelIDs], patchyChannels, [], [], [], []⟩

/-- A warning rule with an empty condition, never fired, notifying channel 1. -/
def ruleNoCondition : AlertRule :=
  ⟨8, "预警", "quota_warning", "", true, 60, "1", zeroTime⟩

/-! ## `internal/gost/client.go`: the services of a tunnel -/

/-- Go `matchTunnelService`; `%d` of a `uint` is its decimal rendering. -/
def matchTunnelService (name : String) (tunnelID : Nat) : Bool :=
  let pfx := "tunnel-" ++ toString tunnelID
  name == pfx || name == pfx ++ "-tcp" || name == pfx ++ "-udp"

/-- The first loop of Go `SyncTunnelConfig`: the paths it sends a `DELETE` to, given the
`name` entry of each service `GetServices` returned (`none` when that entry is not a
string). -/
def syncDeletes (services : List (Option String)) (tunnelID : Nat) : List String :=
  services.filterMap (fun svc =>
    match svc with
    | none => none
    | some name =>
      if matchTunnelService name tunnelID then some ("/config/services/" ++ name) else none)

/-! ## `internal/api/websocket.go`: the origin check -/

/-- Go `strings.Index(s, pat)`: position of the first occurrence, `none` for `-1`. -/
def stringsIndex (pat : List Char) : List Char → Option Nat
  | [] => if pat = [] then some 0 else none
  | c :: t =>
    if pat.isPrefixOf (c :: t) then some 0 else (stringsIndex pat t).map (fun i => i + 1)

/-- Go `strings.HasPrefix(s, p)`. -/
def HasPrefix (s p : String) : Bool := p.toList.isPrefixOf s.toList

/-- Go `strings.HasSuffix(s, p)`. -/
def HasSuffix (s p : String) : Bool := p.toList.isSuffixOf s.toList

/-- Go `extractHost`. -/
def extractHost (urlStr : String) : String :=
  let s := urlStr.toList
  let s1 :=
    match stringsIndex "://".toList s with
    | some idx => s.drop (idx + 3)
    | none => s
  let s2 :=
    match stringsIndex "/".toList s1 with
    | some idx => s1.take idx
    | none => s1
  String.mk s2

/-- Go `checkWSOrigin`: `debug` and `allowed` are the package variables `wsDebugMode` and
`allowedWSOrigins`, `origin` is the `Origin` header of the request (empty when absent),
`host` its `Host`. -/
def checkWSOrigin (debug : Bool) (allowed : List String) (origin host : String) : Bool :=
  if origin = "" then true
  else if debug && (HasPrefix origin "http://localhost" || HasPrefix origin "http://127.0.0.1" ||
      HasPrefix origin "https://localhost" || HasPrefix origin "https://127.0.0.1") then true
  else if allowed.length = 0 then extractHost origin == host
  else
    allowed.any (fun a =>
      a == "*" || origin == a ||
        (HasPrefix a "*." &&
          (HasSuffix (extractHost origin) (String.mk (a.toList.drop 1)) ||
            extractHost origin == String.mk (a.toList.drop 2))))

/-- The host of an origin without its optional port: the text before the first colon. -/
def hostWithoutPort (hostport : String) : String :=
  String.mk (hostport.toList.takeWhile (fun c => c != ':'))

/-- A store without clients: node 7 has used its whole quota and is not flagged yet; the
quota-exceeded rule notifies channel 1. -/
def nodeOnlyState : State :=
  ⟨[sampleNode 1000 false], [], [ruleExceeded "1"], [hook 1], [], [], [], []⟩

/-- A store without nodes: client 9 has used its whole quota and is not flagged yet; the
quota-exceeded rule notifies channel 1. -/
def clientOnlyState : State :=
  ⟨[], [sampleClient 1000 false], [ruleExceeded "1"], [hook 1], [], [], [], []⟩

/-- A store whose only rule has a cooldown of 153722868 minutes and fired a minute before
`sampleNow`. -/
def wrappedCooldownState : State :=
  sampleState [{ longCooldownRule with LastAlertAt := sampleNow - Minute }] [hook 1]
    (sampleNode 1000 true)

/-! ## The loops and their closed forms -/

/-- The state after one send on behalf of `rule` over the job `j`. -/
theorem notifyChannel_eq (env : Env) (now : Int) (aT tT : String) (tid : Nat) (tn msg : String)
    (rule : AlertRule) (s : State) (entry : List Char) :
    notifyChannel env now aT tT tid tn msg rule s entry =
      match resolveEntry env s.channels entry with
      | none => s
      | some j =>
        { s with
          sent := s.sent ++ [⟨rule.ID, j.1.ID, alertTitle aT tn, msg,
            env.sendOk s.sent.length j.2 (alertTitle aT tn) msg⟩]
          logs := s.logs ++ [logRow now aT tT tid tn msg rule
            (env.sendOk s.sent.length j.2 (alertTitle aT tn) msg)] } := by
  unfold notifyChannel resolveEntry
  simp only []
  by_cases h1 : trimSpace entry = []
  · simp [h1]
  · simp only [h1, if_false]
    cases h2 : ParseUint32 (trimSpace entry) with
    | none => simp
    | some id =>
      simp only []
      cases h3 : s.channels.find? (fun c => c.ID == id) with
      | none => simp
      | some ch =>
        simp only []
        by_cases h4 : ch.Enabled = false
        · simp [h4]
        · simp only [h4, if_false]
          cases h5 : CreateNotifier env ch with
          | error e => simp
          | ok nt => simp [alertTitle, logRow]

/-- The channel loop of one pass, as a list of effects. -/
theorem channelLoop_eq (env : Env) (now : Int) (aT tT : String) (tid : Nat) (tn msg : String)
    (rule : AlertRule) (entries : List (List Char)) (s : State) :
    entries.foldl (notifyChannel env now aT tT tid tn msg rule) s =
      { s with
        sent := s.sent ++ (passEffects env now aT tT tid tn msg rule s.sent.length
          (entries.filterMap (resolveEntry env s.channels))).map Prod.fst
        logs := s.logs ++ (passEffects env now aT tT tid tn msg rule s.sent.length
          (entries.filterMap (resolveEntry env s.channels))).map Prod.snd } := by
  induction entries generalizing s with
  | nil => simp [passEffects]
  | cons e es ih =>
    rw [List.foldl_cons, ih, notifyChannel_eq]
    cases h : resolveEntry env s.channels e with
    | none => simp [List.filterMap_cons, h]
    | some j => simp [List.filterMap_cons, h, passEffects, List.append_assoc]

/-- Length of the effects of a pass: one per usable channel. -/
theorem passEffects_length (env : Env) (now : Int) (aT tT : String) (tid : Nat) (tn msg : String)
    (rule : AlertRule) (k : Nat) (js : List (NotifyChannel × Notifier)) :
    (passEffects env now aT tT tid tn msg rule k js).length = js.length := by
  induction js generalizing k with
  | nil => simp [passEffects]
  | cons j js ih => simp [passEffects, ih]

/-- One pass of the rule loop. -/
theorem fireRule_eq (env : Env) (now : Int) (aT tT : String) (tid : Nat) (tn msg : String)
    (s : State) (rule : AlertRule) :
    fireRule env now aT tT tid tn msg s rule =
      if inCooldown now rule.LastAlertAt rule.CooldownMin then s
      else
        { s with
          rules := updateRule s.rules rule.ID (fun x => { x with LastAlertAt := now })
          sent := s.sent ++ (passEffects env now aT tT tid tn msg rule s.sent.length
            (usableChannels env s.channels rule)).map Prod.fst
          logs := s.logs ++ (passEffects env now aT tT tid tn msg rule s.sent.length
            (usableChannels env s.channels rule)).map Prod.snd
          stamps := s.stamps ++ [⟨rule.ID, now⟩] } := by
  unfold fireRule
  split
  · rfl
  · simp only [channelLoop_eq, usableChannels]

/-- The rule loop over any list of loaded rules. -/
theorem ruleLoop_eq (env : Env) (now : Int) (aT tT : String) (tid : Nat) (tn msg : String)
    (loaded : List AlertRule) (s : State) :
    loaded.foldl (fireRule env now aT tT tid tn msg) s =
      { s with
        rules := stampRules now
          (loaded.filter (fun r => !inCooldown now r.LastAlertAt r.CooldownMin)) s.rules
        sent := s.sent ++ (callEffects env now aT tT tid tn msg s.channels s.sent.length
          (loaded.filter (fun r => !inCooldown now r.LastAlertAt r.CooldownMin))).map Prod.fst
        logs := s.logs ++ (callEffects env now aT tT tid tn msg s.channels s.sent.length
          (loaded.filter (fun r => !inCooldown now r.LastAlertAt r.CooldownMin))).map Prod.snd
        stamps := s.stamps ++
          (loaded.filter (fun r => !inCooldown now r.LastAlertAt r.CooldownMin)).map
            (fun r => (⟨r.ID, now⟩ : Stamp)) } := by
  induction loaded generalizing s with
  | nil => simp [callEffects, stampRules]
  | cons r rs ih =>
    rw [List.foldl_cons, ih, fireRule_eq]
    by_cases h : inCooldown now r.LastAlertAt r.CooldownMin = true
    · simp [h, List.filter_cons]
    · simp [h, List.filter_cons, callEffects, stampRules, passEffects_length, List.append_assoc]

/-- Closed form of `TriggerAlert`. -/
theorem TriggerAlert_eq (env : Env) (now : Int) (aT tT : String) (tid : Nat) (tn msg : String)
    (s : State) :
    TriggerAlert env now aT tT tid tn msg s =
      { s with
        rules := stampRules now (firedRules now aT s) s.rules
        sent := s.sent ++ (callEffects env now aT tT tid tn msg s.channels s.sent.length
          (firedRules now aT s)).map Prod.fst
        logs := s.logs ++ (callEffects env now aT tT tid tn msg s.channels s.sent.length
          (firedRules now aT s)).map Prod.snd
        calls := s.calls ++ [⟨aT, tT, tid, tn, msg, now⟩]
        stamps := s.stamps ++ (firedRules now aT s).map (fun r => (⟨r.ID, now⟩ : Stamp)) } := by
  unfold TriggerAlert
  rw [ruleLoop_eq]
  rfl


/-- Every effect of a call stems from a fired rule and one of its usable channels. -/
theorem mem_callEffects (env : Env) (now : Int) (aT tT : String) (tid : Nat) (tn msg : String)
    (channels : List NotifyChannel) (rs : List AlertRule) (k : Nat) (e : Notification × AlertLog)
    (he : e ∈ callEffects env now aT tT tid tn msg channels k rs) :
    ∃ r ∈ rs, ∃ j ∈ usableChannels env channels r, ∃ ok : Bool,
      e = (⟨r.ID, j.1.ID, alertTitle aT tn, msg, ok⟩, logRow now aT tT tid tn msg r ok) := by
  have hp : ∀ (r : AlertRule) (js : List (NotifyChannel × Notifier)) (k : Nat),
      e ∈ passEffects env now aT tT tid tn msg r k js →
      ∃ j ∈ js, ∃ ok : Bool,
        e = (⟨r.ID, j.1.ID, alertTitle aT tn, msg, ok⟩, logRow now aT tT tid tn msg r ok) := by
    intro r js
    induction js with
    | nil => intro k h; simp [passEffects] at h
    | cons j js ih =>
      intro k h
      simp only [passEffects, List.mem_cons] at h
      rcases h with h | h
      · exact ⟨j, List.mem_cons_self _ _, _, h⟩
      · obtain ⟨j', hj', ok, hok⟩ := ih _ h
        exact ⟨j', List.mem_cons_of_mem _ hj', ok, hok⟩
  induction rs generalizing k with
  | nil => simp [callEffects] at he
  | cons r rs ih =>
    simp only [callEffects, List.mem_append] at he
    rcases he with h | h
    · obtain ⟨j, hj, ok, hok⟩ := hp r _ _ h
      exact ⟨r, List.mem_cons_self _ _, j, hj, ok, hok⟩
    · obtain ⟨r', hr', rest⟩ := ih _ h
      exact ⟨r', List.mem_cons_of_mem _ hr', rest⟩

/-- `Grows` is reflexive. -/
theorem grows_refl {P : AlertLog → Prop} {Q : Notification → Prop} {C : Dispatch → Prop}
    (s : State) : Grows P Q C s s :=
  ⟨rfl, rfl, rfl, ⟨[], by simp⟩, ⟨[], by simp⟩, ⟨[], by simp⟩⟩

/-- `Grows` is transitive. -/
theorem grows_trans {P : AlertLog → Prop} {Q : Notification → Prop} {C : Dispatch → Prop}
    {a b c : State} (h1 : Grows P Q C a b) (h2 : Grows P Q C b c) : Grows P Q C a c := by
  obtain ⟨l1, hl1, pl1⟩ := h1.logs
  obtain ⟨l2, hl2, pl2⟩ := h2.logs
  obtain ⟨n1, hn1, pn1⟩ := h1.sent
  obtain ⟨n2, hn2, pn2⟩ := h2.sent
  obtain ⟨c1, hc1, pc1⟩ := h1.calls
  obtain ⟨c2, hc2, pc2⟩ := h2.calls
  refine ⟨h2.nodes.trans h1.nodes, h2.clients.trans h1.clients, h2.channels.trans h1.channels,
    ⟨l1 ++ l2, by rw [hl2, hl1, List.append_assoc], ?_⟩,
    ⟨n1 ++ n2, by rw [hn2, hn1, List.append_assoc], ?_⟩,
    ⟨c1 ++ c2, by rw [hc2, hc1, List.append_assoc], ?_⟩⟩
  · intro l hl; rcases List.mem_append.1 hl with h | h
    · exact pl1 l h
    · exact pl2 l h
  · intro l hl; rcases List.mem_append.1 hl with h | h
    · exact pn1 l h
    · exact pn2 l h
  · intro l hl; rcases List.mem_append.1 hl with h | h
    · exact pc1 l h
    · exact pc2 l h

/-- A loop whose every pass grows the state grows the state. -/
theorem grows_foldl {α : Type} {P : AlertLog → Prop} {Q : Notification → Prop}
    {C : Dispatch → Prop} (f : State → α → State) (hf : ∀ s a, Grows P Q C s (f s a))
    (l : List α) (s : State) : Grows P Q C s (l.foldl f s) := by
  induction l generalizing s with
  | nil => exact grows_refl s
  | cons a l ih => exact grows_trans (hf s a) (ih (f s a))

/-- `TriggerAlert` grows the state by rows, sends and one call of its own alert. -/
theorem TriggerAlert_grows (env : Env) (now : Int) (aT tT : String) (tid : Nat) (tn msg : String)
    (s : State) :
    Grows (fun l => l.Typ = aT ∧ l.Message = msg ∧ l.CreatedAt = now ∧ l.TargetType = tT ∧
        l.TargetID = tid)
      (fun n => n.Title = alertTitle aT tn ∧ n.Message = msg)
      (fun c => c.AlertType = aT ∧ c.TargetType = tT ∧ c.TargetID = tid ∧ c.Message = msg)
      s (TriggerAlert env now aT tT tid tn msg s) := by
  rw [TriggerAlert_eq]
  refine ⟨rfl, rfl, rfl, ⟨_, rfl, ?_⟩, ⟨_, rfl, ?_⟩, ⟨_, rfl, ?_⟩⟩
  · intro l hl
    obtain ⟨e, he, rfl⟩ := List.mem_map.1 hl
    obtain ⟨r, _, j, _, ok, rfl⟩ := mem_callEffects _ _ _ _ _ _ _ _ _ _ _ he
    simp [logRow]
  · intro n hn
    obtain ⟨e, he, rfl⟩ := List.mem_map.1 hn
    obtain ⟨r, _, j, _, ok, rfl⟩ := mem_callEffects _ _ _ _ _ _ _ _ _ _ _ he
    simp
  · intro c hc
    simp at hc
    subst hc
    simp

/-- Weakening of the predicates of `Grows`. -/
theorem grows_mono {P P' : AlertLog → Prop} {Q Q' : Notification → Prop}
    {C C' : Dispatch → Prop} {s s' : State} (h : Grows P Q C s s')
    (hP : ∀ l, P l → P' l) (hQ : ∀ n, Q n → Q' n) (hC : ∀ c, C c → C' c) :
    Grows P' Q' C' s s' := by
  obtain ⟨l1, hl1, pl1⟩ := h.logs
  obtain ⟨n1, hn1, pn1⟩ := h.sent
  obtain ⟨c1, hc1, pc1⟩ := h.calls
  exact ⟨h.nodes, h.clients, h.channels, ⟨l1, hl1, fun l hl => hP l (pl1 l hl)⟩,
    ⟨n1, hn1, fun l hl => hQ l (pn1 l hl)⟩, ⟨c1, hc1, fun l hl => hC l (pc1 l hl)⟩⟩

/-- One pass of the warning loop grows the state by warning rows, sends and calls. -/
theorem warnRule_grows (env : Env) (now : Int) (tid : Nat) (tT tn : String) (used quota : Int)
    (s : State) (rule : AlertRule) :
    Grows (fun l => l.Typ = "quota_warning" ∧ l.CreatedAt = now ∧ l.TargetType = tT ∧
        l.TargetID = tid)
      (fun n => n.Title = alertTitle "quota_warning" tn)
      (fun c => c.AlertType = "quota_warning" ∧ c.TargetType = tT ∧ c.TargetID = tid)
      s (warnRule env now tid tT tn used quota s rule) := by
  unfold warnRule
  simp only []
  split
  · exact grows_refl s
  · split
    · exact grows_refl s
    · split
      · exact grows_refl s
      · split
        · exact grows_refl s
        · unfold TriggerAlertWithKey
          exact grows_mono (TriggerAlert_grows _ _ _ _ _ _ _ _)
            (fun l h => ⟨h.1, h.2.2.1, h.2.2.2.1, h.2.2.2.2⟩) (fun n h => h.1)
            (fun c h => ⟨h.1, h.2.1, h.2.2.1⟩)

/-- The warning check grows the state by warning rows, sends and calls only. -/
theorem checkQuotaWarning_grows (env : Env) (now : Int) (tid : Nat) (tT tn : String)
    (used quota : Int) (s : State) :
    Grows (fun l => l.Typ = "quota_warning" ∧ l.CreatedAt = now ∧ l.TargetType = tT ∧
        l.TargetID = tid)
      (fun n => n.Title = alertTitle "quota_warning" tn)
      (fun c => c.AlertType = "quota_warning" ∧ c.TargetType = tT ∧ c.TargetID = tid)
      s (checkQuotaWarning env now tid tT tn used quota s) := by
  unfold checkQuotaWarning
  exact grows_foldl _ (fun s r => warnRule_grows env now tid tT tn used quota s r) _ s

/-! ## C1: a target already flagged as exceeded -/

/-- The warning check raises only warnings. -/
theorem checkQuotaWarning_onlyWarnings (env : Env) (now : Int) (tid : Nat) (tT tn : String)
    (used quota : Int) (s : State) :
    RaisedOnlyWarnings tn s (checkQuotaWarning env now tid tT tn used quota s) := by
  have h := checkQuotaWarning_grows env now tid tT tn used quota s
  obtain ⟨ls, hls, pls⟩ := h.logs
  obtain ⟨ns, hns, pns⟩ := h.sent
  obtain ⟨cs, hcs, pcs⟩ := h.calls
  exact ⟨h.nodes, h.clients, ls, ns, cs, hls, hns, hcs, fun l hl => (pls l hl).1, pns,
    fun c hc => (pcs c hc).1⟩

/-- C1, as stated, fails: a node at 100% of its quota whose `QuotaExceeded` flag is already
set still gets a quota warning from `CheckNodeQuota` when the 80% warning rule is due:
one notification is sent and one `AlertLog` row is appended. -/
theorem C1_counterexample :
    (sampleNode 1000 true).TrafficQuota > 0 ∧
    (sampleNode 1000 true).QuotaUsed ≥ (sampleNode 1000 true).TrafficQuota ∧
    (sampleNode 1000 true).QuotaExceeded = true ∧
    (sampleState [rule80 "1"] [hook 1] (sampleNode 1000 true)).logs = [] ∧
    (sampleState [rule80 "1"] [hook 1] (sampleNode 1000 true)).sent = [] ∧
    ((CheckNodeQuota sampleEnv sampleNow (sampleNode 1000 true)
        (sampleState [rule80 "1"] [hook 1] (sampleNode 1000 true))).logs.map
      (fun l => (l.RuleID, l.Typ, l.Status))) = [(1, "quota_warning", "sent")] ∧
    ((CheckNodeQuota sampleEnv sampleNow (sampleNode 1000 true)
        (sampleState [rule80 "1"] [hook 1] (sampleNode 1000 true))).sent.map
      (fun n => (n.ChannelID, n.Ok))) = [(1, true)] := by
  decide

/-- C1 (amended): for a node, and likewise a client, with `TrafficQuota > 0`,
`QuotaUsed >= TrafficQuota` and `QuotaExceeded` already true, the quota check raises no
quota_exceeded alert and writes no flag: it does exactly what the warning check
`checkQuotaWarning` does, every row, send and dispatch it adds is a quota warning, and
with no enabled quota_warning rule it changes nothing. -/
theorem C1_flagged_target_gets_no_exceeded_alert (env : Env) (now : Int) (node : Node)
    (client : Client) (s : State)
    (hn : node.TrafficQuota > 0 ∧ node.QuotaUsed ≥ node.TrafficQuota ∧
      node.QuotaExceeded = true)
    (hc : client.TrafficQuota > 0 ∧ client.QuotaUsed ≥ client.TrafficQuota ∧
      client.QuotaExceeded = true) :
    (CheckNodeQuota env now node s =
        checkQuotaWarning env now node.ID "node" node.Name node.QuotaUsed node.TrafficQuota s ∧
      RaisedOnlyWarnings node.Name s (CheckNodeQuota env now node s) ∧
      (matchingRules "quota_warning" s = [] → CheckNodeQuota env now node s = s)) ∧
    (CheckClientQuota env now client s =
        checkQuotaWarning env now client.ID "client" client.Name client.QuotaUsed
          client.TrafficQuota s ∧
      RaisedOnlyWarnings client.Name s (CheckClientQuota env now client s) ∧
      (matchingRules "quota_warning" s = [] → CheckClientQuota env now client s = s)) := by
  have e1 : CheckNodeQuota env now node s =
      checkQuotaWarning env now node.ID "node" node.Name node.QuotaUsed node.TrafficQuota s := by
    unfold CheckNodeQuota
    simp [not_le.2 hn.1, hn.2.2]
  have e2 : CheckClientQuota env now client s =
      checkQuotaWarning env now client.ID "client" client.Name client.QuotaUsed
        client.TrafficQuota s := by
    unfold CheckClientQuota
    simp [not_le.2 hc.1, hc.2.2]
  refine ⟨⟨e1, ?_, ?_⟩, ⟨e2, ?_, ?_⟩⟩
  · rw [e1]; exact checkQuotaWarning_onlyWarnings _ _ _ _ _ _ _ _
  · intro h; rw [e1]; simp [checkQuotaWarning, h]
  · rw [e2]; exact checkQuotaWarning_onlyWarnings _ _ _ _ _ _ _ _
  · intro h; rw [e2]; simp [checkQuotaWarning, h]

/-- Witness for C1 (amended): the sample node and client at 100%, both already flagged. -/
theorem C1_flagged_target_gets_no_exceeded_alert_witness :
    ((sampleNode 1000 true).TrafficQuota > 0 ∧
      (sampleNode 1000 true).QuotaUsed ≥ (sampleNode 1000 true).TrafficQuota ∧
      (sampleNode 1000 true).QuotaExceeded = true) ∧
    RaisedOnlyWarnings (sampleNode 1000 true).Name
      (sampleState [rule80 "1", ruleExceeded "1"] [hook 1] (sampleNode 1000 true))
      (CheckNodeQuota sampleEnv sampleNow (sampleNode 1000 true)
        (sampleState [rule80 "1", ruleExceeded "1"] [hook 1] (sampleNode 1000 true))) :=
  ⟨by decide,
    (C1_flagged_target_gets_no_exceeded_alert sampleEnv sampleNow (sampleNode 1000 true)
      (sampleClient 1000 true)
      (sampleState [rule80 "1", ruleExceeded "1"] [hook 1] (sampleNode 1000 true))
      (by decide) (by decide)).1.2.1⟩

/-! ## C2 and C4: which warning rules a dispatch fires -/

/-- C2, evaluated on the default warning rules: a node at 85% passes the threshold of the
80% rule only (`85 < 90`), yet the dispatch made for the 80% rule also fires the 90% rule:
a notification is sent for it, a row is logged under its name and its `LastAlertAt`
becomes now. -/
theorem C2_rule_below_threshold_is_fired :
    sampleEnv.percentLt 850 1000 90 = true ∧
    ((CheckNodeQuota sampleEnv sampleNow (sampleNode 850 false)
        (sampleState [rule80 "1", rule90 "1"] [hook 1] (sampleNode 850 false))).logs.map
      (fun l => (l.RuleID, l.RuleName, l.Status))) =
        [(1, "流量预警 (80%)", "sent"), (2, "流量预警 (90%)", "sent")] ∧
    ((CheckNodeQuota sampleEnv sampleNow (sampleNode 850 false)
        (sampleState [rule80 "1", rule90 "1"] [hook 1] (sampleNode 850 false))).sent.map
      (fun n => (n.RuleID, n.ChannelID))) = [(1, 1), (2, 1)] ∧
    ((CheckNodeQuota sampleEnv sampleNow (sampleNode 850 false)
        (sampleState [rule80 "1", rule90 "1"] [hook 1] (sampleNode 850 false))).rules.map
      (fun r => (r.ID, r.LastAlertAt))) = [(1, sampleNow), (2, sampleNow)] := by
  decide

/-- C4, evaluated on its scenario: the check at 85% fired both default rules under the key
of the 80% rule, so five minutes later, at 90%, the 90% rule is inside its own 30 minute
cooldown: the second check sends nothing, appends no row and enters no dispatch, and no
row in the log carries the key of the 90% threshold. -/
theorem C4_second_check_fires_nothing :
    sampleEnv.percentLt 900 1000 90 = false ∧
    (afterFirstCheck.logs.map (fun l => l.RuleID)) = [1, 2] ∧
    (afterFirstCheck.rules.map (fun r => (r.ID, r.LastAlertAt))) =
      [(1, sampleNow), (2, sampleNow)] ∧
    afterSecondCheck.logs = afterFirstCheck.logs ∧
    afterSecondCheck.sent = afterFirstCheck.sent ∧
    afterSecondCheck.calls = afterFirstCheck.calls ∧
    afterSecondCheck.logs.all (fun l =>
      !likeMatch ("%" ++ warningKey "node" 7 90 ++ "%").toList l.Message.toList) = true := by
  decide

/-! ## C9: the unlimited sentinel -/

/-- C9: for a node or client with `TrafficQuota <= 0`, whatever its usage counter, the
quota check returns the state it was given: no flag, no `lastAlertAt`, no log row is
written and nothing is sent. -/
theorem C9_unlimited_quota_is_skipped (env : Env) (now : Int) (node : Node) (client : Client)
    (s : State) :
    (node.TrafficQuota ≤ 0 → CheckNodeQuota env now node s = s) ∧
    (client.TrafficQuota ≤ 0 → CheckClientQuota env now client s = s) := by
  constructor
  · intro h; simp [CheckNodeQuota, h]
  · intro h; simp [CheckClientQuota, h]

/-- Witness for C9: a node with quota 0 and a client with a negative quota, both far
above it, on a store whose rules are all due. -/
theorem C9_unlimited_quota_is_skipped_witness :
    CheckNodeQuota sampleEnv sampleNow ⟨7, "edge", 0, 5000, false, "online", sampleNow, 1, none⟩
        (sampleState [rule80 "1", ruleExceeded "1"] [hook 1] (sampleNode 850 false)) =
      sampleState [rule80 "1", ruleExceeded "1"] [hook 1] (sampleNode 850 false) ∧
    CheckClientQuota sampleEnv sampleNow ⟨9, "laptop", -1, 5000, false, 1, none⟩
        (sampleState [rule80 "1", ruleExceeded "1"] [hook 1] (sampleNode 850 false)) =
      sampleState [rule80 "1", ruleExceeded "1"] [hook 1] (sampleNode 850 false) :=
  ⟨(C9_unlimited_quota_is_skipped sampleEnv sampleNow
      ⟨7, "edge", 0, 5000, false, "online", sampleNow, 1, none⟩
      ⟨9, "laptop", -1, 5000, false, 1, none⟩ _).1 (by decide),
    (C9_unlimited_quota_is_skipped sampleEnv sampleNow
      ⟨7, "edge", 0, 5000, false, "online", sampleNow, 1, none⟩
      ⟨9, "laptop", -1, 5000, false, 1, none⟩ _).2 (by decide)⟩

/-! ## C7: one quota_exceeded dispatch per exceed event -/

/-- Reading a node back after `Update` on its primary key. -/
theorem find_updateNode (nodes : List Node) (id : Nat) (f : Node → Node) (hid : id ≠ 0)
    (hf : ∀ n, (f n).ID = n.ID) :
    (updateNode nodes id f).find? (fun n => n.ID == id) =
      (nodes.find? (fun n => n.ID == id)).map f := by
  unfold updateNode
  simp only [hid, if_false]
  induction nodes with
  | nil => simp
  | cons n ns ih =>
    by_cases h : n.ID = id
    · simp [List.find?_cons, h, hf]
    · simp [List.find?_cons, h, ih]

/-- Reading a client back after `Update` on its primary key. -/
theorem find_updateClient (clients : List Client) (id : Nat) (f : Client → Client)
    (hid : id ≠ 0) (hf : ∀ c, (f c).ID = c.ID) :
    (updateClient clients id f).find? (fun c => c.ID == id) =
      (clients.find? (fun c => c.ID == id)).map f := by
  unfold updateClient
  simp only [hid, if_false]
  induction clients with
  | nil => simp
  | cons n ns ih =>
    by_cases h : n.ID = id
    · simp [List.find?_cons, h, hf]
    · simp [List.find?_cons, h, ih]

/-- The warning check enters no quota_exceeded dispatch. -/
theorem exceededCalls_checkQuotaWarning (env : Env) (now : Int) (tid : Nat) (tT tn : String)
    (used quota : Int) (s : State) (tT' : String) (tid' : Nat) :
    exceededCalls tT' tid' (checkQuotaWarning env now tid tT tn used quota s) =
      exceededCalls tT' tid' s := by
  obtain ⟨cs, hcs, pcs⟩ := (checkQuotaWarning_grows env now tid tT tn used quota s).calls
  unfold exceededCalls
  rw [hcs, List.filter_append]
  have : cs.filter (fun c =>
      c.AlertType == "quota_exceeded" && c.TargetType == tT' && c.TargetID == tid') = [] := by
    rw [List.filter_eq_nil_iff]
    intro c hc
    have := (pcs c hc).1
    simp [this]
  simp [this]

/-- A `TriggerAlert` call of type quota_exceeded is counted once for its target. -/
theorem exceededCalls_TriggerAlert (env : Env) (now : Int) (tT : String) (tid : Nat)
    (tn msg : String) (s : State) :
    exceededCalls tT tid (TriggerAlert env now "quota_exceeded" tT tid tn msg s) =
      exceededCalls tT tid s + 1 := by
  rw [TriggerAlert_eq]
  simp [exceededCalls, List.filter_append]

/-- The first check of a node that reached its quota: one dispatch, flag persisted. -/
theorem CheckNodeQuota_first (env : Env) (now : Int) (node : Node) (s : State)
    (hn : s.nodes.find? (fun n => n.ID == node.ID) = some node) (hid : node.ID ≠ 0)
    (hq : node.TrafficQuota > 0) (hu : node.QuotaUsed ≥ node.TrafficQuota)
    (hf : node.QuotaExceeded = false) :
    exceededCalls "node" node.ID (CheckNodeQuota env now node s) =
        exceededCalls "node" node.ID s + 1 ∧
      (CheckNodeQuota env now node s).nodes.find? (fun n => n.ID == node.ID) =
        some { node with QuotaExceeded := true } := by
  unfold CheckNodeQuota
  simp only [not_le.2 hq, if_false, hu, hf, and_self, if_true]
  constructor
  · rw [exceededCalls_TriggerAlert]
    have := exceededCalls_checkQuotaWarning env now node.ID "node" node.Name node.QuotaUsed
      node.TrafficQuota s "node" node.ID
    simpa [exceededCalls] using this
  · rw [(TriggerAlert_grows _ _ _ _ _ _ _ _).nodes]
    simp only []
    rw [find_updateNode _ _ (fun n => { n with QuotaExceeded := true }) hid (fun _ => rfl),
      (checkQuotaWarning_grows _ _ _ _ _ _ _ _).nodes, hn]
    rfl

/-- A check of a node whose flag is set: no dispatch of type quota_exceeded, nodes kept. -/
theorem CheckNodeQuota_flagged (env : Env) (now : Int) (node : Node) (s : State)
    (hf : node.QuotaExceeded = true) (tT : String) (tid : Nat) :
    exceededCalls tT tid (CheckNodeQuota env now node s) = exceededCalls tT tid s ∧
      (CheckNodeQuota env now node s).nodes = s.nodes := by
  unfold CheckNodeQuota
  by_cases hq : node.TrafficQuota ≤ 0
  · simp [hq]
  · simp only [hq, if_false, hf, Bool.true_eq_false, and_false]
    exact ⟨exceededCalls_checkQuotaWarning _ _ _ _ _ _ _ _ _ _,
      (checkQuotaWarning_grows _ _ _ _ _ _ _ _).nodes⟩

/-- The first check of a client that reached its quota: one dispatch, flag persisted. -/
theorem CheckClientQuota_first (env : Env) (now : Int) (client : Client) (s : State)
    (hn : s.clients.find? (fun c => c.ID == client.ID) = some client) (hid : client.ID ≠ 0)
    (hq : client.TrafficQuota > 0) (hu : client.QuotaUsed ≥ client.TrafficQuota)
    (hf : client.QuotaExceeded = false) :
    exceededCalls "client" client.ID (CheckClientQuota env now client s) =
        exceededCalls "client" client.ID s + 1 ∧
      (CheckClientQuota env now client s).clients.find? (fun c => c.ID == client.ID) =
        some { client with QuotaExceeded := true } := by
  unfold CheckClientQuota
  simp only [not_le.2 hq, if_false, hu, hf, and_self, if_true]
  constructor
  · rw [exceededCalls_TriggerAlert]
    have := exceededCalls_checkQuotaWarning env now client.ID "client" client.Name
      client.QuotaUsed client.TrafficQuota s "client" client.ID
    simpa [exceededCalls] using this
  · rw [(TriggerAlert_grows _ _ _ _ _ _ _ _).clients]
    simp only []
    rw [find_updateClient _ _ (fun c => { c with QuotaExceeded := true }) hid (fun _ => rfl),
      (checkQuotaWarning_grows _ _ _ _ _ _ _ _).clients, hn]
    rfl

/-- A check of a client whose flag is set: no dispatch of type quota_exceeded, clients kept. -/
theorem CheckClientQuota_flagged (env : Env) (now : Int) (client : Client) (s : State)
    (hf : client.QuotaExceeded = true) (tT : String) (tid : Nat) :
    exceededCalls tT tid (CheckClientQuota env now client s) = exceededCalls tT tid s ∧
      (CheckClientQuota env now client s).clients = s.clients := by
  unfold CheckClientQuota
  by_cases hq : client.TrafficQuota ≤ 0
  · simp [hq]
  · simp only [hq, if_false, hf, Bool.true_eq_false, and_false]
    exact ⟨exceededCalls_checkQuotaWarning _ _ _ _ _ _ _ _ _ _,
      (checkQuotaWarning_grows _ _ _ _ _ _ _ _).clients⟩

/-- Later passes over a node whose stored flag is set enter no quota_exceeded dispatch. -/
theorem recheckNode_flagged (env : Env) (id : Nat) (ts : List Int) (s : State) (n : Node)
    (hn : s.nodes.find? (fun x => x.ID == id) = some n) (hf : n.QuotaExceeded = true) :
    exceededCalls "node" id (ts.foldl (recheckNode env id) s) = exceededCalls "node" id s := by
  induction ts generalizing s with
  | nil => rfl
  | cons t ts ih =>
    have h1 : recheckNode env id s t = CheckNodeQuota env t n s := by simp [recheckNode, hn]
    have h2 := CheckNodeQuota_flagged env t n s hf "node" id
    rw [List.foldl_cons, ih (recheckNode env id s t) (by rw [h1, h2.2]; exact hn), h1, h2.1]

/-- Later passes over a client whose stored flag is set enter no quota_exceeded dispatch. -/
theorem recheckClient_flagged (env : Env) (id : Nat) (ts : List Int) (s : State) (c : Client)
    (hn : s.clients.find? (fun x => x.ID == id) = some c) (hf : c.QuotaExceeded = true) :
    exceededCalls "client" id (ts.foldl (recheckClient env id) s) =
      exceededCalls "client" id s := by
  induction ts generalizing s with
  | nil => rfl
  | cons t ts ih =>
    have h1 : recheckClient env id s t = CheckClientQuota env t c s := by
      simp [recheckClient, hn]
    have h2 := CheckClientQuota_flagged env t c s hf "client" id
    rw [List.foldl_cons, ih (recheckClient env id s t) (by rw [h1, h2.2]; exact hn), h1, h2.1]

/-- C7: for a stored node with quota > 0, used >= quota and the flag initially false, any
number n >= 1 of passes that each re-read the node from the store enter the
quota_exceeded dispatch for it exactly once, and that one entry is made by the first
pass; and likewise, on its own hypotheses, for a stored client. -/
theorem C7_exactly_one_exceeded_alert (env : Env) (node : Node) (client : Client) (s : State)
    (t : Int) (ts : List Int) :
    ((s.nodes.find? (fun n => n.ID == node.ID) = some node ∧ node.ID ≠ 0 ∧
        node.TrafficQuota > 0 ∧ node.QuotaUsed ≥ node.TrafficQuota ∧
        node.QuotaExceeded = false) →
      exceededCalls "node" node.ID (recheckNode env node.ID s t) =
          exceededCalls "node" node.ID s + 1 ∧
        exceededCalls "node" node.ID ((t :: ts).foldl (recheckNode env node.ID) s) =
          exceededCalls "node" node.ID s + 1) ∧
    ((s.clients.find? (fun c => c.ID == client.ID) = some client ∧ client.ID ≠ 0 ∧
        client.TrafficQuota > 0 ∧ client.QuotaUsed ≥ client.TrafficQuota ∧
        client.QuotaExceeded = false) →
      exceededCalls "client" client.ID (recheckClient env client.ID s t) =
          exceededCalls "client" client.ID s + 1 ∧
        exceededCalls "client" client.ID ((t :: ts).foldl (recheckClient env client.ID) s) =
          exceededCalls "client" client.ID s + 1) := by
  constructor
  · rintro ⟨hn1, hn2, hn3, hn4, hn5⟩
    have e1 : recheckNode env node.ID s t = CheckNodeQuota env t node s := by
      simp [recheckNode, hn1]
    have f1 := CheckNodeQuota_first env t node s hn1 hn2 hn3 hn4 hn5
    refine ⟨by rw [e1]; exact f1.1, ?_⟩
    rw [List.foldl_cons, recheckNode_flagged env node.ID ts _ _ (by rw [e1]; exact f1.2) rfl,
      e1, f1.1]
  · rintro ⟨hc1, hc2, hc3, hc4, hc5⟩
    have e2 : recheckClient env client.ID s t = CheckClientQuota env t client s := by
      simp [recheckClient, hc1]
    have f2 := CheckClientQuota_first env t client s hc1 hc2 hc3 hc4 hc5
    refine ⟨by rw [e2]; exact f2.1, ?_⟩
    rw [List.foldl_cons, recheckClient_flagged env client.ID ts _ _ (by rw [e2]; exact f2.2) rfl,
      e2, f2.1]

/-- Witness for C7: three passes, a minute apart, over the node at 100% in a store that
has no client, and over the client at 100% in a store that has no node. -/
theorem C7_exactly_one_exceeded_alert_witness :
    exceededCalls "node" 7
        ([sampleNow, sampleNow + Minute, sampleNow + 2 * Minute].foldl (recheckNode sampleEnv 7)
          nodeOnlyState) = exceededCalls "node" 7 nodeOnlyState + 1 ∧
    exceededCalls "client" 9
        ([sampleNow, sampleNow + Minute, sampleNow + 2 * Minute].foldl
          (recheckClient sampleEnv 9) clientOnlyState) =
      exceededCalls "client" 9 clientOnlyState + 1 :=
  ⟨((C7_exactly_one_exceeded_alert sampleEnv (sampleNode 1000 false) (sampleClient 1000 false)
      nodeOnlyState sampleNow [sampleNow + Minute, sampleNow + 2 * Minute]).1 (by decide)).2,
    ((C7_exactly_one_exceeded_alert sampleEnv (sampleNode 1000 false) (sampleClient 1000 false)
      clientOnlyState sampleNow [sampleNow + Minute, sampleNow + 2 * Minute]).2 (by decide)).2⟩

/-! ## C8: the flag is sticky -/

/-- A relation that holds between each row and itself holds between a table and itself. -/
theorem forall₂_self {α : Type} (R : α → α → Prop) (h : ∀ a, R a a) (l : List α) :
    List.Forall₂ R l l := by
  induction l with
  | nil => exact List.Forall₂.nil
  | cons a l ih => exact List.Forall₂.cons (h a) ih

/-- A table and its image under a row rewrite are related row by row. -/
theorem forall₂_map {α : Type} (R : α → α → Prop) (g : α → α) (h : ∀ a, R a (g a))
    (l : List α) : List.Forall₂ R l (l.map g) := by
  induction l with
  | nil => exact List.Forall₂.nil
  | cons a l ih => exact List.Forall₂.cons (h a) ih

/-- Row-wise relations compose. -/
theorem forall₂_comp {α : Type} (R : α → α → Prop) (ht : ∀ a b c, R a b → R b c → R a c)
    {l1 l2 l3 : List α} (h1 : List.Forall₂ R l1 l2) (h2 : List.Forall₂ R l2 l3) :
    List.Forall₂ R l1 l3 := by
  induction h1 generalizing l3 with
  | nil => cases h2; exact List.Forall₂.nil
  | cons hab _ ih =>
    cases h2 with
    | cons hbc htl => exact List.Forall₂.cons (ht _ _ _ hab hbc) (ih htl)

/-- `FlagsKept` is reflexive. -/
theorem flagsKept_refl (s : State) : FlagsKept s s :=
  ⟨forall₂_self _ (fun _ => ⟨rfl, fun h => h⟩) _, forall₂_self _ (fun _ => ⟨rfl, fun h => h⟩) _⟩

/-- `FlagsKept` holds whenever both tables are untouched. -/
theorem flagsKept_of_eq {s s' : State} (h1 : s'.nodes = s.nodes) (h2 : s'.clients = s.clients) :
    FlagsKept s s' := by
  unfold FlagsKept
  rw [h1, h2]
  exact flagsKept_refl s

/-- `FlagsKept` is transitive. -/
theorem flagsKept_trans {a b c : State} (h1 : FlagsKept a b) (h2 : FlagsKept b c) :
    FlagsKept a c :=
  ⟨forall₂_comp _ (fun _ _ _ h h' => ⟨h'.1.trans h.1, fun x => h'.2 (h.2 x)⟩) h1.1 h2.1,
    forall₂_comp _ (fun _ _ _ h h' => ⟨h'.1.trans h.1, fun x => h'.2 (h.2 x)⟩) h1.2 h2.2⟩

/-- An `Update` on a node that keeps its primary key and does not clear the flag. -/
theorem updateNode_kept (nodes : List Node) (id : Nat) (f : Node → Node)
    (hf : ∀ n, (f n).ID = n.ID ∧ (n.QuotaExceeded = true → (f n).QuotaExceeded = true)) :
    List.Forall₂ (fun (n n' : Node) => n'.ID = n.ID ∧ (n.QuotaExceeded = true →
      n'.QuotaExceeded = true)) nodes (updateNode nodes id f) := by
  unfold updateNode
  split
  · exact forall₂_self _ (fun _ => ⟨rfl, fun h => h⟩) _
  · apply forall₂_map
    intro n
    split
    · exact hf n
    · exact ⟨rfl, fun h => h⟩

/-- An `Update` on a client that keeps its primary key and does not clear the flag. -/
theorem updateClient_kept (clients : List Client) (id : Nat) (f : Client → Client)
    (hf : ∀ n, (f n).ID = n.ID ∧ (n.QuotaExceeded = true → (f n).QuotaExceeded = true)) :
    List.Forall₂ (fun (n n' : Client) => n'.ID = n.ID ∧ (n.QuotaExceeded = true →
      n'.QuotaExceeded = true)) clients (updateClient clients id f) := by
  unfold updateClient
  split
  · exact forall₂_self _ (fun _ => ⟨rfl, fun h => h⟩) _
  · apply forall₂_map
    intro n
    split
    · exact hf n
    · exact ⟨rfl, fun h => h⟩

/-- `TriggerAlert` keeps the flags. -/
theorem TriggerAlert_kept (env : Env) (now : Int) (aT tT : String) (tid : Nat) (tn msg : String)
    (s : State) : FlagsKept s (TriggerAlert env now aT tT tid tn msg s) :=
  flagsKept_of_eq (TriggerAlert_grows _ _ _ _ _ _ _ _).nodes
    (TriggerAlert_grows _ _ _ _ _ _ _ _).clients

/-- `CheckNodeQuota` keeps the flags. -/
theorem CheckNodeQuota_kept (env : Env) (now : Int) (node : Node) (s : State) :
    FlagsKept s (CheckNodeQuota env now node s) := by
  have hw := checkQuotaWarning_grows env now node.ID "node" node.Name node.QuotaUsed
    node.TrafficQuota s
  unfold CheckNodeQuota
  split
  · exact flagsKept_refl s
  · simp only []
    split
    · refine flagsKept_trans (b := { checkQuotaWarning env now node.ID "node" node.Name
          node.QuotaUsed node.TrafficQuota s with
          nodes := updateNode (checkQuotaWarning env now node.ID "node" node.Name
            node.QuotaUsed node.TrafficQuota s).nodes node.ID
            (fun n => { n with QuotaExceeded := true }) }) ?_ (TriggerAlert_kept _ _ _ _ _ _ _ _)
      refine ⟨?_, ?_⟩
      · simp only [hw.nodes]
        exact updateNode_kept _ _ _ (fun _ => ⟨rfl, fun _ => rfl⟩)
      · simp only [hw.clients]
        exact forall₂_self _ (fun _ => ⟨rfl, fun h => h⟩) _
    · exact flagsKept_of_eq hw.nodes hw.clients

/-- `CheckClientQuota` keeps the flags. -/
theorem CheckClientQuota_kept (env : Env) (now : Int) (client : Client) (s : State) :
    FlagsKept s (CheckClientQuota env now client s) := by
  have hw := checkQuotaWarning_grows env now client.ID "client" client.Name client.QuotaUsed
    client.TrafficQuota s
  unfold CheckClientQuota
  split
  · exact flagsKept_refl s
  · simp only []
    split
    · refine flagsKept_trans (b := { checkQuotaWarning env now client.ID "client" client.Name
          client.QuotaUsed client.TrafficQuota s with
          clients := updateClient (checkQuotaWarning env now client.ID "client" client.Name
            client.QuotaUsed client.TrafficQuota s).clients client.ID
            (fun n => { n with QuotaExceeded := true }) }) ?_ (TriggerAlert_kept _ _ _ _ _ _ _ _)
      refine ⟨?_, ?_⟩
      · simp only [hw.nodes]
        exact forall₂_self _ (fun _ => ⟨rfl, fun h => h⟩) _
      · simp only [hw.clients]
        exact updateClient_kept _ _ _ (fun _ => ⟨rfl, fun _ => rfl⟩)
    · exact flagsKept_of_eq hw.nodes hw.clients

/-- A loop whose every pass keeps the flags keeps the flags. -/
theorem flagsKept_foldl {α : Type} (f : State → α → State) (hf : ∀ s a, FlagsKept s (f s a))
    (l : List α) (s : State) : FlagsKept s (l.foldl f s) := by
  induction l generalizing s with
  | nil => exact flagsKept_refl s
  | cons a l ih => exact flagsKept_trans (hf s a) (ih (f s a))

/-- `CheckOfflineNodes` keeps the flags. -/
theorem CheckOfflineNodes_kept (env : Env) (now : Int) (m : Int) (s : State) :
    FlagsKept s (CheckOfflineNodes env now m s) := by
  unfold CheckOfflineNodes
  apply flagsKept_foldl
  intro s node
  unfold markOffline
  refine flagsKept_trans (b := { s with
    nodes := updateNode s.nodes node.ID (fun n => { n with Status := "offline" }) }) ?_
    (TriggerAlert_kept _ _ _ _ _ _ _ _)
  exact ⟨updateNode_kept _ _ _ (fun _ => ⟨rfl, fun h => h⟩), forall₂_self _ (fun _ => ⟨rfl, fun h => h⟩) _⟩

/-- Every operation other than `ResetQuotas` keeps the flags. -/
theorem runOp_kept (env : Env) (s : State) (step : Int × Op) : FlagsKept s (runOp env s step) := by
  obtain ⟨now, op⟩ := step
  cases op with
  | checkNodeQuota node => exact CheckNodeQuota_kept _ _ _ _
  | checkClientQuota client => exact CheckClientQuota_kept _ _ _ _
  | triggerAlert aT tT tid tn msg => exact TriggerAlert_kept _ _ _ _ _ _ _ _
  | triggerAlertWithKey aT tT tid tn msg key => exact TriggerAlert_kept _ _ _ _ _ _ _ _
  | checkNodeOffline node prev =>
    show FlagsKept s (CheckNodeOffline env now node prev s)
    unfold CheckNodeOffline
    split
    · exact TriggerAlert_kept _ _ _ _ _ _ _ _
    · exact flagsKept_refl s
  | checkOfflineNodes m => exact CheckOfflineNodes_kept _ _ _ _
  | cleanupAlertLogs d => exact flagsKept_of_eq rfl rfl

/-- C8: after the quota check has run on a stored node with quota > 0 and used >= quota,
the flag read back from the store is true, and likewise, on its own hypotheses, for a
stored client; and on every store, along any sequence of quota checks, dispatches,
offline checks and log cleanups, every flag that is set stays set (the tables keep their
rows and primary keys). -/
theorem C8_quota_exceeded_is_sticky (env : Env) (now : Int) (node : Node) (client : Client)
    (s : State) (steps : List (Int × Op)) :
    ((s.nodes.find? (fun n => n.ID == node.ID) = some node ∧ node.ID ≠ 0 ∧
        node.TrafficQuota > 0 ∧ node.QuotaUsed ≥ node.TrafficQuota) →
      ∃ n, (CheckNodeQuota env now node s).nodes.find? (fun x => x.ID == node.ID) = some n ∧
        n.QuotaExceeded = true) ∧
    ((s.clients.find? (fun c => c.ID == client.ID) = some client ∧ client.ID ≠ 0 ∧
        client.TrafficQuota > 0 ∧ client.QuotaUsed ≥ client.TrafficQuota) →
      ∃ c, (CheckClientQuota env now client s).clients.find? (fun x => x.ID == client.ID) =
        some c ∧ c.QuotaExceeded = true) ∧
    FlagsKept s (runOps env s steps) := by
  refine ⟨?_, ?_, flagsKept_foldl _ (runOp_kept env) _ _⟩
  · rintro ⟨hn1, hn2, hn3, hn4⟩
    cases hf : node.QuotaExceeded with
    | false => exact ⟨_, (CheckNodeQuota_first env now node s hn1 hn2 hn3 hn4 hf).2, rfl⟩
    | true =>
      refine ⟨node, ?_, hf⟩
      rw [(CheckNodeQuota_flagged env now node s hf "node" node.ID).2]
      exact hn1
  · rintro ⟨hc1, hc2, hc3, hc4⟩
    cases hf : client.QuotaExceeded with
    | false => exact ⟨_, (CheckClientQuota_first env now client s hc1 hc2 hc3 hc4 hf).2, rfl⟩
    | true =>
      refine ⟨client, ?_, hf⟩
      rw [(CheckClientQuota_flagged env now client s hf "client" client.ID).2]
      exact hc1

/-- Witness for C8: the node at 100% in a store that has no client, the client at 100% in
a store that has no node, and a run of a quota check, a dispatch, an offline sweep and a
log cleanup on the store without clients. -/
theorem C8_quota_exceeded_is_sticky_witness :
    (∃ n, (CheckNodeQuota sampleEnv sampleNow (sampleNode 1000 false)
        nodeOnlyState).nodes.find? (fun x => x.ID == 7) = some n ∧ n.QuotaExceeded = true) ∧
    (∃ c, (CheckClientQuota sampleEnv sampleNow (sampleClient 1000 false)
        clientOnlyState).clients.find? (fun x => x.ID == 9) = some c ∧
      c.QuotaExceeded = true) ∧
    FlagsKept nodeOnlyState
      (runOps sampleEnv nodeOnlyState
        [(sampleNow, Op.checkNodeQuota (sampleNode 1000 false)),
          (sampleNow + Minute, Op.triggerAlert "node_offline" "node" 7 "edge" "down"),
          (sampleNow + 2 * Minute, Op.checkOfflineNodes 1),
          (sampleNow + 3 * Minute, Op.cleanupAlertLogs 30)]) :=
  ⟨(C8_quota_exceeded_is_sticky sampleEnv sampleNow (sampleNode 1000 false)
      (sampleClient 1000 false) nodeOnlyState []).1 (by decide),
    (C8_quota_exceeded_is_sticky sampleEnv sampleNow (sampleNode 1000 false)
      (sampleClient 1000 false) clientOnlyState []).2.1 (by decide),
    (C8_quota_exceeded_is_sticky sampleEnv sampleNow (sampleNode 1000 false)
      (sampleClient 1000 false) nodeOnlyState
      [(sampleNow, Op.checkNodeQuota (sampleNode 1000 false)),
        (sampleNow + Minute, Op.triggerAlert "node_offline" "node" 7 "edge" "down"),
        (sampleNow + 2 * Minute, Op.checkOfflineNodes 1),
        (sampleNow + 3 * Minute, Op.cleanupAlertLogs 30)]).2.2⟩

/-! ## C10: which rules a call processes -/

/-- Membership in the list of fired rules. -/
theorem mem_firedRules (now : Int) (aT : String) (s : State) (r : AlertRule) :
    r ∈ firedRules now aT s ↔
      r ∈ s.rules ∧ r.Typ = aT ∧ r.Enabled = true ∧
        ¬ timeSub now r.LastAlertAt < minutesDuration r.CooldownMin := by
  simp only [firedRules, matchingRules, List.mem_filter, inCooldown]
  simp
  tauto

/-- The fired rules are a sublist of the rule table. -/
theorem firedRules_sublist (now : Int) (aT : String) (s : State) :
    (firedRules now aT s).Sublist s.rules :=
  (List.filter_sublist _).trans (List.filter_sublist _)

/-- The rule table after the writes of `last_alert_at`, row by row. -/
theorem stampRules_eq (now : Int) (fired rules : List AlertRule) :
    stampRules now fired rules =
      rules.map (fun x =>
        if x.ID ≠ 0 ∧ x.ID ∈ fired.map (fun r => r.ID) then { x with LastAlertAt := now }
        else x) := by
  induction fired generalizing rules with
  | nil => simp [stampRules]
  | cons r rs ih =>
    have h : stampRules now (r :: rs) rules =
        stampRules now rs (updateRule rules r.ID (fun x => { x with LastAlertAt := now })) := rfl
    rw [h, ih]
    unfold updateRule
    by_cases h0 : r.ID = 0
    · simp only [h0, if_true]
      apply List.map_congr_left
      intro x _
      by_cases hx : x.ID = 0
      · simp [hx]
      · have hne : ¬ x.ID = r.ID := by rw [h0]; exact hx
        simp [hx, hne, List.mem_cons]
    · simp only [h0, if_false, List.map_map]
      apply List.map_congr_left
      intro x _
      by_cases hx : x.ID = r.ID
      · have hx0 : x.ID ≠ 0 := by rw [hx]; exact h0
        simp [hx, h0]
      · simp [hx, List.mem_cons]

/-- With unique primary keys, a stored rule that shares its key with a fired rule is fired. -/
theorem mem_fired_of_id (now : Int) (aT : String) (s : State)
    (hids : (s.rules.map (fun r => r.ID)).Nodup) (r : AlertRule) (hr : r ∈ s.rules)
    (hid : r.ID ∈ (firedRules now aT s).map (fun x => x.ID)) : r ∈ firedRules now aT s := by
  obtain ⟨r', hr', he⟩ := List.mem_map.1 hid
  have hmem : r' ∈ s.rules := (firedRules_sublist now aT s).subset hr'
  have : r' = r := List.inj_on_of_nodup_map hids hmem hr he
  rw [← this]
  exact hr'

/-- The largest duration as a numeral. -/
theorem maxDuration_eq : maxDuration = 9223372036854775807 := by norm_num [maxDuration]

/-- The smallest duration as a numeral. -/
theorem minDuration_eq : minDuration = -9223372036854775808 := by norm_num [minDuration]

/-- The `int64` reduction with its constants as numerals. -/
theorem wrapInt64_eq (x : Int) :
    wrapInt64 x = (x + 9223372036854775808) % 18446744073709551616 - 9223372036854775808 := by
  norm_num [wrapInt64]

/-- A cooldown of at most 153722867 minutes (about 292 years) in either direction is
converted to nanoseconds without overflow. -/
theorem minutesDuration_of_range (c : Int) (h1 : -153722867 ≤ c) (h2 : c ≤ 153722867) :
    minutesDuration c = c * 60000000000 := by
  rw [minutesDuration, wrapInt64_eq, Minute]
  omega

/-- The cooldown test of the rule loop in exact arithmetic, for every cooldown whose
duration fits `int64` nanoseconds. -/
theorem cooldown_exact (now last c : Int) (h1 : -153722867 ≤ c) (h2 : c ≤ 153722867) :
    (¬ timeSub now last < minutesDuration c) ↔ now - last ≥ c * Minute := by
  rw [minutesDuration_of_range c h1 h2, timeSub, maxDuration_eq, minDuration_eq, Minute]
  split_ifs <;> omega

/-- A stored rule that is due is processed by `TriggerAlert`: one write of `now`. -/
theorem TriggerAlert_processed (env : Env) (now : Int) (aT tT : String)
    (tid : Nat) (tn msg : String) (s : State)
    (hids : (s.rules.map (fun r => r.ID)).Nodup) (hnz : ∀ r ∈ s.rules, r.ID ≠ 0)
    (r : AlertRule) (hr : r ∈ s.rules)
    (hdue : r.Typ = aT ∧ r.Enabled = true ∧
      ¬ timeSub now r.LastAlertAt < minutesDuration r.CooldownMin) :
    Processed now r s (TriggerAlert env now aT tT tid tn msg s) := by
  have hf : r ∈ firedRules now aT s := (mem_firedRules now aT s r).2 ⟨hr, hdue⟩
  rw [TriggerAlert_eq]
  refine ⟨?_, _, rfl, ?_, ?_⟩
  · simp only [stampRules_eq]
    refine List.mem_map.2 ⟨r, hr, ?_⟩
    have : r.ID ∈ (firedRules now aT s).map (fun x => x.ID) := List.mem_map.2 ⟨r, hf, rfl⟩
    simp [hnz r hr, this]
  · apply List.count_eq_one_of_mem
    · have h1 : ((firedRules now aT s).map (fun x => x.ID)).Nodup :=
        List.Nodup.sublist ((firedRules_sublist now aT s).map _) hids
      have h2 : (firedRules now aT s).map (fun x => (⟨x.ID, now⟩ : Stamp)) =
          ((firedRules now aT s).map (fun x => x.ID)).map (fun i => (⟨i, now⟩ : Stamp)) := by
        simp [List.map_map, Function.comp]
      rw [h2]
      exact List.Nodup.map (fun a b h => by injection h) h1
    · exact List.mem_map.2 ⟨r, hf, rfl⟩
  · intro x hx hid
    obtain ⟨r', _, rfl⟩ := List.mem_map.1 hx
    simp only at hid
    simp [hid]

/-- A stored rule that is not due is passed over by `TriggerAlert`. -/
theorem TriggerAlert_untouched (env : Env) (now : Int) (aT tT : String)
    (tid : Nat) (tn msg : String) (s : State)
    (hids : (s.rules.map (fun r => r.ID)).Nodup)
    (r : AlertRule) (hr : r ∈ s.rules)
    (hnot : ¬ (r.Typ = aT ∧ r.Enabled = true ∧
      ¬ timeSub now r.LastAlertAt < minutesDuration r.CooldownMin)) :
    Untouched r s (TriggerAlert env now aT tT tid tn msg s) := by
  have hf : r ∉ firedRules now aT s := fun h => hnot ((mem_firedRules now aT s r).1 h).2
  have hid : r.ID ∉ (firedRules now aT s).map (fun x => x.ID) :=
    fun h => hf (mem_fired_of_id now aT s hids r hr h)
  rw [TriggerAlert_eq]
  refine ⟨?_, _, _, _, rfl, rfl, rfl, ?_, ?_, ?_⟩
  · simp only [stampRules_eq]
    refine List.mem_map.2 ⟨r, hr, ?_⟩
    simp [hid]
  · intro l hl
    obtain ⟨e, he, rfl⟩ := List.mem_map.1 hl
    obtain ⟨r', hr', j, _, ok, rfl⟩ := mem_callEffects _ _ _ _ _ _ _ _ _ _ _ he
    intro h
    exact hid (List.mem_map.2 ⟨r', hr', h⟩)
  · intro n hn
    obtain ⟨e, he, rfl⟩ := List.mem_map.1 hn
    obtain ⟨r', hr', j, _, ok, rfl⟩ := mem_callEffects _ _ _ _ _ _ _ _ _ _ _ he
    intro h
    exact hid (List.mem_map.2 ⟨r', hr', h⟩)
  · intro x hx
    obtain ⟨r', hr', rfl⟩ := List.mem_map.1 hx
    intro h
    exact hid (List.mem_map.2 ⟨r', hr', h⟩)

/-- C10, as stated, fails for a cooldown whose duration overflows `int64` nanoseconds: the
rule of `wrappedCooldownState` is enabled, of the triggered type, has
`cooldownMinutes = 153722868` and fired one minute before `sampleNow`, so
`now - lastAlertAt >= cooldownMinutes` is false; yet `TriggerAlert` processes it: one send,
one log row, and its `lastAlertAt` becomes `sampleNow`. -/
theorem C10_counterexample :
    (wrappedCooldownState.rules.map
      (fun r => (r.ID, r.Typ, r.Enabled, r.CooldownMin,
        decide (sampleNow - r.LastAlertAt ≥ r.CooldownMin * Minute)))) =
      [(3, "quota_exceeded", true, 153722868, false)] ∧
    ((TriggerAlert sampleEnv sampleNow "quota_exceeded" "node" 7 "edge" "over"
        wrappedCooldownState).rules.map (fun r => (r.ID, r.LastAlertAt))) = [(3, sampleNow)] ∧
    ((TriggerAlert sampleEnv sampleNow "quota_exceeded" "node" 7 "edge" "over"
        wrappedCooldownState).logs.map (fun l => (l.RuleID, l.Status))) = [(3, "sent")] ∧
    ((TriggerAlert sampleEnv sampleNow "quota_exceeded" "node" 7 "edge" "over"
        wrappedCooldownState).sent.map (fun n => (n.RuleID, n.ChannelID))) = [(3, 1)] := by
  decide

/-- C10 (amended): `TriggerAlert(alertType, ...)` at time `now` processes a stored rule
whose `cooldownMinutes` is at most 153722867 in absolute value (the cooldowns whose
duration fits `int64` nanoseconds) if and only if it has `type == alertType`,
`enabled = true` and `now - lastAlertAt >= cooldownMinutes`: then its `lastAlertAt` is
written once, with `now`; every other such rule (other type, disabled, or still inside
its cooldown) keeps its row, `lastAlertAt` included, and gets no log row, no send and no
write.  Primary keys are unique and non-zero. -/
theorem C10_trigger_processes_exactly_due_rules (env : Env) (now : Int) (aT tT : String)
    (tid : Nat) (tn msg : String) (s : State)
    (hids : (s.rules.map (fun r => r.ID)).Nodup) (hnz : ∀ r ∈ s.rules, r.ID ≠ 0)
    (r : AlertRule) (hr : r ∈ s.rules)
    (hC : -153722867 ≤ r.CooldownMin ∧ r.CooldownMin ≤ 153722867) :
    ((r.Typ = aT ∧ r.Enabled = true ∧ now - r.LastAlertAt ≥ r.CooldownMin * Minute) →
      Processed now r s (TriggerAlert env now aT tT tid tn msg s)) ∧
    (¬ (r.Typ = aT ∧ r.Enabled = true ∧ now - r.LastAlertAt ≥ r.CooldownMin * Minute) →
      Untouched r s (TriggerAlert env now aT tT tid tn msg s)) := by
  have hex := cooldown_exact now r.LastAlertAt r.CooldownMin hC.1 hC.2
  constructor
  · intro h
    exact TriggerAlert_processed env now aT tT tid tn msg s hids hnz r hr
      ⟨h.1, h.2.1, hex.2 h.2.2⟩
  · intro h
    exact TriggerAlert_untouched env now aT tT tid tn msg s hids r hr
      (fun h' => h ⟨h'.1, h'.2.1, hex.1 h'.2.2⟩)

/-- Witness for C10 (amended): in a quota_exceeded dispatch over `mixedState` the due rule
is processed, and the rule of another type, the disabled rule and the rule inside its
cooldown are passed over. -/
theorem C10_trigger_processes_exactly_due_rules_witness :
    Processed sampleNow (ruleExceeded "1, 2") mixedState
      (TriggerAlert sampleEnv sampleNow "quota_exceeded" "node" 7 "edge" "over" mixedState) ∧
    Untouched (rule80 "1") mixedState
      (TriggerAlert sampleEnv sampleNow "quota_exceeded" "node" 7 "edge" "over" mixedState) ∧
    Untouched ⟨4, "off", "quota_exceeded", "\x7b\x7d", false, 60, "1", zeroTime⟩ mixedState
      (TriggerAlert sampleEnv sampleNow "quota_exceeded" "node" 7 "edge" "over" mixedState) ∧
    Untouched ⟨5, "cooling", "quota_exceeded", "\x7b\x7d", true, 60, "1",
        sampleNow - 10 * Minute⟩ mixedState
      (TriggerAlert sampleEnv sampleNow "quota_exceeded" "node" 7 "edge" "over" mixedState) :=
  ⟨(C10_trigger_processes_exactly_due_rules sampleEnv sampleNow "quota_exceeded" "node" 7
      "edge" "over" mixedState (by decide) (by decide) (ruleExceeded "1, 2")
      (by decide) (by decide)).1 (by decide),
    (C10_trigger_processes_exactly_due_rules sampleEnv sampleNow "quota_exceeded" "node" 7
      "edge" "over" mixedState (by decide) (by decide) (rule80 "1") (by decide)
      (by decide)).2 (by decide),
    (C10_trigger_processes_exactly_due_rules sampleEnv sampleNow "quota_exceeded" "node" 7
      "edge" "over" mixedState (by decide) (by decide)
      ⟨4, "off", "quota_exceeded", "\x7b\x7d", false, 60, "1", zeroTime⟩
      (by decide) (by decide)).2 (by decide),
    (C10_trigger_processes_exactly_due_rules sampleEnv sampleNow "quota_exceeded" "node" 7
      "edge" "over" mixedState (by decide) (by decide)
      ⟨5, "cooling", "quota_exceeded", "\x7b\x7d", true, 60, "1", sampleNow - 10 * Minute⟩
      (by decide) (by decide)).2 (by decide)⟩

/-! ## C6: failure isolation across the channels of a rule -/

/-- Every effect of a pass is on behalf of the rule of the pass. -/
theorem passEffects_ruleID (env : Env) (now : Int) (aT tT : String) (tid : Nat) (tn msg : String)
    (r : AlertRule) (k : Nat) (js : List (NotifyChannel × Notifier))
    (e : Notification × AlertLog) (he : e ∈ passEffects env now aT tT tid tn msg r k js) :
    e.1.RuleID = r.ID ∧ e.2.RuleID = r.ID := by
  induction js generalizing k with
  | nil => simp [passEffects] at he
  | cons j js ih =>
    simp only [passEffects, List.mem_cons] at he
    rcases he with h | h
    · subst h; exact ⟨rfl, rfl⟩
    · exact ih _ h

/-- The effects of a call that are on behalf of one fired rule are the effects of the pass
over that rule, in order; primary keys are unique. -/
theorem filter_callEffects (env : Env) (now : Int) (aT tT : String) (tid : Nat) (tn msg : String)
    (channels : List NotifyChannel) (rs : List AlertRule) (k : Nat) (r : AlertRule)
    (hids : (rs.map (fun x => x.ID)).Nodup) (hr : r ∈ rs) :
    ∃ k', k ≤ k' ∧
      (callEffects env now aT tT tid tn msg channels k rs).filter
          (fun e => e.1.RuleID == r.ID) =
        passEffects env now aT tT tid tn msg r k' (usableChannels env channels r) ∧
      (callEffects env now aT tT tid tn msg channels k rs).filter
          (fun e => e.2.RuleID == r.ID) =
        passEffects env now aT tT tid tn msg r k' (usableChannels env channels r) := by
  have hnone : ∀ (rs : List AlertRule) (k : Nat), (∀ x ∈ rs, x.ID ≠ r.ID) →
      (callEffects env now aT tT tid tn msg channels k rs).filter
          (fun e => e.1.RuleID == r.ID) = [] ∧
        (callEffects env now aT tT tid tn msg channels k rs).filter
          (fun e => e.2.RuleID == r.ID) = [] := by
    intro rs k h
    constructor
    · rw [List.filter_eq_nil_iff]
      intro e he
      obtain ⟨r', hr', j, _, ok, rfl⟩ := mem_callEffects _ _ _ _ _ _ _ _ _ _ _ he
      simpa using h r' hr'
    · rw [List.filter_eq_nil_iff]
      intro e he
      obtain ⟨r', hr', j, _, ok, rfl⟩ := mem_callEffects _ _ _ _ _ _ _ _ _ _ _ he
      simpa [logRow] using h r' hr'
  induction rs generalizing k with
  | nil => simp at hr
  | cons r0 rs ih =>
    simp only [List.map_cons, List.nodup_cons] at hids
    simp only [callEffects, List.filter_append]
    by_cases h0 : r0 = r
    · subst h0
      have hrest : ∀ x ∈ rs, x.ID ≠ r0.ID := by
        intro x hx he
        exact hids.1 (List.mem_map.2 ⟨x, hx, he⟩)
      obtain ⟨n1, n2⟩ := hnone rs (k + (usableChannels env channels r0).length) hrest
      refine ⟨k, le_refl _, ?_, ?_⟩
      · rw [n1, List.append_nil, List.filter_eq_self]
        intro e he
        simp [(passEffects_ruleID _ _ _ _ _ _ _ _ _ _ e he).1]
      · rw [n2, List.append_nil, List.filter_eq_self]
        intro e he
        simp [(passEffects_ruleID _ _ _ _ _ _ _ _ _ _ e he).2]
    · have hr' : r ∈ rs := by
        rcases List.mem_cons.1 hr with h | h
        · exact absurd h.symm h0
        · exact h
      have hne : r0.ID ≠ r.ID := by
        intro he
        exact hids.1 (List.mem_map.2 ⟨r, hr', he.symm⟩)
      obtain ⟨k', hk', e1, e2⟩ := ih (k + (usableChannels env channels r0).length) hids.2 hr'
      refine ⟨k', by omega, ?_, ?_⟩
      · rw [e1]
        have : (passEffects env now aT tT tid tn msg r0 k (usableChannels env channels r0)).filter
            (fun e => e.1.RuleID == r.ID) = [] := by
          rw [List.filter_eq_nil_iff]
          intro e he
          simp [(passEffects_ruleID _ _ _ _ _ _ _ _ _ _ e he).1, hne]
        rw [this, List.nil_append]
      · rw [e2]
        have : (passEffects env now aT tT tid tn msg r0 k (usableChannels env channels r0)).filter
            (fun e => e.2.RuleID == r.ID) = [] := by
          rw [List.filter_eq_nil_iff]
          intro e he
          simp [(passEffects_ruleID _ _ _ _ _ _ _ _ _ _ e he).2, hne]
        rw [this, List.nil_append]

/-- In the effects of a pass the row status mirrors the outcome of the send. -/
theorem passEffects_status (env : Env) (now : Int) (aT tT : String) (tid : Nat) (tn msg : String)
    (r : AlertRule) (k : Nat) (js : List (NotifyChannel × Notifier)) :
    (passEffects env now aT tT tid tn msg r k js).map (fun e => e.2.Status) =
        (passEffects env now aT tT tid tn msg r k js).map
          (fun e => if e.1.Ok = true then "sent" else "failed") ∧
      (passEffects env now aT tT tid tn msg r k js).map (fun e => e.1.ChannelID) =
        js.map (fun j => j.1.ID) := by
  induction js generalizing k with
  | nil => simp [passEffects]
  | cons j js ih => simp [passEffects, logRow, (ih (k + 1)).1, (ih (k + 1)).2]

/-- C6: for every rule that a `TriggerAlert` call fires, whatever the outcomes of the
sends, each usable channel of its list is attempted in list order and each attempt is
followed by one `AlertLog` row: the rows of the rule are exactly `n` (one per usable
channel), in list order, row `i` with status `failed` when send `i` returned an error
and `sent` otherwise; a failure stops nothing.  The rule's `lastAlertAt` is written
exactly once.  Primary keys are unique and non-zero. -/
theorem C6_dispatch_is_failure_isolated (env : Env) (now : Int) (aT tT : String)
    (tid : Nat) (tn msg : String) (s : State)
    (hids : (s.rules.map (fun r => r.ID)).Nodup) (hnz : ∀ r ∈ s.rules, r.ID ≠ 0)
    (r : AlertRule) (hr : r ∈ s.rules)
    (hdue : r.Typ = aT ∧ r.Enabled = true ∧
      ¬ timeSub now r.LastAlertAt < minutesDuration r.CooldownMin) :
    ∃ ls ns k,
      (TriggerAlert env now aT tT tid tn msg s).logs = s.logs ++ ls ∧
      (TriggerAlert env now aT tT tid tn msg s).sent = s.sent ++ ns ∧
      ns.filter (fun n => n.RuleID == r.ID) =
        (passEffects env now aT tT tid tn msg r k (usableChannels env s.channels r)).map
          Prod.fst ∧
      ls.filter (fun l => l.RuleID == r.ID) =
        (passEffects env now aT tT tid tn msg r k (usableChannels env s.channels r)).map
          Prod.snd ∧
      (ns.filter (fun n => n.RuleID == r.ID)).map (fun n => n.ChannelID) =
        (usableChannels env s.channels r).map (fun j => j.1.ID) ∧
      (ls.filter (fun l => l.RuleID == r.ID)).length = (usableChannels env s.channels r).length ∧
      (ls.filter (fun l => l.RuleID == r.ID)).map (fun l => l.Status) =
        (ns.filter (fun n => n.RuleID == r.ID)).map
          (fun n => if n.Ok = true then "sent" else "failed") ∧
      Processed now r s (TriggerAlert env now aT tT tid tn msg s) := by
  have hf : r ∈ firedRules now aT s := (mem_firedRules now aT s r).2 ⟨hr, hdue⟩
  have h1 : ((firedRules now aT s).map (fun x => x.ID)).Nodup :=
    List.Nodup.sublist ((firedRules_sublist now aT s).map _) hids
  obtain ⟨k, _, e1, e2⟩ := filter_callEffects env now aT tT tid tn msg s.channels
    (firedRules now aT s) s.sent.length r h1 hf
  have hst := passEffects_status env now aT tT tid tn msg r k (usableChannels env s.channels r)
  have hp := TriggerAlert_processed env now aT tT tid tn msg s hids hnz r hr hdue
  rw [TriggerAlert_eq] at hp ⊢
  refine ⟨_, _, k, rfl, rfl, ?_, ?_, ?_, ?_, ?_, hp⟩
  · rw [List.filter_map]
    exact congrArg (List.map Prod.fst) e1
  · rw [List.filter_map]
    exact congrArg (List.map Prod.snd) e2
  · rw [List.filter_map, List.map_map]
    have := congrArg (List.map (fun e : Notification × AlertLog => e.1.ChannelID)) e1
    rw [hst.2] at this
    exact this
  · rw [List.filter_map, List.length_map]
    have := congrArg List.length e2
    rw [passEffects_length] at this
    exact this
  · rw [List.filter_map, List.filter_map, List.map_map, List.map_map]
    have a1 := congrArg (List.map (fun e : Notification × AlertLog => e.2.Status)) e2
    have a2 := congrArg (List.map (fun e : Notification × AlertLog =>
      if e.1.Ok = true then "sent" else "failed")) e1
    rw [hst.1] at a1
    exact a1.trans a2.symm

/-- Witness for C6: the due rule of `mixedState` lists the channels 1 and 2; the send on
channel 1 fails, the send on channel 2 succeeds; the rows are `failed`, `sent`. -/
theorem C6_dispatch_is_failure_isolated_witness :
    (∃ ls ns k,
      (TriggerAlert flakyEnv sampleNow "quota_exceeded" "node" 7 "edge" "over"
        mixedState).logs = mixedState.logs ++ ls ∧
      (TriggerAlert flakyEnv sampleNow "quota_exceeded" "node" 7 "edge" "over"
        mixedState).sent = mixedState.sent ++ ns ∧
      ns.filter (fun n => n.RuleID == (ruleExceeded "1, 2").ID) =
        (passEffects flakyEnv sampleNow "quota_exceeded" "node" 7 "edge" "over"
          (ruleExceeded "1, 2") k
          (usableChannels flakyEnv mixedState.channels (ruleExceeded "1, 2"))).map Prod.fst ∧
      ls.filter (fun l => l.RuleID == (ruleExceeded "1, 2").ID) =
        (passEffects flakyEnv sampleNow "quota_exceeded" "node" 7 "edge" "over"
          (ruleExceeded "1, 2") k
          (usableChannels flakyEnv mixedState.channels (ruleExceeded "1, 2"))).map Prod.snd ∧
      (ns.filter (fun n => n.RuleID == (ruleExceeded "1, 2").ID)).map (fun n => n.ChannelID) =
        (usableChannels flakyEnv mixedState.channels (ruleExceeded "1, 2")).map
          (fun j => j.1.ID) ∧
      (ls.filter (fun l => l.RuleID == (ruleExceeded "1, 2").ID)).length =
        (usableChannels flakyEnv mixedState.channels (ruleExceeded "1, 2")).length ∧
      (ls.filter (fun l => l.RuleID == (ruleExceeded "1, 2").ID)).map (fun l => l.Status) =
        (ns.filter (fun n => n.RuleID == (ruleExceeded "1, 2").ID)).map
          (fun n => if n.Ok = true then "sent" else "failed") ∧
      Processed sampleNow (ruleExceeded "1, 2") mixedState
        (TriggerAlert flakyEnv sampleNow "quota_exceeded" "node" 7 "edge" "over"
          mixedState)) ∧
    ((TriggerAlert flakyEnv sampleNow "quota_exceeded" "node" 7 "edge" "over"
        mixedState).logs.map (fun l => (l.RuleID, l.Status))) = [(3, "failed"), (3, "sent")] ∧
    ((TriggerAlert flakyEnv sampleNow "quota_exceeded" "node" 7 "edge" "over"
        mixedState).stamps) = [⟨3, sampleNow⟩] :=
  ⟨C6_dispatch_is_failure_isolated flakyEnv sampleNow "quota_exceeded" "node" 7 "edge" "over"
      mixedState (by decide) (by decide) (ruleExceeded "1, 2") (by decide) (by decide),
    by decide, by decide⟩

/-! ## C5: the cooldown of a rule -/

/-- In a table with unique keys the rows that share the key of a stored row are that row. -/
theorem filter_id_eq (l : List AlertRule) (r : AlertRule)
    (hids : (l.map (fun x => x.ID)).Nodup) (hr : r ∈ l) :
    l.filter (fun x => x.ID == r.ID) = [r] := by
  induction l with
  | nil => simp at hr
  | cons a l ih =>
    simp only [List.map_cons, List.nodup_cons] at hids
    by_cases ha : a = r
    · subst ha
      have : l.filter (fun x => x.ID == a.ID) = [] := by
        rw [List.filter_eq_nil_iff]
        intro x hx
        have : x.ID ≠ a.ID := fun he => hids.1 (List.mem_map.2 ⟨x, hx, he⟩)
        simpa using this
      simp [List.filter_cons, this]
    · have hr' : r ∈ l := by
        rcases List.mem_cons.1 hr with h | h
        · exact absurd h.symm ha
        · exact h
      have hne : a.ID ≠ r.ID := fun he => hids.1 (List.mem_map.2 ⟨r, hr', he.symm⟩)
      simp [List.filter_cons, hne, ih hids.2 hr']

/-- The writes a call makes on behalf of a stored rule: one if it fired, none otherwise. -/
theorem filter_new_stamps (now : Int) (aT : String) (s : State)
    (hids : (s.rules.map (fun r => r.ID)).Nodup) (r : AlertRule) (hr : r ∈ s.rules) :
    ((firedRules now aT s).map (fun x => (⟨x.ID, now⟩ : Stamp))).filter
        (fun x => x.RuleID == r.ID) =
      if r ∈ firedRules now aT s then [⟨r.ID, now⟩] else [] := by
  rw [List.filter_map]
  have h1 : ((firedRules now aT s).map (fun x => x.ID)).Nodup :=
    List.Nodup.sublist ((firedRules_sublist now aT s).map _) hids
  split
  · rename_i hf
    have := filter_id_eq _ r h1 hf
    simp only [Function.comp_def]
    rw [this]
    rfl
  · rename_i hf
    have : (firedRules now aT s).filter
        ((fun x : Stamp => x.RuleID == r.ID) ∘ fun x => (⟨x.ID, now⟩ : Stamp)) = [] := by
      rw [List.filter_eq_nil_iff]
      intro x hx
      have : x.ID ≠ r.ID := by
        intro he
        exact hf (mem_fired_of_id now aT s hids r hr (List.mem_map.2 ⟨x, hx, he⟩))
      simpa using this
    rw [this]
    rfl

/-- The rule table keeps its primary keys across a call. -/
theorem stampRules_ids (now : Int) (fired rules : List AlertRule) :
    (stampRules now fired rules).map (fun r => r.ID) = rules.map (fun r => r.ID) := by
  rw [stampRules_eq, List.map_map]
  apply List.map_congr_left
  intro x _
  simp only [Function.comp]
  split <;> rfl

/-- `TriggerAlert` preserves the cooldown invariant. -/
theorem TriggerAlert_cooldownInv (env : Env) (now : Int) (aT tT : String) (tid : Nat)
    (tn msg : String) (rid : Nat) (C : Int) (old : List Stamp) (s : State) (hrid : rid ≠ 0)
    (h0 : 0 ≤ C) (h1 : C ≤ 153722867) (h : CooldownInv rid C old s) :
    CooldownInv rid C old (TriggerAlert env now aT tT tid tn msg s) := by
  obtain ⟨hids, r, hr, hid, hC, st, hst, hpw, hle⟩ := h
  have hnew := filter_new_stamps now aT s hids r hr
  rw [TriggerAlert_eq]
  refine ⟨by simpa [stampRules_ids] using hids, ?_⟩
  by_cases hf : r ∈ firedRules now aT s
  · have hdue := ((mem_firedRules now aT s r).1 hf).2.2.2
    rw [hC] at hdue
    have hgap : r.LastAlertAt + C * Minute ≤ now := by
      have := (cooldown_exact now r.LastAlertAt C (by omega) h1).1 hdue
      omega
    have hD : 0 ≤ C * Minute := by unfold Minute; omega
    refine ⟨{ r with LastAlertAt := now }, ?_, hid, hC, st ++ (firedRules now aT s).map
      (fun x => (⟨x.ID, now⟩ : Stamp)), by simp [hst], ?_, ?_⟩
    · simp only [stampRules_eq]
      refine List.mem_map.2 ⟨r, hr, ?_⟩
      have : r.ID ∈ (firedRules now aT s).map (fun x => x.ID) := List.mem_map.2 ⟨r, hf, rfl⟩
      have hz : r.ID ≠ 0 := by rw [hid]; exact hrid
      simp [hz, this]
    · rw [List.filter_append, ← hid, hnew, if_pos hf, List.pairwise_append]
      refine ⟨by rw [hid]; exact hpw, List.pairwise_singleton _ _, ?_⟩
      intro a ha b hb
      rw [List.mem_singleton] at hb
      subst hb
      have := hle a (by rw [← hid]; exact ha)
      show a.At + C * Minute ≤ now
      omega
    · intro x hx
      rw [List.filter_append, ← hid, hnew, if_pos hf, List.mem_append] at hx
      show x.At ≤ now
      rcases hx with hx | hx
      · have := hle x (by rw [← hid]; exact hx)
        omega
      · rw [List.mem_singleton] at hx
        subst hx
        exact le_refl _
  · have hnid : r.ID ∉ (firedRules now aT s).map (fun x => x.ID) :=
      fun h => hf (mem_fired_of_id now aT s hids r hr h)
    refine ⟨r, ?_, hid, hC, st ++ (firedRules now aT s).map
      (fun x => (⟨x.ID, now⟩ : Stamp)), by simp [hst], ?_, ?_⟩
    · simp only [stampRules_eq]
      refine List.mem_map.2 ⟨r, hr, ?_⟩
      simp [hnid]
    · rw [List.filter_append, ← hid, hnew, if_neg hf, List.append_nil, hid]
      exact hpw
    · intro x hx
      rw [List.filter_append, ← hid, hnew, if_neg hf, List.append_nil, hid] at hx
      exact hle x hx

/-- A loop whose every pass preserves a predicate preserves it. -/
theorem foldl_preserves {α : Type} (I : State → Prop) (f : State → α → State)
    (hf : ∀ s a, I s → I (f s a)) (l : List α) (s : State) (h : I s) : I (l.foldl f s) := by
  induction l generalizing s with
  | nil => exact h
  | cons a l ih => exact ih (f s a) (hf s a h)

/-- A predicate that `TriggerAlert` preserves, and that does not look at the node, client
and log tables, is preserved by every operation other than `ResetQuotas`. -/
theorem runOp_preserves (env : Env) (I : State → Prop)
    (hT : ∀ now aT tT tid tn msg s, I s → I (TriggerAlert env now aT tT tid tn msg s))
    (hn : ∀ (s : State) (nodes : List Node), I s → I { s with nodes := nodes })
    (hc : ∀ (s : State) (clients : List Client), I s → I { s with clients := clients })
    (hl : ∀ (s : State) (logs : List AlertLog), I s → I { s with logs := logs })
    (s : State) (step : Int × Op) (h : I s) : I (runOp env s step) := by
  have hw : ∀ now tid tT tn used quota s, I s →
      I (checkQuotaWarning env now tid tT tn used quota s) := by
    intro now tid tT tn used quota s hs
    unfold checkQuotaWarning
    apply foldl_preserves I _ _ _ _ hs
    intro s r hs
    unfold warnRule
    simp only []
    split
    · exact hs
    · split
      · exact hs
      · split
        · exact hs
        · split
          · exact hs
          · exact hT _ _ _ _ _ _ _ hs
  obtain ⟨now, op⟩ := step
  cases op with
  | checkNodeQuota node =>
    show I (CheckNodeQuota env now node s)
    unfold CheckNodeQuota
    split
    · exact h
    · simp only []
      split
      · exact hT _ _ _ _ _ _ _ (hn _ _ (hw _ _ _ _ _ _ _ h))
      · exact hw _ _ _ _ _ _ _ h
  | checkClientQuota client =>
    show I (CheckClientQuota env now client s)
    unfold CheckClientQuota
    split
    · exact h
    · simp only []
      split
      · exact hT _ _ _ _ _ _ _ (hc _ _ (hw _ _ _ _ _ _ _ h))
      · exact hw _ _ _ _ _ _ _ h
  | triggerAlert aT tT tid tn msg => exact hT _ _ _ _ _ _ _ h
  | triggerAlertWithKey aT tT tid tn msg key => exact hT _ _ _ _ _ _ _ h
  | checkNodeOffline node prev =>
    show I (CheckNodeOffline env now node prev s)
    unfold CheckNodeOffline
    split
    · exact hT _ _ _ _ _ _ _ h
    · exact h
  | checkOfflineNodes m =>
    show I (CheckOfflineNodes env now m s)
    unfold CheckOfflineNodes
    apply foldl_preserves I _ _ _ _ h
    intro s node hs
    exact hT _ _ _ _ _ _ _ (hn _ _ hs)
  | cleanupAlertLogs d => exact hl _ _ h

/-- C5, as stated, fails for a cooldown whose duration overflows `int64` nanoseconds: the
rule `longCooldownRule` has `cooldownMinutes = 153722868`, fires for node 7 and, one
minute later, fires again for node 8, each time with a send and a log row. -/
theorem C5_counterexample :
    longCooldownRule.CooldownMin = 153722868 ∧
    minutesDuration longCooldownRule.CooldownMin < 0 ∧
    (runOps sampleEnv (sampleState [longCooldownRule] [hook 1] (sampleNode 1000 true))
        [(sampleNow, Op.triggerAlert "quota_exceeded" "node" 7 "edge" "over"),
          (sampleNow + Minute, Op.triggerAlert "quota_exceeded" "node" 8 "core" "over")]).stamps =
      [⟨3, sampleNow⟩, ⟨3, sampleNow + Minute⟩] ∧
    ((runOps sampleEnv (sampleState [longCooldownRule] [hook 1] (sampleNode 1000 true))
        [(sampleNow, Op.triggerAlert "quota_exceeded" "node" 7 "edge" "over"),
          (sampleNow + Minute, Op.triggerAlert "quota_exceeded" "node" 8 "core" "over")]).logs.map
      (fun l => (l.RuleID, l.TargetID, l.CreatedAt))) =
      [(3, 7, sampleNow), (3, 8, sampleNow + Minute)] ∧
    ((runOps sampleEnv (sampleState [longCooldownRule] [hook 1] (sampleNode 1000 true))
        [(sampleNow, Op.triggerAlert "quota_exceeded" "node" 7 "edge" "over"),
          (sampleNow + Minute, Op.triggerAlert "quota_exceeded" "node" 8 "core" "over")]).sent.map
      (fun n => (n.RuleID, n.ChannelID))) = [(3, 1), (3, 1)] := by
  decide

/-- C5 (amended): for every stored rule with `cooldownMinutes = C <= 153722867` (the
largest cooldown whose duration fits `int64` nanoseconds) and every sequence of
operations of the alert service other than `ResetQuotas` (`TriggerAlert` calls of any
type for any target among them), any two writes of the rule's `lastAlertAt`, which is to
say any two firings of the rule, are at least `C` minutes apart; and while less than `C`
minutes have passed since the rule's `lastAlertAt`, a `TriggerAlert` call for any target
leaves the rule untouched: no send, no log row, no write.  Primary keys are unique and
non-zero. -/
theorem C5_rule_cooldown (env : Env) (s : State) (steps : List (Int × Op)) (r : AlertRule)
    (C : Int) (hids : (s.rules.map (fun x => x.ID)).Nodup) (hr : r ∈ s.rules)
    (hnz : r.ID ≠ 0) (hC : r.CooldownMin = C) (hrange : C ≤ 153722867) :
    (∃ st, (runOps env s steps).stamps = s.stamps ++ st ∧
      (st.filter (fun x => x.RuleID == r.ID)).Pairwise
        (fun a b => C * Minute ≤ |b.At - a.At|)) ∧
    (∀ now aT tT tid tn msg, r.LastAlertAt ≤ now → now - r.LastAlertAt < C * Minute →
      Untouched r s (TriggerAlert env now aT tT tid tn msg s)) := by
  constructor
  · by_cases h0 : 0 ≤ C
    · have hinit : CooldownInv r.ID C s.stamps s :=
        ⟨hids, r, hr, rfl, hC, [], by simp, by simp, by simp⟩
      have hfin : CooldownInv r.ID C s.stamps (runOps env s steps) := by
        unfold runOps
        apply foldl_preserves (CooldownInv r.ID C s.stamps) _ _ _ _ hinit
        intro s' step hs'
        exact runOp_preserves env (CooldownInv r.ID C s.stamps)
          (fun now aT tT tid tn msg x hx =>
            TriggerAlert_cooldownInv env now aT tT tid tn msg r.ID C s.stamps x hnz h0 hrange hx)
          (fun _ _ hx => hx) (fun _ _ hx => hx) (fun _ _ hx => hx) s' step hs'
      obtain ⟨_, _, _, _, _, st, hst, hpw, _⟩ := hfin
      refine ⟨st, hst, hpw.imp ?_⟩
      intro a b hab
      have : C * Minute ≤ b.At - a.At := by omega
      exact le_trans this (le_abs_self _)
    · have hgrow : ∀ (s' : State), (∃ st, s'.stamps = s.stamps ++ st) →
          ∀ step, ∃ st, (runOp env s' step).stamps = s.stamps ++ st := by
        intro s' hs' step
        exact runOp_preserves env (fun x => ∃ st, x.stamps = s.stamps ++ st)
          (fun now aT tT tid tn msg x hx => by
            obtain ⟨st, hst⟩ := hx
            rw [TriggerAlert_eq]
            exact ⟨st ++ (firedRules now aT x).map (fun r => (⟨r.ID, now⟩ : Stamp)),
              by simp [hst]⟩)
          (fun _ _ hx => hx) (fun _ _ hx => hx) (fun _ _ hx => hx) s' step hs'
      have hfin : ∃ st, (runOps env s steps).stamps = s.stamps ++ st := by
        unfold runOps
        exact foldl_preserves (fun x => ∃ st, x.stamps = s.stamps ++ st) _
          (fun s' step hs' => hgrow s' hs' step) _ _ ⟨[], by simp⟩
      obtain ⟨st, hst⟩ := hfin
      refine ⟨st, hst, List.pairwise_of_forall ?_⟩
      intro a b
      have h1 : C * Minute ≤ 0 := by unfold Minute; omega
      exact le_trans h1 (abs_nonneg _)
  · intro now aT tT tid tn msg hle hlt
    apply TriggerAlert_untouched env now aT tT tid tn msg s hids r hr
    intro hdue
    have hpos : 0 < C := by
      by_contra hneg
      have : C * Minute ≤ 0 := by unfold Minute; omega
      omega
    have := (cooldown_exact now r.LastAlertAt r.CooldownMin (by omega) (by omega)).1 hdue.2.2
    rw [hC] at this
    omega

/-- Witness for C5 (amended): the default quota_exceeded rule (cooldown 60) triggered now
for node 7, a minute later for node 8 and 61 minutes later for node 8 fires at the first
and the third call only. -/
theorem C5_rule_cooldown_witness :
    (∃ st, (runOps sampleEnv (sampleState [ruleExceeded "1"] [hook 1] (sampleNode 1000 true))
        [(sampleNow, Op.triggerAlert "quota_exceeded" "node" 7 "edge" "over"),
          (sampleNow + Minute, Op.triggerAlert "quota_exceeded" "node" 8 "core" "over"),
          (sampleNow + 61 * Minute,
            Op.triggerAlert "quota_exceeded" "node" 8 "core" "over")]).stamps =
        (sampleState [ruleExceeded "1"] [hook 1] (sampleNode 1000 true)).stamps ++ st ∧
      (st.filter (fun x => x.RuleID == (ruleExceeded "1").ID)).Pairwise
        (fun a b => 60 * Minute ≤ |b.At - a.At|)) ∧
    (runOps sampleEnv (sampleState [ruleExceeded "1"] [hook 1] (sampleNode 1000 true))
        [(sampleNow, Op.triggerAlert "quota_exceeded" "node" 7 "edge" "over"),
          (sampleNow + Minute, Op.triggerAlert "quota_exceeded" "node" 8 "core" "over"),
          (sampleNow + 61 * Minute,
            Op.triggerAlert "quota_exceeded" "node" 8 "core" "over")]).stamps =
      [⟨3, sampleNow⟩, ⟨3, sampleNow + 61 * Minute⟩] :=
  ⟨(C5_rule_cooldown sampleEnv (sampleState [ruleExceeded "1"] [hook 1] (sampleNode 1000 true))
      [(sampleNow, Op.triggerAlert "quota_exceeded" "node" 7 "edge" "over"),
        (sampleNow + Minute, Op.triggerAlert "quota_exceeded" "node" 8 "core" "over"),
        (sampleNow + 61 * Minute, Op.triggerAlert "quota_exceeded" "node" 8 "core" "over")]
      (ruleExceeded "1") 60 (by decide) (by decide) (by decide) rfl (by decide)).1,
    by decide⟩

/-! ## C3: deduplication of quota warnings -/

/-- A text ends with `a` exactly when it is some text followed by `a`. -/
theorem endsWith_iff (a b : List Char) : endsWith a b = true ↔ ∃ t, b = t ++ a := by
  unfold endsWith
  constructor
  · intro h
    have h' : b.drop (b.length - a.length) = a := by simpa using h
    refine ⟨b.take (b.length - a.length), ?_⟩
    conv_lhs => rw [← List.take_append_drop (b.length - a.length) b]
    rw [h']
  · rintro ⟨t, rfl⟩
    simp

/-- `anySuffix f` accepts a text as soon as `f` accepts one of its endings. -/
theorem anySuffix_append (f : List Char → Bool) (a x : List Char) (h : f x = true) :
    anySuffix f (a ++ x) = true := by
  induction a with
  | nil =>
    cases x with
    | nil => simpa [anySuffix] using h
    | cons c t => simp [anySuffix, h]
  | cons c a ih => simp [anySuffix, ih]

/-- A pattern followed by `%` matches every text that starts with the pattern itself. -/
theorem likeMatch_self (k b : List Char) : likeMatch (k ++ ['%']) (k ++ b) = true := by
  induction k with
  | nil =>
    have : likeMatch ['%'] b = anySuffix (likeMatch []) b := by simp [likeMatch]
    rw [List.nil_append, List.nil_append, this]
    have := anySuffix_append (likeMatch []) b [] (by simp [likeMatch])
    simpa using this
  | cons a k ih =>
    by_cases ha : a = '%'
    · subst ha
      have : likeMatch ('%' :: k ++ ['%']) ('%' :: k ++ b) =
          anySuffix (likeMatch (k ++ ['%'])) ('%' :: (k ++ b)) := by simp [likeMatch]
      rw [this]
      exact anySuffix_append _ ['%'] (k ++ b) ih
    · simp [likeMatch, ha, ih]

/-- The pattern `%key%` matches every text that contains the key. -/
theorem likeMatch_infix (k a b : List Char) :
    likeMatch ('%' :: (k ++ ['%'])) (a ++ (k ++ b)) = true := by
  have : likeMatch ('%' :: (k ++ ['%'])) (a ++ (k ++ b)) =
      anySuffix (likeMatch (k ++ ['%'])) (a ++ (k ++ b)) := by simp [likeMatch]
  rw [this]
  exact anySuffix_append _ a (k ++ b) (likeMatch_self k b)

/-- A text splits in one way only at the first occurrence of a character. -/
theorem split_first_unique (c : Char) (x x' y y' : List Char) (hx : c ∉ x) (hx' : c ∉ x')
    (h : x ++ c :: y = x' ++ c :: y') : x = x' ∧ y = y' := by
  induction x generalizing x' with
  | nil =>
    cases x' with
    | nil => simpa using h
    | cons a t =>
      simp only [List.nil_append, List.cons_append, List.cons.injEq] at h
      exact absurd (h.1 ▸ List.mem_cons_self _ _) hx'
  | cons a t ih =>
    cases x' with
    | nil =>
      simp only [List.nil_append, List.cons_append, List.cons.injEq] at h
      exact absurd (h.1 ▸ List.mem_cons_self _ _) hx
    | cons a' t' =>
      simp only [List.cons_append, List.cons.injEq] at h
      have ht : c ∉ t := fun hc => hx (List.mem_cons_of_mem _ hc)
      have ht' : c ∉ t' := fun hc => hx' (List.mem_cons_of_mem _ hc)
      obtain ⟨e1, e2⟩ := ih t' ht ht' h.2
      exact ⟨by rw [h.1, e1], e2⟩

/-- A text splits in one way only at the last occurrence of a character. -/
theorem split_last_unique (c : Char) (x x' y y' : List Char) (hy : c ∉ y) (hy' : c ∉ y')
    (h : x ++ c :: y = x' ++ c :: y') : x = x' ∧ y = y' := by
  have h' := congrArg List.reverse h
  simp only [List.reverse_append, List.reverse_cons, List.append_assoc, List.singleton_append]
    at h'
  obtain ⟨e1, e2⟩ := split_first_unique c y.reverse y'.reverse x.reverse x'.reverse
    (by simpa using hy) (by simpa using hy') h'
  exact ⟨List.reverse_injective e2, List.reverse_injective e1⟩

/-- Helper: an `if` between two characters that both differ from `c` differs from `c`. -/
theorem ite_ne_char {p : Prop} [Decidable p] {a b c : Char} (ha : a ≠ c) (hb : b ≠ c) :
    (if p then a else b) ≠ c := by
  split <;> assumption

/-- No digit character is a line feed. -/
theorem digitChar_ne_newline (d : Nat) : Nat.digitChar d ≠ '\n' := by
  unfold Nat.digitChar
  iterate 16 (refine ite_ne_char (by decide) ?_)
  decide

/-- The digit loop of `Nat.repr` produces no line feed. -/
theorem toDigitsCore_no_newline (base : Nat) (fuel n : Nat) (ds : List Char)
    (h : ∀ c ∈ ds, c ≠ '\n') : ∀ c ∈ Nat.toDigitsCore base fuel n ds, c ≠ '\n' := by
  induction fuel generalizing n ds with
  | zero => simpa [Nat.toDigitsCore] using h
  | succ f ih =>
    unfold Nat.toDigitsCore
    simp only []
    have hd : ∀ c ∈ Nat.digitChar (n % base) :: ds, c ≠ '\n' := by
      intro c hc
      rcases List.mem_cons.1 hc with h1 | h1
      · rw [h1]; exact digitChar_ne_newline _
      · exact h c h1
    split
    · exact hd
    · exact ih _ _ hd

/-- The decimal rendering of a natural number contains no line feed. -/
theorem natToString_no_newline (n : Nat) : '\n' ∉ (toString n).toList := by
  intro hc
  have : ∀ c ∈ (Nat.repr n).toList, c ≠ '\n' := by
    unfold Nat.repr Nat.toDigits
    exact toDigitsCore_no_newline 10 _ _ [] (by simp)
  exact this _ hc rfl

/-- The decimal rendering of an integer contains no line feed. -/
theorem intToString_no_newline (i : Int) : '\n' ∉ (toString i).toList := by
  cases i with
  | ofNat m => exact natToString_no_newline m
  | negSucc m =>
    show '\n' ∉ ("-" ++ toString (m + 1)).toList
    intro hc
    rw [String.toList, String.data_append, List.mem_append] at hc
    rcases hc with h | h
    · revert h; decide
    · exact natToString_no_newline _ h

/-- The dedup key of a node or client contains no line feed. -/
theorem warningKey_no_newline (tT : String) (id : Nat) (T : Int)
    (htT : tT = "node" ∨ tT = "client") : '\n' ∉ (warningKey tT id T).toList := by
  unfold warningKey
  simp only [String.toList, String.data_append, List.mem_append, not_or]
  refine ⟨⟨⟨⟨⟨by decide, ?_⟩, by decide⟩, natToString_no_newline id⟩, by decide⟩,
    intToString_no_newline T⟩
  rcases htT with h | h <;> subst h <;> decide

/-- A message that `TriggerAlertWithKey` built for one key ends with the marker of
another key only if the keys are equal (neither contains a line feed). -/
theorem marker_inj (m k k' : String) (hk : '\n' ∉ k.toList) (hk' : '\n' ∉ k'.toList)
    (h : endsWith (keyMarker k).toList (m ++ "\n<!-- " ++ k' ++ " -->").toList = true) :
    k = k' := by
  obtain ⟨t, ht⟩ := (endsWith_iff _ _).1 h
  simp only [keyMarker, String.toList, String.data_append] at ht
  have e : m.data ++ '\n' :: (['<', '!', '-', '-', ' '] ++ k'.data ++ [' ', '-', '-', '>']) =
      t ++ '\n' :: (['<', '!', '-', '-', ' '] ++ k.data ++ [' ', '-', '-', '>']) := by
    simpa [List.append_assoc] using ht
  have n1 : '\n' ∉ ['<', '!', '-', '-', ' '] ++ k'.data ++ [' ', '-', '-', '>'] := by
    simp only [List.mem_append, not_or]
    exact ⟨⟨by decide, hk'⟩, by decide⟩
  have n2 : '\n' ∉ ['<', '!', '-', '-', ' '] ++ k.data ++ [' ', '-', '-', '>'] := by
    simp only [List.mem_append, not_or]
    exact ⟨⟨by decide, hk⟩, by decide⟩
  have := (split_last_unique '\n' _ _ _ _ n1 n2 e).2
  have h2 : k'.data = k.data := by
    have := List.append_cancel_right this
    exact List.append_cancel_left this
  exact (String.ext h2).symm

/-- When the dedup guard lets a key pass, every warning row matching it is 24 hours old. -/
theorem not_recent (now : Int) (key : String) (d : Int) (s : State)
    (h : hasRecentWarning now key d s = false) (y : AlertLog) (hy : y ∈ s.logs)
    (ht : y.Typ = "quota_warning")
    (hm : likeMatch ("%" ++ key ++ "%").toList y.Message.toList = true) :
    y.CreatedAt ≤ now - d := by
  unfold hasRecentWarning at h
  simp only [decide_eq_false_iff_not, not_lt, Nat.le_zero, List.length_eq_zero] at h
  rw [List.filter_eq_nil_iff] at h
  have := h y hy
  simp only [ht, beq_self_eq_true, hm, Bool.and_self, Bool.true_and, decide_eq_true_eq] at this
  omega

/-- A row that carries a key is matched by the `LIKE` pattern of the dedup guard. -/
theorem carries_like (key : String) (y : AlertLog) (h : carriesKey key y = true) :
    y.Typ = "quota_warning" ∧
      likeMatch ("%" ++ key ++ "%").toList y.Message.toList = true := by
  unfold carriesKey at h
  simp only [Bool.and_eq_true, beq_iff_eq] at h
  refine ⟨h.1, ?_⟩
  obtain ⟨t, ht⟩ := (endsWith_iff _ _).1 h.2
  rw [ht]
  simp only [keyMarker, String.toList, String.data_append]
  have e2 : t ++ (['\n', '<', '!', '-', '-', ' '] ++ key.data ++ [' ', '-', '-', '>']) =
      (t ++ ['\n', '<', '!', '-', '-', ' ']) ++ (key.data ++ [' ', '-', '-', '>']) := by
    simp [List.append_assoc]
  rw [e2]
  exact likeMatch_infix key.data _ _

/-- Appending spaced rows preserves the dedup invariant. -/
theorem dedupInv_append {key : String} {old : List AlertLog} {s s' : State}
    (ls : List AlertLog) (h : DedupInv key old s) (hl : s'.logs = s.logs ++ ls)
    (h2 : ∀ a ∈ s.logs, ∀ b ∈ ls, Spaced key a b) :
    DedupInv key old s' := by
  obtain ⟨new, hnew, hold⟩ := h
  refine ⟨new ++ ls, by rw [hl, hnew, List.append_assoc], ?_⟩
  intro a ha b hb
  rcases List.mem_append.1 hb with hb | hb
  · exact hold a ha b hb
  · exact h2 a (by rw [hnew]; exact List.mem_append_left _ ha) b hb

/-- A dispatch preserves the dedup invariant when its rows are spaced from the log. -/
theorem TriggerAlert_dedup (env : Env) (now : Int) (aT tT : String) (tid : Nat)
    (tn msg : String) (key : String) (old : List AlertLog) (s : State)
    (h : DedupInv key old s)
    (hsp : ∀ a ∈ s.logs, ∀ b : AlertLog, b.Typ = aT → b.Message = msg → b.CreatedAt = now →
      Spaced key a b) :
    DedupInv key old (TriggerAlert env now aT tT tid tn msg s) := by
  obtain ⟨ls, hls, pls⟩ := (TriggerAlert_grows env now aT tT tid tn msg s).logs
  refine dedupInv_append ls h hls ?_
  intro a ha b hb
  exact hsp a ha b (pls b hb).1 (pls b hb).2.1 (pls b hb).2.2.1

/-- One pass of the warning loop preserves the dedup invariant. -/
theorem warnRule_dedup (env : Env) (now : Int) (tid : Nat) (tT tn : String) (used quota : Int)
    (rule : AlertRule) (key : String) (old : List AlertLog) (s : State)
    (htT : tT = "node" ∨ tT = "client") (hkey : '\n' ∉ key.toList)
    (h : DedupInv key old s) :
    DedupInv key old (warnRule env now tid tT tn used quota s rule) := by
  unfold warnRule
  simp only []
  split
  · exact h
  · split
    · exact h
    · split
      · exact h
      · split
        · exact h
        · next hrec =>
          unfold TriggerAlertWithKey
          simp only []
          apply TriggerAlert_dedup _ _ _ _ _ _ _ _ _ _ h
          intro a ha b _ hmsg hat ca cb
          have hb : endsWith (keyMarker key).toList b.Message.toList = true := by
            unfold carriesKey at cb
            simp only [Bool.and_eq_true] at cb
            exact cb.2
          rw [hmsg] at hb
          have hk := marker_inj _ key _ hkey
            (warningKey_no_newline tT tid _ htT) hb
          have hl := carries_like key a ca
          rw [hk] at hl
          have := not_recent now _ (24 * Hour) s (by simpa using hrec) a ha hl.1 hl.2
          rw [hat]
          omega

/-- The warning check preserves the dedup invariant. -/
theorem checkQuotaWarning_dedup (env : Env) (now : Int) (tid : Nat) (tT tn : String)
    (used quota : Int) (key : String) (old : List AlertLog) (s : State)
    (htT : tT = "node" ∨ tT = "client") (hkey : '\n' ∉ key.toList)
    (h : DedupInv key old s) :
    DedupInv key old (checkQuotaWarning env now tid tT tn used quota s) := by
  unfold checkQuotaWarning
  exact foldl_preserves (DedupInv key old) _
    (fun s r hs => warnRule_dedup env now tid tT tn used quota r key old s htT hkey hs) _ _ h

/-- A quota_exceeded dispatch preserves the dedup invariant: its rows carry no key. -/
theorem exceeded_dedup (env : Env) (now : Int) (tT : String) (tid : Nat) (tn msg : String)
    (key : String) (old : List AlertLog) (s : State) (h : DedupInv key old s) :
    DedupInv key old (TriggerAlert env now "quota_exceeded" tT tid tn msg s) := by
  apply TriggerAlert_dedup _ _ _ _ _ _ _ _ _ _ h
  intro a _ b hb _ _ _ cb
  unfold carriesKey at cb
  rw [hb] at cb
  revert cb
  simp

/-- One quota check preserves the dedup invariant. -/
theorem runCheck_dedup (env : Env) (key : String) (old : List AlertLog) (s : State)
    (step : Int × (Node ⊕ Client)) (hkey : '\n' ∉ key.toList) (h : DedupInv key old s) :
    DedupInv key old (runCheck env s step) := by
  obtain ⟨now, target⟩ := step
  cases target with
  | inl node =>
    show DedupInv key old (CheckNodeQuota env now node s)
    unfold CheckNodeQuota
    split
    · exact h
    · simp only []
      have hw := checkQuotaWarning_dedup env now node.ID "node" node.Name node.QuotaUsed
        node.TrafficQuota key old s (Or.inl rfl) hkey h
      split
      · exact exceeded_dedup _ _ _ _ _ _ _ _ _ hw
      · exact hw
  | inr client =>
    show DedupInv key old (CheckClientQuota env now client s)
    unfold CheckClientQuota
    split
    · exact h
    · simp only []
      have hw := checkQuotaWarning_dedup env now client.ID "client" client.Name
        client.QuotaUsed client.TrafficQuota key old s (Or.inr rfl) hkey h
      split
      · exact exceeded_dedup _ _ _ _ _ _ _ _ _ hw
      · exact hw

/-- C3, as stated, fails: one quota check of a node at 85% against the 80% rule with two
usable channels appends two quota_warning rows in one pass, both carrying the key
`quota_warning_node_7_80`. -/
theorem C3_counterexample :
    (sampleState [rule80 "1, 2"] [hook 1, hook 2] (sampleNode 850 false)).logs = [] ∧
    warningKey "node" 7 80 = "quota_warning_node_7_80" ∧
    (afterTwoChannelCheck.logs.map
      (fun l => (l.Typ, carriesKey (warningKey "node" 7 80) l, l.CreatedAt))) =
      [("quota_warning", true, sampleNow), ("quota_warning", true, sampleNow)] := by
  decide

/-- C3 (amended): for every node or client, every threshold `T` and every sequence of
quota checks followed by one more quota check, each quota_warning row appended by that
last check whose message ends with the marker line of the key
`quota_warning_{type}_{id}_{T}` was created at least 24 hours after every row with that
marker that was in the log before the check: rows with the key that stem from different
checks are at least 24 hours apart. -/
theorem C3_warning_rows_are_spaced (env : Env) (s : State)
    (earlier : List (Int × (Node ⊕ Client))) (check : Int × (Node ⊕ Client))
    (tT : String) (id : Nat) (T : Int) (htT : tT = "node" ∨ tT = "client") :
    ∃ new, (runChecks env s (earlier ++ [check])).logs =
        (runChecks env s earlier).logs ++ new ∧
      ∀ a ∈ (runChecks env s earlier).logs, ∀ b ∈ new,
        carriesKey (warningKey tT id T) a = true → carriesKey (warningKey tT id T) b = true →
          a.CreatedAt + 24 * Hour ≤ b.CreatedAt := by
  have hkey := warningKey_no_newline tT id T htT
  have e : runChecks env s (earlier ++ [check]) = runCheck env (runChecks env s earlier) check := by
    simp [runChecks, List.foldl_append]
  rw [e]
  exact runCheck_dedup env _ _ (runChecks env s earlier) check hkey ⟨[], by simp, by simp⟩

/-- Witness for C3 (amended): the node at 85% checked now and a minute later, then once
more 25 hours later, against the 80% rule with two channels; the first check writes two
rows, the second none, the last two rows 25 hours after the first ones. -/
theorem C3_warning_rows_are_spaced_witness :
    (∃ new, (runChecks sampleEnv
        (sampleState [rule80 "1, 2"] [hook 1, hook 2] (sampleNode 850 false))
        ([(sampleNow, Sum.inl (sampleNode 850 false)),
          (sampleNow + Minute, Sum.inl (sampleNode 850 false))] ++
          [(sampleNow + 25 * Hour, Sum.inl (sampleNode 850 false))])).logs =
        (runChecks sampleEnv
          (sampleState [rule80 "1, 2"] [hook 1, hook 2] (sampleNode 850 false))
          [(sampleNow, Sum.inl (sampleNode 850 false)),
            (sampleNow + Minute, Sum.inl (sampleNode 850 false))]).logs ++ new ∧
      ∀ a ∈ (runChecks sampleEnv
          (sampleState [rule80 "1, 2"] [hook 1, hook 2] (sampleNode 850 false))
          [(sampleNow, Sum.inl (sampleNode 850 false)),
            (sampleNow + Minute, Sum.inl (sampleNode 850 false))]).logs, ∀ b ∈ new,
        carriesKey (warningKey "node" 7 80) a = true →
          carriesKey (warningKey "node" 7 80) b = true →
            a.CreatedAt + 24 * Hour ≤ b.CreatedAt) ∧
    ((runChecks sampleEnv
        (sampleState [rule80 "1, 2"] [hook 1, hook 2] (sampleNode 850 false))
        [(sampleNow, Sum.inl (sampleNode 850 false)),
          (sampleNow + Minute, Sum.inl (sampleNode 850 false)),
          (sampleNow + 25 * Hour, Sum.inl (sampleNode 850 false))]).logs.map
      (fun l => (carriesKey (warningKey "node" 7 80) l, l.CreatedAt))) =
      [(true, sampleNow), (true, sampleNow), (true, sampleNow + 25 * Hour),
        (true, sampleNow + 25 * Hour)] :=
  ⟨C3_warning_rows_are_spaced sampleEnv
      (sampleState [rule80 "1, 2"] [hook 1, hook 2] (sampleNode 850 false))
      [(sampleNow, Sum.inl (sampleNode 850 false)),
        (sampleNow + Minute, Sum.inl (sampleNode 850 false))]
      (sampleNow + 25 * Hour, Sum.inl (sampleNode 850 false)) "node" 7 80 (Or.inl rfl),
    by decide⟩

/-! ## C11: the bookkeeping write does not depend on delivery -/

/-- The rule table after a call is determined by the rules alone: neither the
environment (send outcomes, payload parsing) nor the channel table has a say. -/
theorem TriggerAlert_rules (env : Env) (now : Int) (aT tT : String) (tid : Nat)
    (tn msg : String) (s : State) :
    (TriggerAlert env now aT tT tid tn msg s).rules =
      stampRules now (firedRules now aT s) s.rules := by
  rw [TriggerAlert_eq]

/-- C12, evaluated: the guard denies a key because of rows logged for another triple.
The rows of `afterFirstCheck` carry the key of (node, 7, 80) and not that of (node, 7, 8),
yet an hour later the guard denies the key of (node, 7, 8), which is a substring of
theirs; and the row of `afterFarNodeCheck`, logged for node 7180, makes the guard deny
the key of (node, 7, 80), whose `_` is a wildcard of `LIKE`. -/
theorem C12_rows_of_another_triple_suppress :
    (afterFirstCheck.logs.map (fun l => (l.TargetID, carriesKey (warningKey "node" 7 80) l,
      carriesKey (warningKey "node" 7 8) l))) = [(7, true, false), (7, true, false)] ∧
    hasRecentWarning (sampleNow + Hour) (warningKey "node" 7 8) (24 * Hour) afterFirstCheck =
      true ∧
    (afterFarNodeCheck.logs.map (fun l => (l.TargetID,
      carriesKey (warningKey "node" 7180 80) l, carriesKey (warningKey "node" 7 80) l))) =
      [(7180, true, false)] ∧
    hasRecentWarning (sampleNow + Hour) (warningKey "node" 7 80) (24 * Hour)
      afterFarNodeCheck = true := by
  decide

/-! ## C13: one warning rule, one dispatch -/

/-- C13, as stated, fails: for the node at 100% with its flag clear, the single warning
rule with one usable channel is due and the log is empty, and the quota check appends two
rows, the second one for the quota-exceeded rule. -/
theorem C13_counterexample :
    matchingRules "quota_warning" warnAndExceedState = [rule80 "1"] ∧
    (usableChannels sampleEnv warnAndExceedState.channels (rule80 "1")).length = 1 ∧
    sampleEnv.percentLt 1000 1000 80 = false ∧
    warnAndExceedState.logs = [] ∧
    ((CheckNodeQuota sampleEnv sampleNow (sampleNode 1000 false) warnAndExceedState).logs.map
      (fun l => (l.RuleID, l.Typ, l.Status))) =
      [(1, "quota_warning", "sent"), (3, "quota_exceeded", "sent")] := by
  decide

/-- The warning check when exactly one warning rule is loaded and every guard lets it
pass: one dispatch with the key, firing that rule alone. -/
theorem checkQuotaWarning_single (env : Env) (now : Int) (tid : Nat) (tT tn : String)
    (used quota : Int) (s : State) (r : AlertRule) (T : Int)
    (hrules : matchingRules "quota_warning" s = [r])
    (hparse : (ParseCondition env r.Condition).2 = none)
    (hT : effectiveThreshold (ParseCondition env r.Condition).1 = T)
    (hpct : env.percentLt used quota T = false)
    (hcool : inCooldown now r.LastAlertAt r.CooldownMin = false)
    (hrecent : hasRecentWarning now (warningKey tT tid T) (24 * Hour) s = false) :
    checkQuotaWarning env now tid tT tn used quota s =
      { s with
        rules := updateRule s.rules r.ID (fun x => { x with LastAlertAt := now })
        sent := s.sent ++ (passEffects env now "quota_warning" tT tid tn
          (warningMessage env tT tn used quota ++ "\n<!-- " ++ warningKey tT tid T ++ " -->")
          r s.sent.length (usableChannels env s.channels r)).map Prod.fst
        logs := s.logs ++ (passEffects env now "quota_warning" tT tid tn
          (warningMessage env tT tn used quota ++ "\n<!-- " ++ warningKey tT tid T ++ " -->")
          r s.sent.length (usableChannels env s.channels r)).map Prod.snd
        calls := s.calls ++ [⟨"quota_warning", tT, tid, tn,
          warningMessage env tT tn used quota ++ "\n<!-- " ++ warningKey tT tid T ++ " -->",
          now⟩]
        stamps := s.stamps ++ [⟨r.ID, now⟩] } := by
  have hfired : firedRules now "quota_warning" s = [r] := by
    simp [firedRules, hrules, hcool]
  unfold checkQuotaWarning
  rw [hrules, List.foldl_cons, List.foldl_nil]
  unfold warnRule
  simp only [hparse, Option.isSome_none, Bool.false_eq_true, if_false, hT, hpct, hcool, hrecent]
  unfold TriggerAlertWithKey
  simp only []
  rw [TriggerAlert_eq, hfired]
  simp [stampRules, callEffects]

/-- Every effect of a pass is a send with its row. -/
theorem mem_passEffects (env : Env) (now : Int) (aT tT : String) (tid : Nat) (tn msg : String)
    (r : AlertRule) (k : Nat) (js : List (NotifyChannel × Notifier))
    (e : Notification × AlertLog) (he : e ∈ passEffects env now aT tT tid tn msg r k js) :
    ∃ j ∈ js, ∃ ok : Bool,
      e = (⟨r.ID, j.1.ID, alertTitle aT tn, msg, ok⟩, logRow now aT tT tid tn msg r ok) := by
  induction js generalizing k with
  | nil => simp [passEffects] at he
  | cons j js ih =>
    simp only [passEffects, List.mem_cons] at he
    rcases he with h | h
    · exact ⟨j, List.mem_cons_self _ _, _, h⟩
    · obtain ⟨j', hj', ok, hok⟩ := ih _ h
      exact ⟨j', List.mem_cons_of_mem _ hj', ok, hok⟩

/-- A stamped row stays stamped through further writes of the same instant. -/
theorem stamped_mem_stampRules (now : Int) (fired rules : List AlertRule) (r : AlertRule)
    (h : { r with LastAlertAt := now } ∈ rules) :
    { r with LastAlertAt := now } ∈ stampRules now fired rules := by
  rw [stampRules_eq]
  refine List.mem_map.2 ⟨_, h, ?_⟩
  split <;> rfl

/-- What `CheckNodeQuota` adds after its warning check: nothing, or the rows of one
quota_exceeded dispatch; a rule stamped by the warning check stays stamped. -/
theorem CheckNodeQuota_after_warning (env : Env) (now : Int) (node : Node) (s : State)
    (hq : node.TrafficQuota > 0) :
    ∃ rest,
      (CheckNodeQuota env now node s).logs =
        (checkQuotaWarning env now node.ID "node" node.Name node.QuotaUsed
          node.TrafficQuota s).logs ++ rest ∧
      (∀ l ∈ rest, l.Typ = "quota_exceeded") ∧
      ((node.QuotaUsed < node.TrafficQuota ∨ node.QuotaExceeded = true) → rest = []) ∧
      ∀ r : AlertRule, ({ r with LastAlertAt := now } : AlertRule) ∈
          (checkQuotaWarning env now node.ID "node" node.Name node.QuotaUsed
            node.TrafficQuota s).rules →
        ({ r with LastAlertAt := now } : AlertRule) ∈ (CheckNodeQuota env now node s).rules := by
  unfold CheckNodeQuota
  simp only [not_le.2 hq, if_false]
  by_cases hex : node.QuotaUsed ≥ node.TrafficQuota ∧ node.QuotaExceeded = false
  · simp only [hex, and_self, if_true]
    obtain ⟨ls, hls, pls⟩ := (TriggerAlert_grows env now "quota_exceeded" "node" node.ID
      node.Name ("节点 " ++ node.Name ++ " 流量已超限\n已用: " ++ formatBytes env node.QuotaUsed ++
        " / 配额: " ++ formatBytes env node.TrafficQuota)
      { checkQuotaWarning env now node.ID "node" node.Name node.QuotaUsed node.TrafficQuota s with
        nodes := updateNode (checkQuotaWarning env now node.ID "node" node.Name node.QuotaUsed
          node.TrafficQuota s).nodes node.ID (fun n => { n with QuotaExceeded := true }) }).logs
    refine ⟨ls, hls, fun l hl => (pls l hl).1, ?_, ?_⟩
    · intro h
      rcases h with h | h
      · exact absurd hex.1 (not_le.2 h)
      · exact absurd h (by decide)
    · intro r hr
      rw [TriggerAlert_rules]
      exact stamped_mem_stampRules now _ _ r hr
  · simp only [hex, if_false]
    exact ⟨[], by simp, by simp, fun _ => rfl, fun _ h => h⟩

/-- C13 (amended): for a node with quota > 0 and exactly one enabled quota_warning rule,
when the usage percent is not below the rule's threshold `T`, the rule's cooldown has
elapsed and the dedup guard finds no recent quota_warning row matching the key of
(node, id, `T`), one quota check appends one quota_warning row per usable channel of the
rule, in list order, each with status `sent` or `failed` and with the rendered text
followed by the line `<!-- quota_warning_node_{id}_{T} -->` as its message, and the rule's
`lastAlertAt` becomes `now`.  Whatever else the check appends are rows of a
quota_exceeded alert, and there are none unless the node is at or above its quota with
its flag clear. -/
theorem C13_single_warning_rule_fires (env : Env) (now : Int) (node : Node) (s : State)
    (r : AlertRule) (T : Int) (hq : node.TrafficQuota > 0)
    (hrules : matchingRules "quota_warning" s = [r]) (hid : r.ID ≠ 0)
    (hparse : (ParseCondition env r.Condition).2 = none)
    (hT : effectiveThreshold (ParseCondition env r.Condition).1 = T)
    (hpct : env.percentLt node.QuotaUsed node.TrafficQuota T = false)
    (hcool : inCooldown now r.LastAlertAt r.CooldownMin = false)
    (hrecent : hasRecentWarning now (warningKey "node" node.ID T) (24 * Hour) s = false) :
    ∃ rows rest,
      (CheckNodeQuota env now node s).logs = s.logs ++ rows ++ rest ∧
      rows = (passEffects env now "quota_warning" "node" node.ID node.Name
        (warningMessage env "node" node.Name node.QuotaUsed node.TrafficQuota ++ "\n<!-- " ++
          warningKey "node" node.ID T ++ " -->")
        r s.sent.length (usableChannels env s.channels r)).map Prod.snd ∧
      rows.length = (usableChannels env s.channels r).length ∧
      (∀ l ∈ rows, l.RuleID = r.ID ∧ l.Typ = "quota_warning" ∧
        l.Message = warningMessage env "node" node.Name node.QuotaUsed node.TrafficQuota ++
          "\n<!-- " ++ warningKey "node" node.ID T ++ " -->" ∧
        (l.Status = "sent" ∨ l.Status = "failed") ∧ l.CreatedAt = now) ∧
      (∀ l ∈ rest, l.Typ = "quota_exceeded") ∧
      ((node.QuotaUsed < node.TrafficQuota ∨ node.QuotaExceeded = true) → rest = []) ∧
      { r with LastAlertAt := now } ∈ (CheckNodeQuota env now node s).rules := by
  have hr : r ∈ s.rules := by
    have : r ∈ matchingRules "quota_warning" s := by rw [hrules]; exact List.mem_singleton_self r
    exact (List.mem_filter.1 this).1
  have hw := checkQuotaWarning_single env now node.ID "node" node.Name node.QuotaUsed
    node.TrafficQuota s r T hrules hparse hT hpct hcool hrecent
  obtain ⟨rest, hlogs, hrest, hnone, hrule⟩ := CheckNodeQuota_after_warning env now node s hq
  refine ⟨_, rest, ?_, rfl, by rw [List.length_map, passEffects_length], ?_, hrest, hnone, ?_⟩
  · rw [hlogs, hw]
  · intro l hl
    obtain ⟨e, he, rfl⟩ := List.mem_map.1 hl
    obtain ⟨j, _, ok, rfl⟩ := mem_passEffects _ _ _ _ _ _ _ _ _ _ e he
    refine ⟨rfl, rfl, rfl, ?_, rfl⟩
    cases ok <;> simp [logRow]
  · apply hrule r
    rw [hw]
    show ({ r with LastAlertAt := now } : AlertRule) ∈
      updateRule s.rules r.ID (fun x => { x with LastAlertAt := now })
    unfold updateRule
    simp only [hid, if_false]
    exact List.mem_map.2 ⟨r, hr, by simp⟩

/-- Witness for C13 (amended): the scenario of the specification, quota 1000, used 850,
the 80% rule with cooldown 60 and two channels, empty log; the first send fails, the
second succeeds. -/
theorem C13_single_warning_rule_fires_witness :
    (∃ rows rest,
      (CheckNodeQuota flakyEnv sampleNow (sampleNode 850 false)
        (sampleState [rule80 "1, 2"] [hook 1, hook 2] (sampleNode 850 false))).logs =
        (sampleState [rule80 "1, 2"] [hook 1, hook 2] (sampleNode 850 false)).logs ++ rows ++
          rest ∧
      rows = (passEffects flakyEnv sampleNow "quota_warning" "node" (sampleNode 850 false).ID
        (sampleNode 850 false).Name
        (warningMessage flakyEnv "node" (sampleNode 850 false).Name
          (sampleNode 850 false).QuotaUsed (sampleNode 850 false).TrafficQuota ++ "\n<!-- " ++
          warningKey "node" (sampleNode 850 false).ID 80 ++ " -->")
        (rule80 "1, 2")
        (sampleState [rule80 "1, 2"] [hook 1, hook 2] (sampleNode 850 false)).sent.length
        (usableChannels flakyEnv
          (sampleState [rule80 "1, 2"] [hook 1, hook 2] (sampleNode 850 false)).channels
          (rule80 "1, 2"))).map Prod.snd ∧
      rows.length = (usableChannels flakyEnv
        (sampleState [rule80 "1, 2"] [hook 1, hook 2] (sampleNode 850 false)).channels
        (rule80 "1, 2")).length ∧
      (∀ l ∈ rows, l.RuleID = (rule80 "1, 2").ID ∧ l.Typ = "quota_warning" ∧
        l.Message = warningMessage flakyEnv "node" (sampleNode 850 false).Name
          (sampleNode 850 false).QuotaUsed (sampleNode 850 false).TrafficQuota ++
          "\n<!-- " ++ warningKey "node" (sampleNode 850 false).ID 80 ++ " -->" ∧
        (l.Status = "sent" ∨ l.Status = "failed") ∧ l.CreatedAt = sampleNow) ∧
      (∀ l ∈ rest, l.Typ = "quota_exceeded") ∧
      (((sampleNode 850 false).QuotaUsed < (sampleNode 850 false).TrafficQuota ∨
        (sampleNode 850 false).QuotaExceeded = true) → rest = []) ∧
      { rule80 "1, 2" with LastAlertAt := sampleNow } ∈
        (CheckNodeQuota flakyEnv sampleNow (sampleNode 850 false)
          (sampleState [rule80 "1, 2"] [hook 1, hook 2] (sampleNode 850 false))).rules) ∧
    ((CheckNodeQuota flakyEnv sampleNow (sampleNode 850 false)
        (sampleState [rule80 "1, 2"] [hook 1, hook 2] (sampleNode 850 false))).logs.map
      (fun l => (l.Status, l.Message))) =
      [("failed", "节点 edge 流量使用已达 85.0%\n已用: 850 B / 配额: 1000 B\n请及时关注流量使用情况\n<!-- quota_warning_node_7_80 -->"),
        ("sent", "节点 edge 流量使用已达 85.0%\n已用: 850 B / 配额: 1000 B\n请及时关注流量使用情况\n<!-- quota_warning_node_7_80 -->")] :=
  ⟨C13_single_warning_rule_fires flakyEnv sampleNow (sampleNode 850 false)
      (sampleState [rule80 "1, 2"] [hook 1, hook 2] (sampleNode 850 false)) (rule80 "1, 2") 80
      (by decide) (by decide) (by decide) (by decide) (by decide) (by decide) (by decide)
      (by decide),
    by decide⟩

/-! ## C14 and C15: the periodic reset -/

/-- A loop of `Update`s by primary key with one rewrite `f`, row by row: a row is rewritten
when its key is non-zero and is the key of a row of the loop. -/
theorem foldl_updateNode (f : Node → Node) (hid : ∀ n, (f n).ID = n.ID)
    (hidem : ∀ n, f (f n) = f n) (sel nodes : List Node) :
    sel.foldl (fun ns x => updateNode ns x.ID f) nodes =
      nodes.map (fun x => if x.ID ≠ 0 ∧ x.ID ∈ sel.map (fun y => y.ID) then f x else x) := by
  induction sel generalizing nodes with
  | nil => simp
  | cons r rs ih =>
    rw [List.foldl_cons, ih]
    unfold updateNode
    by_cases h0 : r.ID = 0
    · simp only [h0, if_true]
      apply List.map_congr_left
      intro x _
      by_cases hx : x.ID = 0
      · simp [hx]
      · have hne : ¬ x.ID = r.ID := by rw [h0]; exact hx
        simp [hx, hne, List.mem_cons]
    · simp only [h0, if_false, List.map_map]
      apply List.map_congr_left
      intro x _
      by_cases hx : x.ID = r.ID
      · have hx0 : x.ID ≠ 0 := by rw [hx]; exact h0
        simp only [Function.comp, hx, if_true, hid, List.map_cons, List.mem_cons, true_or,
          and_true, ne_eq, h0, not_false_eq_true]
        split <;> simp [hidem]
      · simp [hx, List.mem_cons]

/-- The client counterpart of `foldl_updateNode`. -/
theorem foldl_updateClient (f : Client → Client) (hid : ∀ n, (f n).ID = n.ID)
    (hidem : ∀ n, f (f n) = f n) (sel clients : List Client) :
    sel.foldl (fun ns x => updateClient ns x.ID f) clients =
      clients.map (fun x => if x.ID ≠ 0 ∧ x.ID ∈ sel.map (fun y => y.ID) then f x else x) := by
  induction sel generalizing clients with
  | nil => simp
  | cons r rs ih =>
    rw [List.foldl_cons, ih]
    unfold updateClient
    by_cases h0 : r.ID = 0
    · simp only [h0, if_true]
      apply List.map_congr_left
      intro x _
      by_cases hx : x.ID = 0
      · simp [hx]
      · have hne : ¬ x.ID = r.ID := by rw [h0]; exact hx
        simp [hx, hne, List.mem_cons]
    · simp only [h0, if_false, List.map_map]
      apply List.map_congr_left
      intro x _
      by_cases hx : x.ID = r.ID
      · have hx0 : x.ID ≠ 0 := by rw [hx]; exact h0
        simp only [Function.comp, hx, if_true, hid, List.map_cons, List.mem_cons, true_or,
          and_true, ne_eq, h0, not_false_eq_true]
        split <;> simp [hidem]
      · simp [hx, List.mem_cons]

/-- The node loop of `ResetQuotas` touches the node table only. -/
theorem foldl_resetNode (now : Int) (sel : List Node) (s : State) :
    sel.foldl (resetNode now) s =
      { s with
        nodes := sel.foldl (fun ns x => updateNode ns x.ID
          (fun n => { n with QuotaUsed := 0, QuotaExceeded := false, QuotaResetAt := some now }))
          s.nodes } := by
  induction sel generalizing s with
  | nil => rfl
  | cons r rs ih => rw [List.foldl_cons, ih]; rfl

/-- The client loop of `ResetQuotas` touches the client table only. -/
theorem foldl_resetClient (now : Int) (sel : List Client) (s : State) :
    sel.foldl (resetClient now) s =
      { s with
        clients := sel.foldl (fun ns x => updateClient ns x.ID
          (fun n => { n with QuotaUsed := 0, QuotaExceeded := false, QuotaResetAt := some now }))
          s.clients } := by
  induction sel generalizing s with
  | nil => rfl
  | cons r rs ih => rw [List.foldl_cons, ih]; rfl

/-- With unique non-zero keys, a row's key is among the keys of the selected rows exactly
when the row is selected. -/
theorem mem_selected_ids {α : Type} (key : α → Nat) (p : α → Bool) (l : List α)
    (hids : (l.map key).Nodup) (x : α) (hx : x ∈ l) :
    key x ∈ (l.filter p).map key ↔ p x = true := by
  constructor
  · intro h
    obtain ⟨y, hy, he⟩ := List.mem_map.1 h
    have hy' := List.mem_filter.1 hy
    have : y = x := List.inj_on_of_nodup_map hids hy'.1 hx he
    rw [← this]; exact hy'.2
  · intro h
    exact List.mem_map.2 ⟨x, List.mem_filter.2 ⟨hx, h⟩, rfl⟩

/-- Closed form of `ResetQuotas` on a store with unique non-zero primary keys. -/
theorem ResetQuotas_eq (env : Env) (now : Int) (s : State)
    (hn : (s.nodes.map (fun n => n.ID)).Nodup ∧ ∀ n ∈ s.nodes, n.ID ≠ 0)
    (hc : (s.clients.map (fun c => c.ID)).Nodup ∧ ∀ c ∈ s.clients, c.ID ≠ 0) :
    ResetQuotas env now s =
      { s with
        nodes := s.nodes.map (fun n =>
          if resetSelected env now n.QuotaResetDay n.QuotaResetAt = true then
            { n with QuotaUsed := 0, QuotaExceeded := false, QuotaResetAt := some now }
          else n)
        clients := s.clients.map (fun c =>
          if resetSelected env now c.QuotaResetDay c.QuotaResetAt = true then
            { c with QuotaUsed := 0, QuotaExceeded := false, QuotaResetAt := some now }
          else c) } := by
  unfold ResetQuotas
  simp only [foldl_resetNode, foldl_resetClient]
  rw [foldl_updateNode
      (fun n => { n with QuotaUsed := 0, QuotaExceeded := false, QuotaResetAt := some now })
      (fun _ => rfl) (fun _ => rfl),
    foldl_updateClient
      (fun n => { n with QuotaUsed := 0, QuotaExceeded := false, QuotaResetAt := some now })
      (fun _ => rfl) (fun _ => rfl)]
  congr 1
  · apply List.map_congr_left
    intro x hx
    have := mem_selected_ids (fun n : Node => n.ID)
      (fun n => resetSelected env now n.QuotaResetDay n.QuotaResetAt) s.nodes hn.1 x hx
    simp only [this, hn.2 x hx, ne_eq, not_false_eq_true, true_and]
  · apply List.map_congr_left
    intro x hx
    have := mem_selected_ids (fun n : Client => n.ID)
      (fun n => resetSelected env now n.QuotaResetDay n.QuotaResetAt) s.clients hc.1 x hx
    simp only [this, hc.2 x hx, ne_eq, not_false_eq_true, true_and]

/-- The selection of `ResetQuotas` spelled out. -/
theorem resetSelected_iff (env : Env) (now : Int) (day : Int) (resetAt : Option Int) :
    resetSelected env now day resetAt = true ↔
      day = env.dayOfMonth now ∧
        (resetAt = none ∨ ∃ t, resetAt = some t ∧ t < env.addDays now (-28)) := by
  unfold resetSelected
  cases resetAt with
  | none => simp
  | some t => simp

/-- C14: `ResetQuotas` at time `now` sets `quota_used = 0`, `quota_exceeded = false` and
`quota_reset_at = now` on exactly the nodes and the clients whose `quota_reset_day` is
the day of the month of `now` and whose `quota_reset_at` is null or earlier than `now`
minus 28 days (`AddDate(0, 0, -28)`); every other node and client, and every other table,
is left unchanged.  Primary keys are unique and non-zero. -/
theorem C14_reset_touches_exactly_the_due_targets (env : Env) (now : Int) (s : State)
    (hkeys : StoreKeys s) :
    (ResetQuotas env now s).nodes = s.nodes.map (fun n =>
      if resetSelected env now n.QuotaResetDay n.QuotaResetAt = true then
        { n with QuotaUsed := 0, QuotaExceeded := false, QuotaResetAt := some now }
      else n) ∧
    (ResetQuotas env now s).clients = s.clients.map (fun c =>
      if resetSelected env now c.QuotaResetDay c.QuotaResetAt = true then
        { c with QuotaUsed := 0, QuotaExceeded := false, QuotaResetAt := some now }
      else c) ∧
    ((ResetQuotas env now s).rules = s.rules ∧ (ResetQuotas env now s).channels = s.channels ∧
      (ResetQuotas env now s).logs = s.logs ∧ (ResetQuotas env now s).sent = s.sent ∧
      (ResetQuotas env now s).calls = s.calls ∧ (ResetQuotas env now s).stamps = s.stamps) ∧
    (∀ (day : Int) (resetAt : Option Int), resetSelected env now day resetAt = true ↔
      day = env.dayOfMonth now ∧
        (resetAt = none ∨ ∃ t, resetAt = some t ∧ t < env.addDays now (-28))) := by
  rw [ResetQuotas_eq env now s hkeys.1 hkeys.2]
  exact ⟨rfl, rfl, ⟨rfl, rfl, rfl, rfl, rfl, rfl⟩, resetSelected_iff env now⟩

/-- Witness for C14: on `resetState` node 7 and client 9 are reset, node 8 and client 10
are not. -/
theorem C14_reset_touches_exactly_the_due_targets_witness :
    (ResetQuotas sampleEnv sampleNow resetState).nodes = resetState.nodes.map (fun n =>
      if resetSelected sampleEnv sampleNow n.QuotaResetDay n.QuotaResetAt = true then
        { n with QuotaUsed := 0, QuotaExceeded := false, QuotaResetAt := some sampleNow }
      else n) ∧
    (ResetQuotas sampleEnv sampleNow resetState).nodes =
      [⟨7, "edge", 1000, 0, false, "online", sampleNow, 14, some sampleNow⟩,
        ⟨8, "core", 1000, 300, false, "online", sampleNow, 1, none⟩] ∧
    (ResetQuotas sampleEnv sampleNow resetState).clients =
      [⟨9, "laptop", 1000, 0, false, 14, some sampleNow⟩,
        ⟨10, "phone", 1000, 20, false, 14, some (sampleNow - 24 * Hour)⟩] :=
  ⟨(C14_reset_touches_exactly_the_due_targets sampleEnv sampleNow resetState
      (by unfold StoreKeys; decide)).1,
    by decide, by decide⟩

/-- The node table after `ResetQuotas`, on a store whose node keys are unique and
non-zero. -/
theorem ResetQuotas_nodes (env : Env) (now : Int) (s : State)
    (hn : (s.nodes.map (fun n => n.ID)).Nodup ∧ ∀ n ∈ s.nodes, n.ID ≠ 0) :
    (ResetQuotas env now s).nodes =
      s.nodes.map (fun n =>
        if resetSelected env now n.QuotaResetDay n.QuotaResetAt = true then
          { n with QuotaUsed := 0, QuotaExceeded := false, QuotaResetAt := some now }
        else n) := by
  unfold ResetQuotas
  simp only [foldl_resetNode, foldl_resetClient]
  rw [foldl_updateNode
      (fun n => { n with QuotaUsed := 0, QuotaExceeded := false, QuotaResetAt := some now })
      (fun _ => rfl) (fun _ => rfl)]
  apply List.map_congr_left
  intro x hx
  have := mem_selected_ids (fun n : Node => n.ID)
    (fun n => resetSelected env now n.QuotaResetDay n.QuotaResetAt) s.nodes hn.1 x hx
  simp only [this, hn.2 x hx, ne_eq, not_false_eq_true, true_and]

/-- The client table after `ResetQuotas`, on a store whose client keys are unique and
non-zero. -/
theorem ResetQuotas_clients (env : Env) (now : Int) (s : State)
    (hc : (s.clients.map (fun c => c.ID)).Nodup ∧ ∀ c ∈ s.clients, c.ID ≠ 0) :
    (ResetQuotas env now s).clients =
      s.clients.map (fun c =>
        if resetSelected env now c.QuotaResetDay c.QuotaResetAt = true then
          { c with QuotaUsed := 0, QuotaExceeded := false, QuotaResetAt := some now }
        else c) := by
  unfold ResetQuotas
  simp only [foldl_resetNode, foldl_resetClient]
  rw [foldl_updateClient
      (fun n => { n with QuotaUsed := 0, QuotaExceeded := false, QuotaResetAt := some now })
      (fun _ => rfl) (fun _ => rfl)]
  apply List.map_congr_left
  intro x hx
  have := mem_selected_ids (fun n : Client => n.ID)
    (fun n => resetSelected env now n.QuotaResetDay n.QuotaResetAt) s.clients hc.1 x hx
  simp only [this, hc.2 x hx, ne_eq, not_false_eq_true, true_and]

/-- A row whose `quota_reset_at` is `now` is not selected by a reset made at an instant
`later` with `later.AddDate(0, 0, -28)` not after `now`. -/
theorem resetSelected_recent (env : Env) (now later : Int) (day : Int)
    (hlate : env.addDays later (-28) ≤ now) :
    resetSelected env later day (some now) = false := by
  unfold resetSelected
  simp only [Bool.and_eq_false_iff, decide_eq_false_iff_not, not_lt]
  exact Or.inr hlate

/-- C15: a node that `ResetQuotas` selects at time `now` comes out with
`quota_reset_at = now`, and a later `ResetQuotas` call made no more than 28 days
(`AddDate`) after `now` leaves every node row whose `quota_reset_at` is `now` as it is,
whatever usage and flag the row has by then: the row is still in the table, under the
same key; and likewise for clients.  Each of the four statements stands on its own
hypotheses; the keys of the table concerned are unique and non-zero. -/
theorem C15_reset_is_not_repeated (env : Env) (now later : Int) (s s2 : State)
    (n m : Node) (c d : Client) :
    (((s.nodes.map (fun x => x.ID)).Nodup ∧ ∀ x ∈ s.nodes, x.ID ≠ 0) →
      n ∈ s.nodes → resetSelected env now n.QuotaResetDay n.QuotaResetAt = true →
      ({ n with QuotaUsed := 0, QuotaExceeded := false, QuotaResetAt := some now } : Node) ∈
        (ResetQuotas env now s).nodes) ∧
    (((s.clients.map (fun x => x.ID)).Nodup ∧ ∀ x ∈ s.clients, x.ID ≠ 0) →
      c ∈ s.clients → resetSelected env now c.QuotaResetDay c.QuotaResetAt = true →
      ({ c with QuotaUsed := 0, QuotaExceeded := false, QuotaResetAt := some now } : Client) ∈
        (ResetQuotas env now s).clients) ∧
    (((s2.nodes.map (fun x => x.ID)).Nodup ∧ ∀ x ∈ s2.nodes, x.ID ≠ 0) →
      m ∈ s2.nodes → m.QuotaResetAt = some now → env.addDays later (-28) ≤ now →
      m ∈ (ResetQuotas env later s2).nodes ∧
        (ResetQuotas env later s2).nodes.map (fun x => x.ID) = s2.nodes.map (fun x => x.ID)) ∧
    (((s2.clients.map (fun x => x.ID)).Nodup ∧ ∀ x ∈ s2.clients, x.ID ≠ 0) →
      d ∈ s2.clients → d.QuotaResetAt = some now → env.addDays later (-28) ≤ now →
      d ∈ (ResetQuotas env later s2).clients ∧
        (ResetQuotas env later s2).clients.map (fun x => x.ID) =
          s2.clients.map (fun x => x.ID)) := by
  refine ⟨?_, ?_, ?_, ?_⟩
  · intro hk hn hsel
    rw [ResetQuotas_nodes env now s hk]
    exact List.mem_map.2 ⟨n, hn, by simp [hsel]⟩
  · intro hk hc hsel
    rw [ResetQuotas_clients env now s hk]
    exact List.mem_map.2 ⟨c, hc, by simp [hsel]⟩
  · intro hk hm hat hlate
    rw [ResetQuotas_nodes env later s2 hk]
    constructor
    · refine List.mem_map.2 ⟨m, hm, ?_⟩
      simp [hat, resetSelected_recent env now later _ hlate]
    · simp only [List.map_map]
      apply List.map_congr_left
      intro x _
      simp only [Function.comp]
      split <;> rfl
  · intro hk hd hat hlate
    rw [ResetQuotas_clients env later s2 hk]
    constructor
    · refine List.mem_map.2 ⟨d, hd, ?_⟩
      simp [hat, resetSelected_recent env now later _ hlate]
    · simp only [List.map_map]
      apply List.map_congr_left
      intro x _
      simp only [Function.comp]
      split <;> rfl

/-- Witness for C15: the nodes of `resetState`, in a store that has no client, are reset
at `sampleNow`; two hours later, on the same day, node 7 has used 50 and a second reset
leaves its row as it is; and the same for client 9, with 70 used, in a store that has no
node.  On `laterState` as a whole the second reset changes nothing. -/
theorem C15_reset_is_not_repeated_witness :
    ((⟨7, "edge", 1000, 0, false, "online", sampleNow, 14, some sampleNow⟩ : Node) ∈
        (ResetQuotas sampleEnv sampleNow { resetState with clients := [] }).nodes) ∧
    ((⟨9, "laptop", 1000, 0, false, 14, some sampleNow⟩ : Client) ∈
        (ResetQuotas sampleEnv sampleNow { resetState with nodes := [] }).clients) ∧
    ((⟨7, "edge", 1000, 50, false, "online", sampleNow, 14, some sampleNow⟩ : Node) ∈
        (ResetQuotas sampleEnv (sampleNow + 2 * Hour) { laterState with clients := [] }).nodes ∧
      (ResetQuotas sampleEnv (sampleNow + 2 * Hour) { laterState with clients := [] }).nodes.map
          (fun x => x.ID) =
        ({ laterState with clients := [] } : State).nodes.map (fun x => x.ID)) ∧
    ((⟨9, "laptop", 1000, 70, false, 14, some sampleNow⟩ : Client) ∈
        (ResetQuotas sampleEnv (sampleNow + 2 * Hour) { laterState with nodes := [] }).clients ∧
      (ResetQuotas sampleEnv (sampleNow + 2 * Hour) { laterState with nodes := [] }).clients.map
          (fun x => x.ID) =
        ({ laterState with nodes := [] } : State).clients.map (fun x => x.ID)) ∧
    ResetQuotas sampleEnv (sampleNow + 2 * Hour) laterState = laterState :=
  ⟨(C15_reset_is_not_repeated sampleEnv sampleNow (sampleNow + 2 * Hour)
      { resetState with clients := [] } { laterState with clients := [] }
      ⟨7, "edge", 1000, 900, true, "online", sampleNow, 14, none⟩
      ⟨7, "edge", 1000, 50, false, "online", sampleNow, 14, some sampleNow⟩
      ⟨9, "laptop", 1000, 1000, true, 14, none⟩
      ⟨9, "laptop", 1000, 70, false, 14, some sampleNow⟩).1
      (by decide) (by decide) (by decide),
    (C15_reset_is_not_repeated sampleEnv sampleNow (sampleNow + 2 * Hour)
      { resetState with nodes := [] } { laterState with nodes := [] }
      ⟨7, "edge", 1000, 900, true, "online", sampleNow, 14, none⟩
      ⟨7, "edge", 1000, 50, false, "online", sampleNow, 14, some sampleNow⟩
      ⟨9, "laptop", 1000, 1000, true, 14, none⟩
      ⟨9, "laptop", 1000, 70, false, 14, some sampleNow⟩).2.1
      (by decide) (by decide) (by decide),
    (C15_reset_is_not_repeated sampleEnv sampleNow (sampleNow + 2 * Hour)
      { resetState with clients := [] } { laterState with clients := [] }
      ⟨7, "edge", 1000, 900, true, "online", sampleNow, 14, none⟩
      ⟨7, "edge", 1000, 50, false, "online", sampleNow, 14, some sampleNow⟩
      ⟨9, "laptop", 1000, 1000, true, 14, none⟩
      ⟨9, "laptop", 1000, 70, false, 14, some sampleNow⟩).2.2.1
      (by decide) (by decide) (by decide) (by decide),
    (C15_reset_is_not_repeated sampleEnv sampleNow (sampleNow + 2 * Hour)
      { resetState with nodes := [] } { laterState with nodes := [] }
      ⟨7, "edge", 1000, 900, true, "online", sampleNow, 14, none⟩
      ⟨7, "edge", 1000, 50, false, "online", sampleNow, 14, some sampleNow⟩
      ⟨9, "laptop", 1000, 1000, true, 14, none⟩
      ⟨9, "laptop", 1000, 70, false, 14, some sampleNow⟩).2.2.2
      (by decide) (by decide) (by decide) (by decide),
    by decide⟩

/-! ## C16: the heartbeat sweep -/

/-- The sweep as a loop over the selected nodes. -/
theorem CheckOfflineNodes_def (env : Env) (now m : Int) (s : State) :
    CheckOfflineNodes env now m s =
      (s.nodes.filter (staleOnline now m)).foldl (markOffline env now) s := rfl

/-- The node table after the loop of the sweep: only the `Update`s touch it. -/
theorem foldl_markOffline_nodes (env : Env) (now : Int) (sel : List Node) (s : State) :
    (sel.foldl (markOffline env now) s).nodes =
      sel.foldl (fun ns x => updateNode ns x.ID (fun n => { n with Status := "offline" }))
        s.nodes := by
  induction sel generalizing s with
  | nil => rfl
  | cons r rs ih =>
    rw [List.foldl_cons, ih, List.foldl_cons]
    unfold markOffline
    rw [(TriggerAlert_grows _ _ _ _ _ _ _ _).nodes]

/-- The dispatches of the loop of the sweep: one per selected node, in order. -/
theorem foldl_markOffline_calls (env : Env) (now : Int) (sel : List Node) (s : State) :
    (sel.foldl (markOffline env now) s).calls = s.calls ++ sel.map (offlineCall env now) := by
  induction sel generalizing s with
  | nil => simp
  | cons r rs ih =>
    rw [List.foldl_cons, ih]
    unfold markOffline
    rw [TriggerAlert_eq]
    simp [offlineCall]

/-- The loop of the sweep leaves the client and channel tables alone. -/
theorem foldl_markOffline_frame (env : Env) (now : Int) (sel : List Node) (s : State) :
    (sel.foldl (markOffline env now) s).clients = s.clients ∧
      (sel.foldl (markOffline env now) s).channels = s.channels := by
  induction sel generalizing s with
  | nil => exact ⟨rfl, rfl⟩
  | cons r rs ih =>
    rw [List.foldl_cons]
    obtain ⟨h1, h2⟩ := ih (markOffline env now s r)
    rw [h1, h2]
    unfold markOffline
    exact ⟨(TriggerAlert_grows _ _ _ _ _ _ _ _).clients,
      (TriggerAlert_grows _ _ _ _ _ _ _ _).channels⟩

/-- The threshold of the sweep is `now` minus `m` minutes whenever `m` minutes fit `int64`
nanoseconds. -/
theorem offlineThreshold_exact (now m : Int) (h1 : -153722867 ≤ m) (h2 : m ≤ 153722867) :
    offlineThreshold now m = now - m * Minute := by
  unfold offlineThreshold
  rw [wrapInt64_eq (-m)]
  have e : (-m + 9223372036854775808) % 18446744073709551616 - 9223372036854775808 = -m := by
    omega
  rw [e, wrapInt64_eq, Minute]
  omega

/-- The node table after a sweep, on unique non-zero keys. -/
theorem CheckOfflineNodes_nodes (env : Env) (now m : Int) (s : State)
    (hids : (s.nodes.map (fun n => n.ID)).Nodup) (hnz : ∀ n ∈ s.nodes, n.ID ≠ 0) :
    (CheckOfflineNodes env now m s).nodes =
      s.nodes.map (fun n =>
        if staleOnline now m n = true then { n with Status := "offline" } else n) := by
  rw [CheckOfflineNodes_def, foldl_markOffline_nodes,
    foldl_updateNode (fun n => { n with Status := "offline" }) (fun _ => rfl) (fun _ => rfl)]
  apply List.map_congr_left
  intro x hx
  have := mem_selected_ids (fun n : Node => n.ID) (staleOnline now m) s.nodes hids x hx
  simp only [this, hnz x hx, ne_eq, not_false_eq_true, true_and]

/-- The sweep in terms of the `Where` clause as Go evaluates it: the selected nodes are
flipped, one dispatch is entered for each, and a second sweep at the same instant changes
nothing. -/
theorem CheckOfflineNodes_sweep (env : Env) (now m : Int) (s : State)
    (hids : (s.nodes.map (fun n => n.ID)).Nodup) (hnz : ∀ n ∈ s.nodes, n.ID ≠ 0) :
    (CheckOfflineNodes env now m s).nodes =
      s.nodes.map (fun n =>
        if staleOnline now m n = true then { n with Status := "offline" } else n) ∧
    (CheckOfflineNodes env now m s).calls =
      s.calls ++ (s.nodes.filter (staleOnline now m)).map (offlineCall env now) ∧
    ((CheckOfflineNodes env now m s).clients = s.clients ∧
      (CheckOfflineNodes env now m s).channels = s.channels) ∧
    CheckOfflineNodes env now m (CheckOfflineNodes env now m s) =
      CheckOfflineNodes env now m s := by
  have hnodes := CheckOfflineNodes_nodes env now m s hids hnz
  refine ⟨hnodes, ?_, ?_, ?_⟩
  · rw [CheckOfflineNodes_def, foldl_markOffline_calls]
  · rw [CheckOfflineNodes_def]
    exact foldl_markOffline_frame env now _ s
  · have hnone : (CheckOfflineNodes env now m s).nodes.filter (staleOnline now m) = [] := by
      rw [hnodes, List.filter_eq_nil_iff]
      intro x hx
      obtain ⟨y, _, rfl⟩ := List.mem_map.1 hx
      by_cases hy : staleOnline now m y = true
      · simp only [hy, if_true]
        simp [staleOnline]
      · simp only [hy, if_false]
        exact hy
    rw [CheckOfflineNodes_def env now m (CheckOfflineNodes env now m s), hnone]
    rfl

/-- The `Where` clause of the sweep in exact arithmetic, for every timeout whose duration
fits `int64` nanoseconds. -/
theorem staleOnline_exact (now m : Int) (h1 : -153722867 ≤ m) (h2 : m ≤ 153722867) :
    staleOnline now m =
      fun n => decide (n.Status = "online" ∧ n.LastSeen < now - m * Minute) := by
  funext n
  unfold staleOnline
  rw [offlineThreshold_exact now m h1 h2]
  by_cases ha : n.Status = "online" <;> by_cases hb : n.LastSeen < now - m * Minute <;>
    simp [ha, hb]

/-- C16, as stated, fails for a timeout whose duration overflows `int64` nanoseconds:
with `m = 153722868` the threshold `now.Add(-Duration(m) * Minute)` lies after `now`, and
the sweep of `sweepState` flips node 8 although it was seen a minute ago, which is not
earlier than `now` minus `m` minutes, and enters a dispatch for it. -/
theorem C16_counterexample :
    (sweepState.nodes.map
      (fun n => (n.ID, n.Status, decide (n.LastSeen < sampleNow - 153722868 * Minute)))) =
      [(7, "online", false), (8, "online", false), (11, "offline", false)] ∧
    sampleNow < offlineThreshold sampleNow 153722868 ∧
    ((CheckOfflineNodes sampleEnv sampleNow 153722868 sweepState).nodes.map
      (fun n => (n.ID, n.Status))) = [(7, "offline"), (8, "offline"), (11, "offline")] ∧
    ((CheckOfflineNodes sampleEnv sampleNow 153722868 sweepState).calls.map
      (fun c => (c.AlertType, c.TargetID))) = [("node_offline", 7), ("node_offline", 8)] := by
  decide

/-- C16 (amended): for a timeout `m` of at most 153722867 minutes in absolute value (the
timeouts whose duration fits `int64` nanoseconds), `CheckOfflineNodes(m)` at time `now`
sets the status `offline` on exactly the nodes whose status is `online` and whose
`last_seen` is earlier than `now` minus `m` minutes, and enters the node_offline dispatch
once for each of them, in table order; every other node keeps its row, clients and
channels are not touched, and a second sweep at the same instant changes nothing.
Primary keys are unique and non-zero. -/
theorem C16_sweep_flips_exactly_the_stale_online_nodes (env : Env) (now m : Int) (s : State)
    (hids : (s.nodes.map (fun n => n.ID)).Nodup) (hnz : ∀ n ∈ s.nodes, n.ID ≠ 0)
    (hm : -153722867 ≤ m ∧ m ≤ 153722867) :
    (CheckOfflineNodes env now m s).nodes =
      s.nodes.map (fun n =>
        if n.Status = "online" ∧ n.LastSeen < now - m * Minute then
          { n with Status := "offline" }
        else n) ∧
    (CheckOfflineNodes env now m s).calls =
      s.calls ++ (s.nodes.filter
        (fun n => decide (n.Status = "online" ∧ n.LastSeen < now - m * Minute))).map
          (offlineCall env now) ∧
    ((CheckOfflineNodes env now m s).clients = s.clients ∧
      (CheckOfflineNodes env now m s).channels = s.channels) ∧
    CheckOfflineNodes env now m (CheckOfflineNodes env now m s) =
      CheckOfflineNodes env now m s := by
  have h := CheckOfflineNodes_sweep env now m s hids hnz
  have hst := staleOnline_exact now m hm.1 hm.2
  refine ⟨?_, ?_, h.2.2.1, h.2.2.2⟩
  · rw [h.1]
    apply List.map_congr_left
    intro n _
    rw [hst]
    simp only [decide_eq_true_eq]
  · rw [h.2.1, hst]

/-- Witness for C16 (amended): the sweep of `sweepState` with a timeout of 5 minutes flips
node 7 alone and enters one dispatch, for node 7. -/
theorem C16_sweep_flips_exactly_the_stale_online_nodes_witness :
    (CheckOfflineNodes sampleEnv sampleNow 5 sweepState).nodes =
      sweepState.nodes.map (fun n =>
        if n.Status = "online" ∧ n.LastSeen < sampleNow - 5 * Minute then
          { n with Status := "offline" }
        else n) ∧
    ((CheckOfflineNodes sampleEnv sampleNow 5 sweepState).nodes.map
      (fun n => (n.ID, n.Status))) = [(7, "offline"), (8, "online"), (11, "offline")] ∧
    ((CheckOfflineNodes sampleEnv sampleNow 5 sweepState).calls.map
      (fun c => (c.AlertType, c.TargetID))) = [("node_offline", 7)] ∧
    CheckOfflineNodes sampleEnv sampleNow 5
        (CheckOfflineNodes sampleEnv sampleNow 5 sweepState) =
      CheckOfflineNodes sampleEnv sampleNow 5 sweepState :=
  ⟨(C16_sweep_flips_exactly_the_stale_online_nodes sampleEnv sampleNow 5 sweepState
      (by decide) (by decide) (by decide)).1,
    by decide, by decide,
    (C16_sweep_flips_exactly_the_stale_online_nodes sampleEnv sampleNow 5 sweepState
      (by decide) (by decide) (by decide)).2.2.2⟩

/-! ## C17: the explicit status transition -/

/-- C17: `CheckNodeOffline` enters the node_offline dispatch, once and for the node it was
given, if and only if `previousStatus` is `online` and the node's status is `offline`;
for every other pair of statuses it returns the state it was given: nothing is written
and nothing is sent. -/
theorem C17_offline_transition_triggers (env : Env) (now : Int) (node : Node) (prev : String)
    (s : State) :
    (prev = "online" ∧ node.Status = "offline" →
      CheckNodeOffline env now node prev s =
          TriggerAlert env now "node_offline" "node" node.ID node.Name
            ("节点 " ++ node.Name ++ " 已离线\n最后在线: " ++ env.fmtTime node.LastSeen) s ∧
        (CheckNodeOffline env now node prev s).calls =
          s.calls ++ [⟨"node_offline", "node", node.ID, node.Name,
            "节点 " ++ node.Name ++ " 已离线\n最后在线: " ++ env.fmtTime node.LastSeen, now⟩]) ∧
    (¬ (prev = "online" ∧ node.Status = "offline") → CheckNodeOffline env now node prev s = s) ∧
    ((CheckNodeOffline env now node prev s).calls ≠ s.calls ↔
      (prev = "online" ∧ node.Status = "offline")) := by
  have h1 : prev = "online" ∧ node.Status = "offline" →
      CheckNodeOffline env now node prev s =
        TriggerAlert env now "node_offline" "node" node.ID node.Name
          ("节点 " ++ node.Name ++ " 已离线\n最后在线: " ++ env.fmtTime node.LastSeen) s := by
    intro h
    unfold CheckNodeOffline
    rw [if_pos h]
  have h2 : ¬ (prev = "online" ∧ node.Status = "offline") →
      CheckNodeOffline env now node prev s = s := by
    intro h
    unfold CheckNodeOffline
    rw [if_neg h]
  refine ⟨fun h => ⟨h1 h, ?_⟩, h2, ?_⟩
  · rw [h1 h, TriggerAlert_eq]
  · constructor
    · intro hne
      by_contra hc
      exact hne (by rw [h2 hc])
    · intro h hc
      rw [h1 h, TriggerAlert_eq] at hc
      have := congrArg List.length hc
      simp at this

/-- Witness for C17: a node reported `offline` after `online` triggers one dispatch;
reported `offline` after `offline`, or `Online` with a capital, it triggers nothing. -/
theorem C17_offline_transition_triggers_witness :
    ((CheckNodeOffline sampleEnv sampleNow
        ⟨7, "edge", 0, 0, false, "offline", sampleNow, 1, none⟩ "online" sweepState).calls.map
      (fun c => (c.AlertType, c.TargetID))) = [("node_offline", 7)] ∧
    CheckNodeOffline sampleEnv sampleNow
        ⟨7, "edge", 0, 0, false, "offline", sampleNow, 1, none⟩ "offline" sweepState =
      sweepState ∧
    CheckNodeOffline sampleEnv sampleNow
        ⟨7, "edge", 0, 0, false, "offline", sampleNow, 1, none⟩ "Online" sweepState =
      sweepState :=
  ⟨by
      rw [((C17_offline_transition_triggers sampleEnv sampleNow
        ⟨7, "edge", 0, 0, false, "offline", sampleNow, 1, none⟩ "online" sweepState).1
        (by decide)).2]
      decide,
    (C17_offline_transition_triggers sampleEnv sampleNow
      ⟨7, "edge", 0, 0, false, "offline", sampleNow, 1, none⟩ "offline" sweepState).2.1
      (by decide),
    (C17_offline_transition_triggers sampleEnv sampleNow
      ⟨7, "edge", 0, 0, false, "offline", sampleNow, 1, none⟩ "Online" sweepState).2.1
      (by decide)⟩

/-! ## C18: the notifier factory -/

/-- C18: `CreateNotifier` returns a notifier exactly when the channel type is `telegram`,
`webhook` or `smtp`, spelled so, and the payload parses into the configuration of that
type, and then it is the notifier of that type; for every other type string it returns
the error `unknown channel type: ...`, for a known type with a payload that does not
parse the error `parse ... config failed: ...`; the result is a notifier or an error,
never both. -/
theorem C18_createNotifier_cases (env : Env) (channel : NotifyChannel) :
    (∀ nt, CreateNotifier env channel = .ok nt ↔
      (channel.Typ = "telegram" ∧ env.unmarshalConfig "telegram" channel.Config = none ∧
          nt = Notifier.telegram channel) ∨
        (channel.Typ = "webhook" ∧ env.unmarshalConfig "webhook" channel.Config = none ∧
          nt = Notifier.webhook channel) ∨
        (channel.Typ = "smtp" ∧ env.unmarshalConfig "smtp" channel.Config = none ∧
          nt = Notifier.smtp channel)) ∧
    (channel.Typ ≠ "telegram" ∧ channel.Typ ≠ "webhook" ∧ channel.Typ ≠ "smtp" →
      CreateNotifier env channel = .error ("unknown channel type: " ++ channel.Typ)) ∧
    (∀ err, channel.Typ = "telegram" → env.unmarshalConfig "telegram" channel.Config = some err →
      CreateNotifier env channel = .error ("parse telegram config failed: " ++ err)) ∧
    (∀ err, channel.Typ = "webhook" → env.unmarshalConfig "webhook" channel.Config = some err →
      CreateNotifier env channel = .error ("parse webhook config failed: " ++ err)) ∧
    (∀ err, channel.Typ = "smtp" → env.unmarshalConfig "smtp" channel.Config = some err →
      CreateNotifier env channel = .error ("parse smtp config failed: " ++ err)) ∧
    ((∃ nt, CreateNotifier env channel = .ok nt) ∨
      (∃ msg, CreateNotifier env channel = .error msg)) := by
  refine ⟨?_, ?_, ?_, ?_, ?_, ?_⟩
  · intro nt
    unfold CreateNotifier
    by_cases h1 : channel.Typ = "telegram"
    · have n2 : ¬ "telegram" = "webhook" := by decide
      have n3 : ¬ "telegram" = "smtp" := by decide
      cases h : env.unmarshalConfig "telegram" channel.Config <;>
        simp [h1, h, n2, n3, eq_comm]
    · by_cases h2 : channel.Typ = "webhook"
      · have n3 : ¬ "webhook" = "smtp" := by decide
        have n1 : ¬ "webhook" = "telegram" := by decide
        cases h : env.unmarshalConfig "webhook" channel.Config <;>
          simp [h2, h, n1, n3, eq_comm]
      · by_cases h3 : channel.Typ = "smtp"
        · have n1 : ¬ "smtp" = "telegram" := by decide
          have n2 : ¬ "smtp" = "webhook" := by decide
          cases h : env.unmarshalConfig "smtp" channel.Config <;>
            simp [h3, h, n1, n2, eq_comm]
        · simp [h1, h2, h3]
  · intro h
    unfold CreateNotifier
    simp [h.1, h.2.1, h.2.2]
  · intro err h1 h
    unfold CreateNotifier
    simp [h1, h]
  · intro err h1 h
    have n1 : ¬ "webhook" = "telegram" := by decide
    unfold CreateNotifier
    simp [h1, h, n1]
  · intro err h1 h
    have n1 : ¬ "smtp" = "telegram" := by decide
    have n2 : ¬ "smtp" = "webhook" := by decide
    unfold CreateNotifier
    simp [h1, h, n1, n2]
  · cases h : CreateNotifier env channel with
    | ok nt => exact Or.inl ⟨nt, rfl⟩
    | error msg => exact Or.inr ⟨msg, rfl⟩

/-- Witness for C18: the sample webhook channel yields a webhook notifier, the type
`Webhook` with a capital is unknown, and a webhook channel with a broken payload yields
the parse error. -/
theorem C18_createNotifier_cases_witness :
    CreateNotifier sampleEnv (hook 1) = .ok (Notifier.webhook (hook 1)) ∧
    CreateNotifier sampleEnv ⟨2, "ops", "Webhook", hookConfig, true⟩ =
      .error "unknown channel type: Webhook" ∧
    CreateNotifier sampleEnv ⟨3, "ops", "webhook", "\x7b", true⟩ =
      .error "parse webhook config failed: unexpected end of JSON input" :=
  ⟨((C18_createNotifier_cases sampleEnv (hook 1)).1 (Notifier.webhook (hook 1))).2
      (Or.inr (Or.inl ⟨by decide, by decide, rfl⟩)),
    (C18_createNotifier_cases sampleEnv ⟨2, "ops", "Webhook", hookConfig, true⟩).2.1
      (by decide),
    (C18_createNotifier_cases sampleEnv ⟨3, "ops", "webhook", "\x7b", true⟩).2.2.2.1
      "unexpected end of JSON input" (by decide) (by decide)⟩

/-! ## C19: the eighteen passes are one pass -/

theorem escapeWhere_false (t : List Char) : escapeWhere (fun _ => false) t = t := by
  induction t with
  | nil => rfl
  | cons x t ih => simp [escapeWhere, ih]

theorem escapeWhere_congr (p q : Char → Bool) (h : ∀ c, p c = q c) (t : List Char) :
    escapeWhere p t = escapeWhere q t := by
  have : p = q := funext h
  rw [this]

/-- One `ReplaceAll` pass after a simultaneous pass over other characters is the
simultaneous pass over both, provided the new character is not the backslash. -/
theorem escapeChar_escapeWhere (p : Char → Bool) (c : Char) (hp : p c = false)
    (hc : c ≠ '\\') (t : List Char) :
    escapeChar c (escapeWhere p t) = escapeWhere (fun x => p x || decide (x = c)) t := by
  induction t with
  | nil => rfl
  | cons x t ih =>
    by_cases hx : p x = true
    · have hxc : x ≠ c := fun h => by rw [h, hp] at hx; exact absurd hx (by decide)
      have hbs : ¬ '\\' = c := fun h => hc h.symm
      simp [escapeWhere, escapeChar, hx, hxc, hbs, ih]
    · have hx' : p x = false := by simpa using hx
      by_cases hxc : x = c
      · subst hxc
        simp [escapeWhere, escapeChar, hx', ih]
      · simp [escapeWhere, escapeChar, hx', hxc, ih]

theorem foldl_escapeChar (cs : List Char) :
    ∀ (p : Char → Bool) (t : List Char), cs.Nodup → (∀ c ∈ cs, p c = false ∧ c ≠ '\\') →
      cs.foldl (fun t c => escapeChar c t) (escapeWhere p t) =
        escapeWhere (fun x => p x || decide (x ∈ cs)) t := by
  induction cs with
  | nil =>
    intro p t _ _
    simp
  | cons c cs ih =>
    intro p t hnd h
    rw [List.foldl_cons, escapeChar_escapeWhere p c (h c (List.mem_cons_self _ _)).1
      (h c (List.mem_cons_self _ _)).2 t]
    rw [ih _ t (List.nodup_cons.1 hnd).2]
    · apply escapeWhere_congr
      intro x
      simp [Bool.or_assoc]
    · intro d hd
      have hdc : d ≠ c := fun e => (List.nodup_cons.1 hnd).1 (e ▸ hd)
      have := h d (List.mem_cons_of_mem _ hd)
      simp [this.1, this.2, hdc]

theorem escapeMarkdown_eq_where (text : List Char) :
    escapeMarkdown text = escapeWhere (fun c => decide (c ∈ markdownChars)) text := by
  unfold escapeMarkdown
  have h := foldl_escapeChar markdownChars (fun _ => false) text (by decide) (by decide)
  rw [escapeWhere_false] at h
  rw [h]
  apply escapeWhere_congr
  intro c
  simp

theorem escapeWhere_length (p : Char → Bool) (t : List Char) :
    (escapeWhere p t).length = t.length + t.countP p := by
  induction t with
  | nil => rfl
  | cons x t ih =>
    by_cases hx : p x = true
    · simp [escapeWhere, hx, ih, List.countP_cons]
      omega
    · simp [escapeWhere, hx, ih, List.countP_cons]
      omega

theorem escapeWhere_utf8 (p : Char → Bool) (t : List Char) :
    (String.mk (escapeWhere p t)).utf8ByteSize =
      (String.mk t).utf8ByteSize + t.countP p := by
  simp only [String.utf8ByteSize, String.utf8ByteSize.go_eq]
  induction t with
  | nil => rfl
  | cons x t ih =>
    by_cases hx : p x = true
    · have h1 : Char.utf8Size '\\' = 1 := by decide
      simp only [escapeWhere, hx, if_true, String.utf8Len_cons, ih, List.countP_cons, h1]
      omega
    · simp only [escapeWhere, hx, String.utf8Len_cons, ih, List.countP_cons]
      simp
      omega

/-- C19: `escapeMarkdown`, the eighteen sequential `ReplaceAll` passes of the source, is
the one simultaneous pass of the specification: every reserved character gets one
backslash before it and every other character is copied, for every text.  Hence the
output has as many characters (and as many UTF-8 bytes) as the input plus one for each
reserved character in it; the list has 18 distinct entries, none the backslash; and the
text `TelegramNotifier.Send` posts is built from the escaped title and the escaped
message. -/
theorem C19_escapeMarkdown_is_one_simultaneous_pass (text : List Char) :
    escapeMarkdown text = escapeOnePass text ∧
    (escapeMarkdown text).length =
      text.length + text.countP (fun c => decide (c ∈ reservedChars)) ∧
    (String.mk (escapeMarkdown text)).utf8ByteSize =
      (String.mk text).utf8ByteSize + text.countP (fun c => decide (c ∈ reservedChars)) ∧
    (markdownChars.length = 18 ∧ markdownChars.Nodup ∧ '\\' ∉ markdownChars) ∧
    (∀ (marshal : String → String → String → String)
        (post : String → String → Except String HttpResponse)
        (botToken chatID title message : String),
      TelegramNotifier.Send marshal post botToken chatID title message =
        match post (sendMessageURL botToken)
          (marshal chatID
            ("*" ++ String.mk (escapeOnePass title.toList) ++ "*\n\n" ++
              String.mk (escapeOnePass message.toList)) "MarkdownV2") with
        | .error err => some ("telegram request failed: " ++ err)
        | .ok resp =>
          if resp.StatusCode ≠ 200 then some ("telegram API error: " ++ resp.Body) else none) := by
  have hm : markdownChars = reservedChars := rfl
  have heq : ∀ t, escapeMarkdown t = escapeOnePass t := by
    intro t
    rw [escapeMarkdown_eq_where, hm]
    rfl
  refine ⟨heq text, ?_, ?_, ⟨by decide, by decide, by decide⟩, ?_⟩
  · rw [escapeMarkdown_eq_where, escapeWhere_length, hm]
  · rw [escapeMarkdown_eq_where, hm]
    exact escapeWhere_utf8 _ text
  · intro marshal post botToken chatID title message
    rw [← heq, ← heq]
    rfl

/-! ## C20: only status 200 is a success -/

theorem TelegramNotifier_Send_eq (marshal : String → String → String → String)
    (post : String → String → Except String HttpResponse)
    (botToken chatID title message : String) :
    TelegramNotifier.Send marshal post botToken chatID title message =
      match post (sendMessageURL botToken)
        (marshal chatID (telegramText title message) "MarkdownV2") with
      | .error err => some ("telegram request failed: " ++ err)
      | .ok resp =>
        if resp.StatusCode ≠ 200 then some ("telegram API error: " ++ resp.Body) else none :=
  rfl

/-- C20: when the HTTP exchange succeeds with response `resp`, `TelegramNotifier.Send`
returns no error if and only if the status code of `resp` is 200; for every other status
code it returns the error `telegram API error: ` followed by the response body. -/
theorem C20_only_status_200_is_success (marshal : String → String → String → String)
    (post : String → String → Except String HttpResponse)
    (botToken chatID title message : String) (resp : HttpResponse)
    (hpost : post (sendMessageURL botToken)
      (marshal chatID (telegramText title message) "MarkdownV2") = .ok resp) :
    (TelegramNotifier.Send marshal post botToken chatID title message = none ↔
      resp.StatusCode = 200) ∧
    (resp.StatusCode ≠ 200 →
      TelegramNotifier.Send marshal post botToken chatID title message =
        some ("telegram API error: " ++ resp.Body)) := by
  rw [TelegramNotifier_Send_eq, hpost]
  by_cases h : resp.StatusCode = 200
  · simp [h]
  · simp [h]

/-- Witness for C20: the statuses 201, 204 and 302 are failures that carry the body, and
200 is a success. -/
theorem C20_only_status_200_is_success_witness :
    TelegramNotifier.Send (fun c t m => c ++ t ++ m) (fun _ _ => .ok ⟨201, "created"⟩)
        "tok" "42" "a.b" "c!" = some "telegram API error: created" ∧
    TelegramNotifier.Send (fun c t m => c ++ t ++ m) (fun _ _ => .ok ⟨204, ""⟩)
        "tok" "42" "a.b" "c!" = some "telegram API error: " ∧
    TelegramNotifier.Send (fun c t m => c ++ t ++ m) (fun _ _ => .ok ⟨302, "moved"⟩)
        "tok" "42" "a.b" "c!" = some "telegram API error: moved" ∧
    TelegramNotifier.Send (fun c t m => c ++ t ++ m) (fun _ _ => .ok ⟨200, "ok"⟩)
        "tok" "42" "a.b" "c!" = none :=
  ⟨(C20_only_status_200_is_success _ _ "tok" "42" "a.b" "c!" ⟨201, "created"⟩ rfl).2
      (by decide),
    (C20_only_status_200_is_success _ _ "tok" "42" "a.b" "c!" ⟨204, ""⟩ rfl).2 (by decide),
    (C20_only_status_200_is_success _ _ "tok" "42" "a.b" "c!" ⟨302, "moved"⟩ rfl).2
      (by decide),
    (C20_only_status_200_is_success _ _ "tok" "42" "a.b" "c!" ⟨200, "ok"⟩ rfl).1.2
      (by decide)⟩

/-! ## C21: the webhook notifier -/

theorem WebhookNotifier_Send_eq (marshal : String → String → Int → String)
    (newRequest : String → String → Option String)
    (doRequest : HttpRequest → Except String HttpResponse)
    (now : Int) (w : WebhookNotifier) (title message : String) :
    WebhookNotifier.Send marshal newRequest doRequest now w title message =
      match newRequest w.Method w.URL with
      | some err => some ("create request failed: " ++ err)
      | none =>
        match doRequest (webhookRequest marshal now w title message) with
        | .error err => some ("webhook request failed: " ++ err)
        | .ok resp =>
          if resp.StatusCode ≥ 400 then
            some ("webhook error (status " ++ toString resp.StatusCode ++ "): " ++ resp.Body)
          else none :=
  rfl

/-- C21: when the request can be built and the HTTP exchange succeeds with response
`resp`, `WebhookNotifier.Send` of the notifier built from a configuration returns an
error if and only if the status code of `resp` is at least 400 (the error carrying the
status and the body) and returns no error for every status below 400; and the request
it makes has the configured method, `POST` when the configured method is empty. -/
theorem C21_webhook_fails_exactly_from_400 (marshal : String → String → Int → String)
    (newRequest : String → String → Option String)
    (doRequest : HttpRequest → Except String HttpResponse)
    (now : Int) (config : WebhookConfig) (title message : String) (resp : HttpResponse)
    (hreq : newRequest (NewWebhookNotifier config).Method (NewWebhookNotifier config).URL = none)
    (hdo : doRequest (webhookRequest marshal now (NewWebhookNotifier config) title message) =
      .ok resp) :
    (WebhookNotifier.Send marshal newRequest doRequest now (NewWebhookNotifier config)
        title message ≠ none ↔ resp.StatusCode ≥ 400) ∧
    (resp.StatusCode < 400 →
      WebhookNotifier.Send marshal newRequest doRequest now (NewWebhookNotifier config)
        title message = none) ∧
    (resp.StatusCode ≥ 400 →
      WebhookNotifier.Send marshal newRequest doRequest now (NewWebhookNotifier config)
        title message =
        some ("webhook error (status " ++ toString resp.StatusCode ++ "): " ++ resp.Body)) ∧
    (webhookRequest marshal now (NewWebhookNotifier config) title message).Method =
      (if config.Method = "" then "POST" else config.Method) ∧
    (webhookRequest marshal now (NewWebhookNotifier config) title message).URL = config.URL := by
  rw [WebhookNotifier_Send_eq, hreq]
  simp only [hdo]
  refine ⟨?_, ?_, ?_, rfl, rfl⟩
  · by_cases h : resp.StatusCode ≥ 400
    · simp [h]
    · simp [h]
  · intro h
    have : ¬ resp.StatusCode ≥ 400 := by omega
    simp [this]
  · intro h
    simp [h]

/-- Witness for C21: with no method configured the request is a `POST`; the statuses 200,
302 and 399 are successes, 400 and 500 are failures. -/
theorem C21_webhook_fails_exactly_from_400_witness :
    (webhookRequest (fun t m _ => t ++ m) sampleNow
      (NewWebhookNotifier ⟨"http://127.0.0.1:9/hook", "", []⟩) "t" "m").Method = "POST" ∧
    (webhookRequest (fun t m _ => t ++ m) sampleNow
      (NewWebhookNotifier ⟨"http://127.0.0.1:9/hook", "PUT", []⟩) "t" "m").Method = "PUT" ∧
    WebhookNotifier.Send (fun t m _ => t ++ m) (fun _ _ => none) (fun _ => .ok ⟨200, "ok"⟩)
      sampleNow (NewWebhookNotifier ⟨"http://127.0.0.1:9/hook", "", []⟩) "t" "m" = none ∧
    WebhookNotifier.Send (fun t m _ => t ++ m) (fun _ _ => none) (fun _ => .ok ⟨302, "moved"⟩)
      sampleNow (NewWebhookNotifier ⟨"http://127.0.0.1:9/hook", "", []⟩) "t" "m" = none ∧
    WebhookNotifier.Send (fun t m _ => t ++ m) (fun _ _ => none) (fun _ => .ok ⟨399, "odd"⟩)
      sampleNow (NewWebhookNotifier ⟨"http://127.0.0.1:9/hook", "", []⟩) "t" "m" = none ∧
    WebhookNotifier.Send (fun t m _ => t ++ m) (fun _ _ => none) (fun _ => .ok ⟨400, "bad"⟩)
      sampleNow (NewWebhookNotifier ⟨"http://127.0.0.1:9/hook", "", []⟩) "t" "m" =
      some ("webhook error (status " ++ toString (400 : Int) ++ "): " ++ "bad") ∧
    WebhookNotifier.Send (fun t m _ => t ++ m) (fun _ _ => none) (fun _ => .ok ⟨500, "down"⟩)
      sampleNow (NewWebhookNotifier ⟨"http://127.0.0.1:9/hook", "", []⟩) "t" "m" =
      some ("webhook error (status " ++ toString (500 : Int) ++ "): " ++ "down") :=
  ⟨(C21_webhook_fails_exactly_from_400 (fun t m _ => t ++ m) (fun _ _ => none)
      (fun _ => .ok ⟨200, "ok"⟩) sampleNow ⟨"http://127.0.0.1:9/hook", "", []⟩ "t" "m"
      ⟨200, "ok"⟩ rfl rfl).2.2.2.1,
    (C21_webhook_fails_exactly_from_400 (fun t m _ => t ++ m) (fun _ _ => none)
      (fun _ => .ok ⟨200, "ok"⟩) sampleNow ⟨"http://127.0.0.1:9/hook", "PUT", []⟩ "t" "m"
      ⟨200, "ok"⟩ rfl rfl).2.2.2.1,
    (C21_webhook_fails_exactly_from_400 (fun t m _ => t ++ m) (fun _ _ => none)
      (fun _ => .ok ⟨200, "ok"⟩) sampleNow ⟨"http://127.0.0.1:9/hook", "", []⟩ "t" "m"
      ⟨200, "ok"⟩ rfl rfl).2.1 (by decide),
    (C21_webhook_fails_exactly_from_400 (fun t m _ => t ++ m) (fun _ _ => none)
      (fun _ => .ok ⟨302, "moved"⟩) sampleNow ⟨"http://127.0.0.1:9/hook", "", []⟩ "t" "m"
      ⟨302, "moved"⟩ rfl rfl).2.1 (by decide),
    (C21_webhook_fails_exactly_from_400 (fun t m _ => t ++ m) (fun _ _ => none)
      (fun _ => .ok ⟨399, "odd"⟩) sampleNow ⟨"http://127.0.0.1:9/hook", "", []⟩ "t" "m"
      ⟨399, "odd"⟩ rfl rfl).2.1 (by decide),
    (C21_webhook_fails_exactly_from_400 (fun t m _ => t ++ m) (fun _ _ => none)
      (fun _ => .ok ⟨400, "bad"⟩) sampleNow ⟨"http://127.0.0.1:9/hook", "", []⟩ "t" "m"
      ⟨400, "bad"⟩ rfl rfl).2.2.1 (by decide),
    (C21_webhook_fails_exactly_from_400 (fun t m _ => t ++ m) (fun _ _ => none)
      (fun _ => .ok ⟨500, "down"⟩) sampleNow ⟨"http://127.0.0.1:9/hook", "", []⟩ "t" "m"
      ⟨500, "down"⟩ rfl rfl).2.2.1 (by decide)⟩

/-! ## C22: the default rules -/

/-- C22: `CreateDefaultRules` creates rules only on an empty rule table, and then exactly
four, all enabled, in this order: node_offline with cooldown 30, quota_exceeded with
cooldown 60, quota_warning with the condition of threshold 80 and cooldown 60,
quota_warning with the condition of threshold 90 and cooldown 30; on a non-empty rule
table it returns the store as it was, so a second call changes nothing; no other table
is touched.  Under the sample environment the thresholds the four rules are evaluated
with are 80, 80, 80 and 90. -/
theorem C22_default_rules_are_seeded_once (newID newID' : List AlertRule → Nat) (s : State) :
    (s.rules = [] →
      ((CreateDefaultRules newID s).rules.map
          (fun r => (r.Typ, r.Condition, r.Enabled, r.CooldownMin))) =
        [("node_offline", "\x7b\x7d", true, 30), ("quota_exceeded", "\x7b\x7d", true, 60),
          ("quota_warning", cond80, true, 60), ("quota_warning", cond90, true, 30)] ∧
      (CreateDefaultRules newID s).rules.length = 4 ∧
      (∀ r ∈ (CreateDefaultRules newID s).rules,
        r.Enabled = true ∧ r.ChannelIDs = "" ∧ r.LastAlertAt = zeroTime) ∧
      ((CreateDefaultRules newID s).rules.map
          (fun r => effectiveThreshold (ParseCondition sampleEnv r.Condition).1)) =
        [80, 80, 80, 90]) ∧
    (s.rules ≠ [] → CreateDefaultRules newID s = s) ∧
    CreateDefaultRules newID' (CreateDefaultRules newID s) = CreateDefaultRules newID s ∧
    ((CreateDefaultRules newID s).nodes = s.nodes ∧
      (CreateDefaultRules newID s).clients = s.clients ∧
      (CreateDefaultRules newID s).channels = s.channels ∧
      (CreateDefaultRules newID s).logs = s.logs ∧
      (CreateDefaultRules newID s).sent = s.sent ∧
      (CreateDefaultRules newID s).calls = s.calls ∧
      (CreateDefaultRules newID s).stamps = s.stamps) := by
  have hne : ∀ (f : List AlertRule → Nat) (t : State), t.rules ≠ [] →
      CreateDefaultRules f t = t := by
    intro f t h
    unfold CreateDefaultRules
    rw [if_pos (List.length_pos.2 h)]
  have hempty : s.rules = [] → CreateDefaultRules newID s =
      defaultRules.foldl (createRule newID) s := by
    intro h
    unfold CreateDefaultRules
    rw [if_neg (by simp [h])]
  refine ⟨?_, hne newID s, ?_, ?_⟩
  · intro h
    rw [hempty h]
    simp only [defaultRules, List.foldl_cons, List.foldl_nil, createRule, h, List.nil_append,
      List.cons_append, List.map_cons, List.map_nil, List.length_cons, List.length_nil,
      List.mem_cons, List.mem_singleton, List.not_mem_nil, or_false]
    refine ⟨by decide, trivial, ?_, by decide⟩
    rintro r (rfl | rfl | rfl | rfl) <;> exact ⟨rfl, rfl, rfl⟩
  · by_cases h : s.rules = []
    · apply hne
      rw [hempty h]
      simp [defaultRules, createRule]
    · rw [hne newID s h]
      exact hne newID' s h
  · by_cases h : s.rules = []
    · rw [hempty h]
      simp [defaultRules, createRule]
    · rw [hne newID s h]
      simp

/-- Witness for C22: on the empty store the four rules get the keys 1 to 4 when the store
numbers rows by their count; on a store that holds one rule nothing is created. -/
theorem C22_default_rules_are_seeded_once_witness :
    ((CreateDefaultRules (fun rs => rs.length + 1) ⟨[], [], [], [], [], [], [], []⟩).rules.map
      (fun r => (r.ID, r.Typ, r.CooldownMin))) =
      [(1, "node_offline", 30), (2, "quota_exceeded", 60), (3, "quota_warning", 60),
        (4, "quota_warning", 30)] ∧
    ((CreateDefaultRules (fun rs => rs.length + 1) ⟨[], [], [], [], [], [], [], []⟩).rules.map
      (fun r => (r.Typ, r.Condition, r.Enabled, r.CooldownMin))) =
      [("node_offline", "\x7b\x7d", true, 30), ("quota_exceeded", "\x7b\x7d", true, 60),
        ("quota_warning", cond80, true, 60), ("quota_warning", cond90, true, 30)] ∧
    CreateDefaultRules (fun rs => rs.length + 1) lostAlertState = lostAlertState :=
  ⟨by decide,
    ((C22_default_rules_are_seeded_once (fun rs => rs.length + 1) (fun rs => rs.length + 1)
      ⟨[], [], [], [], [], [], [], []⟩).1 rfl).1,
    (C22_default_rules_are_seeded_once (fun rs => rs.length + 1) (fun rs => rs.length + 1)
      lostAlertState).2.1 (by decide)⟩

/-! ## C23: the log is append-only up to the retention sweep -/

/-- C23: `CleanupAlertLogs(d)` at time `now` keeps, in order and unchanged, exactly the
log rows that were not created before the threshold `now.AddDate(0, 0, -d)`, deletes the
others and touches no other table; a row is deleted if and only if it was created
earlier than the threshold, which is `now` shifted by `-d` days for every `d` above the
least `int`.  `TriggerAlert` leaves the rows of the log as they are and in place: the
log after the call is the log before it followed by the new rows. -/
theorem C23_cleanup_deletes_exactly_the_old_rows (env : Env) (now d : Int) (s : State)
    (aT tT : String) (tid : Nat) (tn msg : String) :
    (CleanupAlertLogs env now d s).logs =
      s.logs.filter (fun l => !decide (l.CreatedAt < retentionThreshold env now d)) ∧
    (∀ l, l ∈ (CleanupAlertLogs env now d s).logs ↔
      l ∈ s.logs ∧ ¬ l.CreatedAt < retentionThreshold env now d) ∧
    (CleanupAlertLogs env now d s).logs.Sublist s.logs ∧
    ((CleanupAlertLogs env now d s).nodes = s.nodes ∧
      (CleanupAlertLogs env now d s).clients = s.clients ∧
      (CleanupAlertLogs env now d s).rules = s.rules ∧
      (CleanupAlertLogs env now d s).channels = s.channels ∧
      (CleanupAlertLogs env now d s).sent = s.sent ∧
      (CleanupAlertLogs env now d s).calls = s.calls ∧
      (CleanupAlertLogs env now d s).stamps = s.stamps) ∧
    (-(2 ^ 63) < d ∧ d < 2 ^ 63 → retentionThreshold env now d = env.addDays now (-d)) ∧
    (∃ rows, (TriggerAlert env now aT tT tid tn msg s).logs = s.logs ++ rows ∧
      ∀ l ∈ rows, l.CreatedAt = now ∧ l.Typ = aT) := by
  refine ⟨rfl, ?_, ?_, ⟨rfl, rfl, rfl, rfl, rfl, rfl, rfl⟩, ?_, ?_⟩
  · intro l
    show l ∈ s.logs.filter (fun l => !decide (l.CreatedAt < retentionThreshold env now d)) ↔ _
    simp [List.mem_filter]
  · exact List.filter_sublist s.logs
  · intro h
    unfold retentionThreshold wrapInt64
    congr 1
    omega
  · rw [TriggerAlert_eq]
    refine ⟨_, rfl, ?_⟩
    intro l hl
    obtain ⟨e, he, rfl⟩ := List.mem_map.1 hl
    obtain ⟨r, _, j, _, ok, rfl⟩ := mem_callEffects _ _ _ _ _ _ _ _ _ _ _ he
    exact ⟨rfl, rfl⟩

/-- Witness for C23: with a retention of 30 days the row created 40 days ago is deleted,
the rows created 30 days and one hour ago are kept; a dispatch then appends one row
after them. -/
theorem C23_cleanup_deletes_exactly_the_old_rows_witness :
    ((CleanupAlertLogs sampleEnv sampleNow 30 agedLogState).logs.map (fun l => l.Message)) =
      ["b", "c"] ∧
    retentionThreshold sampleEnv sampleNow 30 = sampleEnv.addDays sampleNow (-30) ∧
    ((TriggerAlert sampleEnv sampleNow "quota_exceeded" "node" 7 "edge" "d"
      agedLogState).logs.map (fun l => l.Message)) = ["a", "b", "c", "d"] :=
  ⟨by
      rw [(C23_cleanup_deletes_exactly_the_old_rows sampleEnv sampleNow 30 agedLogState
        "quota_exceeded" "node" 7 "edge" "d").1]
      decide,
    (C23_cleanup_deletes_exactly_the_old_rows sampleEnv sampleNow 30 agedLogState
      "quota_exceeded" "node" 7 "edge" "d").2.2.2.2.1 (by decide),
    by decide⟩

/-! ## C24: a failed quota-exceeded alert is not attempted again -/

theorem raisedOnlyWarnings_refl (tn : String) (s : State) : RaisedOnlyWarnings tn s s :=
  ⟨rfl, rfl, [], [], [], by simp, by simp, by simp, by simp, by simp, by simp⟩

theorem raisedOnlyWarnings_trans (tn : String) (s s' s'' : State)
    (h1 : RaisedOnlyWarnings tn s s') (h2 : RaisedOnlyWarnings tn s' s'') :
    RaisedOnlyWarnings tn s s'' := by
  obtain ⟨n1, c1, ls1, ns1, cs1, hl1, hs1, hc1, pl1, pn1, pc1⟩ := h1
  obtain ⟨n2, c2, ls2, ns2, cs2, hl2, hs2, hc2, pl2, pn2, pc2⟩ := h2
  refine ⟨n2.trans n1, c2.trans c1, ls1 ++ ls2, ns1 ++ ns2, cs1 ++ cs2, ?_, ?_, ?_, ?_, ?_, ?_⟩
  · rw [hl2, hl1, List.append_assoc]
  · rw [hs2, hs1, List.append_assoc]
  · rw [hc2, hc1, List.append_assoc]
  · intro l hl
    rcases List.mem_append.1 hl with h | h
    · exact pl1 l h
    · exact pl2 l h
  · intro n hn
    rcases List.mem_append.1 hn with h | h
    · exact pn1 n h
    · exact pn2 n h
  · intro c hc
    rcases List.mem_append.1 hc with h | h
    · exact pc1 c h
    · exact pc2 c h

/-- A quota check of a node whose flag is set raises only warnings. -/
theorem CheckNodeQuota_flagged_onlyWarnings (env : Env) (now : Int) (node : Node) (s : State)
    (hf : node.QuotaExceeded = true) :
    RaisedOnlyWarnings node.Name s (CheckNodeQuota env now node s) := by
  unfold CheckNodeQuota
  by_cases hq : node.TrafficQuota ≤ 0
  · simp only [hq, if_true]
    exact raisedOnlyWarnings_refl _ _
  · simp only [hq, if_false, hf, Bool.true_eq_false, and_false]
    exact checkQuotaWarning_onlyWarnings _ _ _ _ _ _ _ _

/-- A quota check of a client whose flag is set raises only warnings. -/
theorem CheckClientQuota_flagged_onlyWarnings (env : Env) (now : Int) (client : Client)
    (s : State) (hf : client.QuotaExceeded = true) :
    RaisedOnlyWarnings client.Name s (CheckClientQuota env now client s) := by
  unfold CheckClientQuota
  by_cases hq : client.TrafficQuota ≤ 0
  · simp only [hq, if_true]
    exact raisedOnlyWarnings_refl _ _
  · simp only [hq, if_false, hf, Bool.true_eq_false, and_false]
    exact checkQuotaWarning_onlyWarnings _ _ _ _ _ _ _ _

/-- Passes over a node whose stored flag is set raise only warnings. -/
theorem recheckNode_onlyWarnings (env : Env) (id : Nat) (ts : List Int) (s : State) (n : Node)
    (hn : s.nodes.find? (fun x => x.ID == id) = some n) (hf : n.QuotaExceeded = true) :
    RaisedOnlyWarnings n.Name s (ts.foldl (recheckNode env id) s) := by
  induction ts generalizing s with
  | nil => exact raisedOnlyWarnings_refl _ _
  | cons t ts ih =>
    have h1 : recheckNode env id s t = CheckNodeQuota env t n s := by simp [recheckNode, hn]
    have h2 := CheckNodeQuota_flagged_onlyWarnings env t n s hf
    rw [List.foldl_cons]
    refine raisedOnlyWarnings_trans _ _ _ _ (by rw [h1]; exact h2) (ih _ ?_)
    rw [h1, h2.1]
    exact hn

/-- Passes over a client whose stored flag is set raise only warnings. -/
theorem recheckClient_onlyWarnings (env : Env) (id : Nat) (ts : List Int) (s : State)
    (c : Client) (hn : s.clients.find? (fun x => x.ID == id) = some c)
    (hf : c.QuotaExceeded = true) :
    RaisedOnlyWarnings c.Name s (ts.foldl (recheckClient env id) s) := by
  induction ts generalizing s with
  | nil => exact raisedOnlyWarnings_refl _ _
  | cons t ts ih =>
    have h1 : recheckClient env id s t = CheckClientQuota env t c s := by
      simp [recheckClient, hn]
    have h2 := CheckClientQuota_flagged_onlyWarnings env t c s hf
    rw [List.foldl_cons]
    refine raisedOnlyWarnings_trans _ _ _ _ (by rw [h1]; exact h2) (ih _ ?_)
    rw [h1, h2.2.1]
    exact hn

/-- The writes of `last_alert_at` do not change which rules a type selects when it
selects none. -/
theorem matchingRules_nil_stamp (aT : String) (now : Int) (fired : List AlertRule)
    (s s' : State) (hs : s'.rules = stampRules now fired s.rules)
    (h : matchingRules aT s = []) : matchingRules aT s' = [] := by
  unfold matchingRules at h ⊢
  rw [List.filter_eq_nil_iff] at h ⊢
  intro x hx
  rw [hs, stampRules_eq] at hx
  obtain ⟨y, hy, rfl⟩ := List.mem_map.1 hx
  have hy' := h y hy
  split
  · simpa using hy'
  · exact hy'

/-- Passes over a node whose stored flag is set change nothing when no quota_warning rule
is enabled. -/
theorem recheckNode_fixed (env : Env) (id : Nat) (ts : List Int) (s : State) (n : Node)
    (hn : s.nodes.find? (fun x => x.ID == id) = some n) (hf : n.QuotaExceeded = true)
    (hw : matchingRules "quota_warning" s = []) :
    ts.foldl (recheckNode env id) s = s := by
  induction ts with
  | nil => rfl
  | cons t ts ih =>
    have h1 : recheckNode env id s t = s := by
      simp only [recheckNode, hn]
      unfold CheckNodeQuota
      by_cases hq : n.TrafficQuota ≤ 0
      · simp [hq]
      · simp [hq, hf, checkQuotaWarning, hw]
    rw [List.foldl_cons, h1, ih]

/-- Passes over a client whose stored flag is set change nothing when no quota_warning
rule is enabled. -/
theorem recheckClient_fixed (env : Env) (id : Nat) (ts : List Int) (s : State) (c : Client)
    (hn : s.clients.find? (fun x => x.ID == id) = some c) (hf : c.QuotaExceeded = true)
    (hw : matchingRules "quota_warning" s = []) :
    ts.foldl (recheckClient env id) s = s := by
  induction ts with
  | nil => rfl
  | cons t ts ih =>
    have h1 : recheckClient env id s t = s := by
      simp only [recheckClient, hn]
      unfold CheckClientQuota
      by_cases hq : c.TrafficQuota ≤ 0
      · simp [hq]
      · simp [hq, hf, checkQuotaWarning, hw]
    rw [List.foldl_cons, h1, ih]

/-- The first pass over a node that reached its quota keeps the set of enabled
quota_warning rules empty when it is empty. -/
theorem CheckNodeQuota_first_noWarningRules (env : Env) (now : Int) (node : Node) (s : State)
    (hq : node.TrafficQuota > 0) (hu : node.QuotaUsed ≥ node.TrafficQuota)
    (hf : node.QuotaExceeded = false) (hw : matchingRules "quota_warning" s = []) :
    matchingRules "quota_warning" (CheckNodeQuota env now node s) = [] := by
  have hcw : checkQuotaWarning env now node.ID "node" node.Name node.QuotaUsed
      node.TrafficQuota s = s := by simp [checkQuotaWarning, hw]
  unfold CheckNodeQuota
  simp only [not_le.2 hq, if_false, hu, hf, and_self, if_true, hcw]
  exact matchingRules_nil_stamp _ now _ s _ (TriggerAlert_rules _ _ _ _ _ _ _ _) hw

/-- The first pass over a client that reached its quota keeps the set of enabled
quota_warning rules empty when it is empty. -/
theorem CheckClientQuota_first_noWarningRules (env : Env) (now : Int) (client : Client)
    (s : State) (hq : client.TrafficQuota > 0) (hu : client.QuotaUsed ≥ client.TrafficQuota)
    (hf : client.QuotaExceeded = false) (hw : matchingRules "quota_warning" s = []) :
    matchingRules "quota_warning" (CheckClientQuota env now client s) = [] := by
  have hcw : checkQuotaWarning env now client.ID "client" client.Name client.QuotaUsed
      client.TrafficQuota s = s := by simp [checkQuotaWarning, hw]
  unfold CheckClientQuota
  simp only [not_le.2 hq, if_false, hu, hf, and_self, if_true, hcw]
  exact matchingRules_nil_stamp _ now _ s _ (TriggerAlert_rules _ _ _ _ _ _ _ _) hw

/-- C24, as stated, fails: the first pass over node 7 (and over client 9), used = quota
and flag clear, attempts the quota-exceeded notification and the send fails: one row with
status `failed`, the flag is stored.  Two hours later the cooldown of 60 minutes has
elapsed, the target is re-read from the store and checked again with sends that would
succeed, and the pass returns the store as it found it: no send, no row, no dispatch. -/
theorem C24_counterexample :
    ((recheckNode failEnv 7 lostAlertState sampleNow).logs.map
      (fun l => (l.RuleID, l.Typ, l.TargetType, l.TargetID, l.Status))) =
      [(3, "quota_exceeded", "node", 7, "failed")] ∧
    ((recheckNode failEnv 7 lostAlertState sampleNow).sent.map (fun n => n.Ok)) = [false] ∧
    (recheckNode failEnv 7 lostAlertState sampleNow).nodes = [sampleNode 1000 true] ∧
    ((recheckNode failEnv 7 lostAlertState sampleNow).rules.map
      (fun r => inCooldown (sampleNow + 2 * Hour) r.LastAlertAt r.CooldownMin)) = [false] ∧
    recheckNode sampleEnv 7 (recheckNode failEnv 7 lostAlertState sampleNow)
      (sampleNow + 2 * Hour) = recheckNode failEnv 7 lostAlertState sampleNow ∧
    ((recheckClient failEnv 9 lostAlertState sampleNow).logs.map
      (fun l => (l.RuleID, l.Typ, l.TargetType, l.TargetID, l.Status))) =
      [(3, "quota_exceeded", "client", 9, "failed")] ∧
    (recheckClient failEnv 9 lostAlertState sampleNow).clients = [sampleClient 1000 true] ∧
    recheckClient sampleEnv 9 (recheckClient failEnv 9 lostAlertState sampleNow)
      (sampleNow + 2 * Hour) = recheckClient failEnv 9 lostAlertState sampleNow := by
  decide

/-- C24 (amended): the quota_exceeded alert is attempted once and a failed attempt is not
retried.  For a stored node with quota > 0, used >= quota and the flag clear, the first
pass stores the flag whatever the outcome of its sends (`env` is arbitrary, every send
failing included); and every later pass over the node as re-read from the store, any
number of them, at any instants, with any outcome of the sends (`env'`), enters no
quota_exceeded dispatch and attempts no quota_exceeded notification: every row, send and
dispatch the later passes add is a quota warning, and without an enabled quota_warning
rule they change nothing.  Likewise, on its own hypotheses, for a stored client. -/
theorem C24_failed_exceeded_alert_is_not_retried (env env' : Env) (node : Node)
    (client : Client) (s : State) (t : Int) (ts : List Int) :
    ((s.nodes.find? (fun n => n.ID == node.ID) = some node ∧ node.ID ≠ 0 ∧
        node.TrafficQuota > 0 ∧ node.QuotaUsed ≥ node.TrafficQuota ∧
        node.QuotaExceeded = false) →
      (recheckNode env node.ID s t).nodes.find? (fun n => n.ID == node.ID) =
          some { node with QuotaExceeded := true } ∧
        RaisedOnlyWarnings node.Name (recheckNode env node.ID s t)
          (ts.foldl (recheckNode env' node.ID) (recheckNode env node.ID s t)) ∧
        exceededCalls "node" node.ID
            (ts.foldl (recheckNode env' node.ID) (recheckNode env node.ID s t)) =
          exceededCalls "node" node.ID (recheckNode env node.ID s t) ∧
        (matchingRules "quota_warning" s = [] →
          ts.foldl (recheckNode env' node.ID) (recheckNode env node.ID s t) =
            recheckNode env node.ID s t)) ∧
    ((s.clients.find? (fun c => c.ID == client.ID) = some client ∧ client.ID ≠ 0 ∧
        client.TrafficQuota > 0 ∧ client.QuotaUsed ≥ client.TrafficQuota ∧
        client.QuotaExceeded = false) →
      (recheckClient env client.ID s t).clients.find? (fun c => c.ID == client.ID) =
          some { client with QuotaExceeded := true } ∧
        RaisedOnlyWarnings client.Name (recheckClient env client.ID s t)
          (ts.foldl (recheckClient env' client.ID) (recheckClient env client.ID s t)) ∧
        exceededCalls "client" client.ID
            (ts.foldl (recheckClient env' client.ID) (recheckClient env client.ID s t)) =
          exceededCalls "client" client.ID (recheckClient env client.ID s t) ∧
        (matchingRules "quota_warning" s = [] →
          ts.foldl (recheckClient env' client.ID) (recheckClient env client.ID s t) =
            recheckClient env client.ID s t)) := by
  constructor
  · rintro ⟨hn1, hn2, hn3, hn4, hn5⟩
    have e1 : recheckNode env node.ID s t = CheckNodeQuota env t node s := by
      simp [recheckNode, hn1]
    have f1 := CheckNodeQuota_first env t node s hn1 hn2 hn3 hn4 hn5
    have hfind : (recheckNode env node.ID s t).nodes.find? (fun n => n.ID == node.ID) =
        some { node with QuotaExceeded := true } := by rw [e1]; exact f1.2
    refine ⟨hfind,
      recheckNode_onlyWarnings env' node.ID ts _ { node with QuotaExceeded := true } hfind rfl,
      recheckNode_flagged env' node.ID ts _ _ hfind rfl, ?_⟩
    intro hw
    refine recheckNode_fixed env' node.ID ts _ _ hfind rfl ?_
    rw [e1]
    exact CheckNodeQuota_first_noWarningRules env t node s hn3 hn4 hn5 hw
  · rintro ⟨hc1, hc2, hc3, hc4, hc5⟩
    have e1 : recheckClient env client.ID s t = CheckClientQuota env t client s := by
      simp [recheckClient, hc1]
    have f1 := CheckClientQuota_first env t client s hc1 hc2 hc3 hc4 hc5
    have hfind : (recheckClient env client.ID s t).clients.find?
        (fun c => c.ID == client.ID) = some { client with QuotaExceeded := true } := by
      rw [e1]; exact f1.2
    refine ⟨hfind,
      recheckClient_onlyWarnings env' client.ID ts _ { client with QuotaExceeded := true } hfind
        rfl,
      recheckClient_flagged env' client.ID ts _ _ hfind rfl, ?_⟩
    intro hw
    refine recheckClient_fixed env' client.ID ts _ _ hfind rfl ?_
    rw [e1]
    exact CheckClientQuota_first_noWarningRules env t client s hc3 hc4 hc5 hw

/-- Witness for C24 (amended): every send of the first pass fails; three later passes, the
last two after the cooldown of 60 minutes, with sends that would succeed, leave the store
as the first pass left it, for the node in a store that has no client and for the client
in a store that has no node. -/
theorem C24_failed_exceeded_alert_is_not_retried_witness :
    ((recheckNode failEnv 7 nodeOnlyState sampleNow).logs.map (fun l => (l.Typ, l.Status))) =
      [("quota_exceeded", "failed")] ∧
    [sampleNow + Minute, sampleNow + 2 * Hour, sampleNow + 26 * Hour].foldl
        (recheckNode sampleEnv 7) (recheckNode failEnv 7 nodeOnlyState sampleNow) =
      recheckNode failEnv 7 nodeOnlyState sampleNow ∧
    ((recheckClient failEnv 9 clientOnlyState sampleNow).logs.map
      (fun l => (l.Typ, l.Status))) = [("quota_exceeded", "failed")] ∧
    [sampleNow + Minute, sampleNow + 2 * Hour, sampleNow + 26 * Hour].foldl
        (recheckClient sampleEnv 9) (recheckClient failEnv 9 clientOnlyState sampleNow) =
      recheckClient failEnv 9 clientOnlyState sampleNow :=
  ⟨by decide,
    ((C24_failed_exceeded_alert_is_not_retried failEnv sampleEnv (sampleNode 1000 false)
      (sampleClient 1000 false) nodeOnlyState sampleNow
      [sampleNow + Minute, sampleNow + 2 * Hour, sampleNow + 26 * Hour]).1
      (by decide)).2.2.2 (by decide),
    by decide,
    ((C24_failed_exceeded_alert_is_not_retried failEnv sampleEnv (sampleNode 1000 false)
      (sampleClient 1000 false) clientOnlyState sampleNow
      [sampleNow + Minute, sampleNow + 2 * Hour, sampleNow + 26 * Hour]).2
      (by decide)).2.2.2 (by decide)⟩

/-! ## C25 and C26: the entries of a channel list -/

theorem resolveEntry_eq (env : Env) (channels : List NotifyChannel) (entry : List Char) :
    resolveEntry env channels entry = (entryID entry).bind (resolveID env channels) := by
  unfold resolveEntry entryID resolveID
  by_cases h : trimSpace entry = []
  · simp [h]
  · simp only [h, if_false]
    cases ParseUint32 (trimSpace entry) <;> rfl

theorem notifyChannel_entryID (env : Env) (now : Int) (aT tT : String) (tid : Nat)
    (tn msg : String) (rule : AlertRule) (s : State) (entry : List Char) :
    notifyChannel env now aT tT tid tn msg rule s entry =
      match entryID entry with
      | none => s
      | some id => notifyID env now aT tT tid tn msg rule s id := by
  unfold notifyChannel entryID notifyID
  by_cases h : trimSpace entry = []
  · simp [h]
  · simp only [h, if_false]

theorem channelLoop_ids (env : Env) (now : Int) (aT tT : String) (tid : Nat)
    (tn msg : String) (rule : AlertRule) (entries : List (List Char)) (s : State) :
    entries.foldl (notifyChannel env now aT tT tid tn msg rule) s =
      (entries.filterMap entryID).foldl (notifyID env now aT tT tid tn msg rule) s := by
  induction entries generalizing s with
  | nil => rfl
  | cons e es ih =>
    rw [List.foldl_cons, notifyChannel_entryID]
    cases h : entryID e with
    | none => simp [List.filterMap_cons, h, ih]
    | some id => simp [List.filterMap_cons, h, ih]

theorem usableChannels_ids (env : Env) (channels : List NotifyChannel) (rule : AlertRule) :
    usableChannels env channels rule =
      (addressedIDs rule.ChannelIDs).filterMap (resolveID env channels) := by
  unfold usableChannels addressedIDs
  rw [List.filterMap_filterMap]
  congr 1
  funext e
  exact resolveEntry_eq env channels e

theorem resolveID_iff (env : Env) (channels : List NotifyChannel) (id : Nat)
    (ch : NotifyChannel) (nt : Notifier) :
    resolveID env channels id = some (ch, nt) ↔
      channels.find? (fun c => c.ID == id) = some ch ∧ ch.Enabled = true ∧
        CreateNotifier env ch = .ok nt := by
  unfold resolveID
  cases h : channels.find? (fun c => c.ID == id) with
  | none => simp
  | some c =>
    by_cases he : c.Enabled = false
    · simp only [he, if_true, Option.some.injEq]
      constructor
      · intro h'
        exact absurd h' (by simp)
      · rintro ⟨rfl, h2, _⟩
        rw [he] at h2
        exact absurd h2 (by decide)
    · have he' : c.Enabled = true := by simpa using he
      simp only [he, if_false]
      cases hn : CreateNotifier env c with
      | error e =>
        simp only [Option.some.injEq]
        constructor
        · intro h'
          exact absurd h' (by simp)
        · rintro ⟨rfl, _, h3⟩
          rw [hn] at h3
          exact absurd h3 (by simp)
      | ok n =>
        simp only [Option.some.injEq, Prod.mk.injEq]
        constructor
        · rintro ⟨rfl, rfl⟩
          exact ⟨rfl, he', hn⟩
        · rintro ⟨rfl, _, h3⟩
          rw [hn] at h3
          injection h3 with h4
          subst h4
          simp

theorem notifyID_skip (env : Env) (now : Int) (aT tT : String) (tid : Nat)
    (tn msg : String) (rule : AlertRule) (s : State) (id : Nat)
    (h : resolveID env s.channels id = none) :
    notifyID env now aT tT tid tn msg rule s id = s := by
  unfold resolveID at h
  unfold notifyID
  cases hf : s.channels.find? (fun c => c.ID == id) with
  | none => rfl
  | some c =>
    rw [hf] at h
    simp only at h ⊢
    by_cases he : c.Enabled = false
    · simp [he]
    · simp only [he, if_false] at h ⊢
      cases hn : CreateNotifier env c with
      | error e => rfl
      | ok n => rw [hn] at h; simp at h

/-- C25: within one firing of a rule (cooldown elapsed) the sends made and the rows
appended are, in list order, one per addressed channel id whose channel exists, is
enabled and gets a notifier from `CreateNotifier`, an id listed twice counting twice; an
id whose channel does not exist, is disabled, has an unknown type or a payload that does
not parse leads to no send and no row (the loop body returns the store as it was) and
the loop goes on to the following entries. -/
theorem C25_unusable_channels_are_skipped (env : Env) (now : Int) (aT tT : String)
    (tid : Nat) (tn msg : String) (s : State) (rule : AlertRule)
    (hdue : inCooldown now rule.LastAlertAt rule.CooldownMin = false) :
    (fireRule env now aT tT tid tn msg s rule).logs =
      s.logs ++ (passEffects env now aT tT tid tn msg rule s.sent.length
        ((addressedIDs rule.ChannelIDs).filterMap (resolveID env s.channels))).map Prod.snd ∧
    (fireRule env now aT tT tid tn msg s rule).sent =
      s.sent ++ (passEffects env now aT tT tid tn msg rule s.sent.length
        ((addressedIDs rule.ChannelIDs).filterMap (resolveID env s.channels))).map Prod.fst ∧
    (fireRule env now aT tT tid tn msg s rule).logs.length =
      s.logs.length +
        ((addressedIDs rule.ChannelIDs).filterMap (resolveID env s.channels)).length ∧
    (∀ id ch nt, resolveID env s.channels id = some (ch, nt) ↔
      s.channels.find? (fun c => c.ID == id) = some ch ∧ ch.Enabled = true ∧
        CreateNotifier env ch = .ok nt) ∧
    (∀ id,
      (s.channels.find? (fun c => c.ID == id) = none ∨
        ∃ ch, s.channels.find? (fun c => c.ID == id) = some ch ∧
          (ch.Enabled = false ∨
            (ch.Typ ≠ "telegram" ∧ ch.Typ ≠ "webhook" ∧ ch.Typ ≠ "smtp") ∨
            env.unmarshalConfig ch.Typ ch.Config ≠ none)) →
      resolveID env s.channels id = none ∧
        ∀ t : State, t.channels = s.channels →
          notifyID env now aT tT tid tn msg rule t id = t) := by
  have hfire := fireRule_eq env now aT tT tid tn msg s rule
  rw [hdue] at hfire
  simp only [Bool.false_eq_true, if_false] at hfire
  rw [hfire, usableChannels_ids]
  refine ⟨rfl, rfl, ?_, resolveID_iff env s.channels, ?_⟩
  · simp [passEffects_length]
  · intro id h
    have hnone : resolveID env s.channels id = none := by
      cases hr : resolveID env s.channels id with
      | none => rfl
      | some j =>
        exfalso
        obtain ⟨ch, nt⟩ := j
        have h3 := (resolveID_iff env s.channels id ch nt).1 hr
        rcases h with h | ⟨c, hc, h⟩
        · rw [h] at h3
          exact absurd h3.1 (by simp)
        · rw [hc] at h3
          have hcc : c = ch := by injection h3.1
          subst hcc
          rcases h with h | h | h
          · rw [h] at h3
            exact absurd h3.2.1 (by decide)
          · have := h3.2.2
            unfold CreateNotifier at this
            simp [h.1, h.2.1, h.2.2] at this
          · have := h3.2.2
            unfold CreateNotifier at this
            by_cases h1 : c.Typ = "telegram"
            · rw [h1] at h
              cases hu : env.unmarshalConfig "telegram" c.Config with
              | none => exact h hu
              | some e => simp [h1, hu] at this
            · by_cases h2 : c.Typ = "webhook"
              · rw [h2] at h
                cases hu : env.unmarshalConfig "webhook" c.Config with
                | none => exact h hu
                | some e => simp [h2, hu] at this
              · by_cases h3' : c.Typ = "smtp"
                · rw [h3'] at h
                  cases hu : env.unmarshalConfig "smtp" c.Config with
                  | none => exact h hu
                  | some e => simp [h3', hu] at this
                · simp [h1, h2, h3'] at this
    refine ⟨hnone, ?_⟩
    intro t ht
    exact notifyID_skip env now aT tT tid tn msg rule t id (by rw [ht]; exact hnone)

/-- Witness for C25: the list `9,2,3,4,1,1` over `patchyChannels` (9 missing, 2 disabled,
3 of unknown type, 4 malformed): two sends and two rows, both for channel 1. -/
theorem C25_unusable_channels_are_skipped_witness :
    (((addressedIDs (ruleExceeded "9,2,3,4,1,1").ChannelIDs).filterMap
      (resolveID sampleEnv (patchyState "9,2,3,4,1,1").channels)).map (fun j => j.1.ID)) =
      [1, 1] ∧
    (fireRule sampleEnv sampleNow "quota_exceeded" "node" 7 "edge" "over"
      (patchyState "9,2,3,4,1,1") (ruleExceeded "9,2,3,4,1,1")).logs.length = 2 ∧
    ((fireRule sampleEnv sampleNow "quota_exceeded" "node" 7 "edge" "over"
      (patchyState "9,2,3,4,1,1") (ruleExceeded "9,2,3,4,1,1")).sent.map
        (fun n => (n.ChannelID, n.Ok))) = [(1, true), (1, true)] :=
  ⟨by decide,
    by
      rw [(C25_unusable_channels_are_skipped sampleEnv sampleNow "quota_exceeded" "node" 7
        "edge" "over" (patchyState "9,2,3,4,1,1") (ruleExceeded "9,2,3,4,1,1")
        (by decide)).2.2.1]
      decide,
    by decide⟩

theorem digitVal_digitChar (d : Nat) (h : d < 10) : digitVal (Nat.digitChar d) = some d := by
  interval_cases d <;> decide

theorem parseDigits_toDigitsCore (fuel : Nat) :
    ∀ (n : Nat) (ds : List Char), n < fuel →
      parseDigits (Nat.toDigitsCore 10 fuel n ds) 0 = parseDigits ds n := by
  induction fuel with
  | zero => intro n ds h; omega
  | succ f ih =>
    intro n ds h
    unfold Nat.toDigitsCore
    simp only []
    have hd : parseDigits (Nat.digitChar (n % 10) :: ds) (n / 10) = parseDigits ds n := by
      show (match digitVal (Nat.digitChar (n % 10)) with
        | none => none
        | some d => parseDigits ds (n / 10 * 10 + d)) = _
      rw [digitVal_digitChar _ (Nat.mod_lt _ (by decide))]
      simp only []
      have : n / 10 * 10 + n % 10 = n := by omega
      rw [this]
    split
    · rename_i h0
      rw [← hd, h0]
    · rename_i h0
      rw [ih (n / 10) _ (by omega), hd]

/-- Parsing the decimal rendering of a number gives the number back. -/
theorem parseDigits_toString (n : Nat) : parseDigits (toString n).toList 0 = some n := by
  show parseDigits (Nat.toDigits 10 n) 0 = some n
  unfold Nat.toDigits
  rw [parseDigits_toDigitsCore (n + 1) n [] (by omega)]
  rfl

theorem digitVal_eq (c : Char) :
    digitVal c = if isDecimalDigit c = true then some (c.toNat - 48) else none := by
  unfold digitVal isDecimalDigit
  by_cases h : 48 ≤ c.toNat ∧ c.toNat ≤ 57
  · simp [h]
  · simp [h]

theorem parseDigits_iff (w : List Char) :
    ∀ (acc n : Nat), parseDigits w acc = some n ↔
      (∀ c ∈ w, isDecimalDigit c = true) ∧
        w.foldl (fun a c => a * 10 + (c.toNat - 48)) acc = n := by
  induction w with
  | nil => intro acc n; simp [parseDigits]
  | cons c w ih =>
    intro acc n
    unfold parseDigits
    rw [digitVal_eq]
    by_cases h : isDecimalDigit c = true
    · simp only [h, if_true, ih, List.mem_cons, forall_eq_or_imp, true_and, List.foldl_cons]
    · simp [h]

theorem ParseUint32_iff (w : List Char) (n : Nat) :
    ParseUint32 w = some n ↔
      w ≠ [] ∧ (∀ c ∈ w, isDecimalDigit c = true) ∧ decimalValue w = n ∧ n ≤ 4294967295 := by
  unfold ParseUint32 decimalValue
  by_cases h : w = []
  · simp [h]
  · simp only [h, if_false, ne_eq, not_false_eq_true, true_and]
    cases hp : parseDigits w 0 with
    | none =>
      constructor
      · intro h1
        exact absurd h1 (by simp)
      · rintro ⟨hd, hv, _⟩
        have := (parseDigits_iff w 0 n).2 ⟨hd, hv⟩
        rw [hp] at this
        exact absurd this (by simp)
    | some m =>
      have hm := (parseDigits_iff w 0 m).1 hp
      simp only []
      constructor
      · intro h1
        by_cases hle : m ≤ 4294967295
        · rw [if_pos hle] at h1
          injection h1 with h1
          subst h1
          exact ⟨hm.1, hm.2, hle⟩
        · rw [if_neg hle] at h1
          exact absurd h1 (by simp)
      · rintro ⟨_, hv, hle⟩
        rw [hm.2] at hv
        subst hv
        rw [if_pos hle]

theorem isSpace_of_digit (c : Char) (h : isDecimalDigit c = true) : isSpace c = false := by
  unfold isDecimalDigit at h
  unfold isSpace
  have h' := of_decide_eq_true h
  simp only [Bool.or_eq_false_iff, Bool.and_eq_false_iff, decide_eq_false_iff_not,
    beq_eq_false_iff_ne, ne_eq]
  omega

theorem dropWhile_none (p : Char → Bool) (w : List Char) (h : ∀ c ∈ w, p c = false) :
    w.dropWhile p = w := by
  cases w with
  | nil => rfl
  | cons c t => simp [List.dropWhile, h c (List.mem_cons_self _ _)]

theorem trimSpace_digits (w : List Char) (h : ∀ c ∈ w, isDecimalDigit c = true) :
    trimSpace w = w := by
  unfold trimSpace
  rw [dropWhile_none isSpace w (fun c hc => isSpace_of_digit c (h c hc)),
    dropWhile_none isSpace w.reverse
      (fun c hc => isSpace_of_digit c (h c (List.mem_reverse.1 hc))), List.reverse_reverse]

theorem toString_digits (n : Nat) :
    (toString n).toList ≠ [] ∧ ∀ c ∈ (toString n).toList, isDecimalDigit c = true := by
  have h := (parseDigits_iff _ 0 n).1 (parseDigits_toString n)
  refine ⟨?_, h.1⟩
  intro he
  have h2 := h.2
  rw [he] at h2
  have h0 : n = 0 := by simpa using h2.symm
  subst h0
  revert he
  decide

/-- C26: the channel loop of `TriggerAlert` splits the list on commas, trims each entry
and passes to the lookup exactly the entries whose trimmed text is a non-empty string of
decimal digits with a value of at most 4294967295, with that value as the id; every other
entry (empty, not numeric, signed, too large) is skipped and the loop over the entries is
the loop over the addressed ids, in order.  The decimal rendering of every id up to
4294967295 is accepted, and ` 1, x ,,2` addresses the channels 1 and 2 in that order. -/
theorem C26_channel_list_entries (env : Env) (now : Int) (aT tT : String) (tid : Nat)
    (tn msg : String) (rule : AlertRule) (s : State) :
    (splitComma rule.ChannelIDs.toList).foldl (notifyChannel env now aT tT tid tn msg rule) s =
      (addressedIDs rule.ChannelIDs).foldl (notifyID env now aT tT tid tn msg rule) s ∧
    (∀ entry n, entryID entry = some n ↔
      trimSpace entry ≠ [] ∧ (∀ c ∈ trimSpace entry, isDecimalDigit c = true) ∧
        decimalValue (trimSpace entry) = n ∧ n ≤ 4294967295) ∧
    (∀ entry, entryID entry = none →
      notifyChannel env now aT tT tid tn msg rule s entry = s) ∧
    (∀ n : Nat, n ≤ 4294967295 → entryID (toString n).toList = some n) ∧
    addressedIDs " 1, x ,,2" = [1, 2] ∧
    ((splitComma " 1, x ,,2".toList).map (fun e => (String.mk e, entryID e))) =
      [(" 1", some 1), (" x ", none), ("", none), ("2", some 2)] := by
  refine ⟨channelLoop_ids env now aT tT tid tn msg rule _ s, ?_, ?_, ?_, by decide, by decide⟩
  · intro entry n
    unfold entryID
    by_cases h : trimSpace entry = []
    · simp [h]
    · rw [if_neg h]
      exact ParseUint32_iff _ n
  · intro entry h
    rw [notifyChannel_entryID, h]
  · intro n hn
    have hd := toString_digits n
    unfold entryID
    rw [trimSpace_digits _ hd.2, if_neg hd.1]
    exact (ParseUint32_iff _ n).2 ⟨hd.1, hd.2, by
      have := (parseDigits_iff _ 0 n).1 (parseDigits_toString n)
      exact this.2, hn⟩

/-- Witness for C26: the entries `+1`, `-1`, `1 2`, `0x10` and `4294967296` are skipped,
` 007 ` and `4294967295` are ids; the rule with the list ` 1, x ,,2` over two channels
sends to channel 1 and then to channel 2. -/
theorem C26_channel_list_entries_witness :
    ([" +1", "-1", "1 2", "0x10", "4294967296", " 007 ", "4294967295", "１"].map
      (fun e => entryID e.toList)) =
      [none, none, none, none, none, some 7, some 4294967295, none] ∧
    entryID (toString 42).toList = some 42 ∧
    (((splitComma (ruleExceeded " 1, x ,,2").ChannelIDs.toList).foldl
      (notifyChannel sampleEnv sampleNow "quota_exceeded" "node" 7 "edge" "over"
        (ruleExceeded " 1, x ,,2"))
      (sampleState [ruleExceeded " 1, x ,,2"] [hook 1, hook 2]
        (sampleNode 1000 false))).sent.map (fun n => n.ChannelID)) = [1, 2] :=
  ⟨by decide,
    (C26_channel_list_entries sampleEnv sampleNow "quota_exceeded" "node" 7 "edge" "over"
      (ruleExceeded " 1, x ,,2")
      (sampleState [ruleExceeded " 1, x ,,2"] [hook 1, hook 2] (sampleNode 1000 false))).2.2.2.1
      42 (by decide),
    by
      rw [(C26_channel_list_entries sampleEnv sampleNow "quota_exceeded" "node" 7 "edge" "over"
        (ruleExceeded " 1, x ,,2")
        (sampleState [ruleExceeded " 1, x ,,2"] [hook 1, hook 2] (sampleNode 1000 false))).1]
      decide⟩

/-! ## C27: the condition of a rule and its threshold -/

/-- C27: `ParseCondition` returns the zero-valued condition and no error for the empty
string and for the empty object; a quota_warning rule whose condition parsed is evaluated
with the parsed threshold when that is positive and with 80 when it is zero or negative
(a payload without a threshold decodes to zero): this is the threshold of the percent
test and of the dedup key; a rule whose condition does not parse is skipped. -/
theorem C27_condition_defaults (env : Env) (now : Int) (tid : Nat) (tT tn : String)
    (used quota : Int) (s : State) (rule : AlertRule) :
    ParseCondition env "" = (⟨0, 0⟩, none) ∧
    ParseCondition env "\x7b\x7d" = (⟨0, 0⟩, none) ∧
    (∀ c : AlertRuleCondition,
      effectiveThreshold c = if c.Threshold > 0 then c.Threshold else 80) ∧
    ((ParseCondition env rule.Condition).2 = none →
      warnRule env now tid tT tn used quota s rule =
        if env.percentLt used quota (effectiveThreshold (ParseCondition env rule.Condition).1)
        then s
        else if inCooldown now rule.LastAlertAt rule.CooldownMin then s
        else if hasRecentWarning now
            (warningKey tT tid (effectiveThreshold (ParseCondition env rule.Condition).1))
            (24 * Hour) s then s
        else TriggerAlertWithKey env now "quota_warning" tT tid tn
          (warningMessage env tT tn used quota)
          (warningKey tT tid (effectiveThreshold (ParseCondition env rule.Condition).1)) s) ∧
    ((ParseCondition env rule.Condition).2 ≠ none →
      warnRule env now tid tT tn used quota s rule = s) ∧
    (rule.Condition = "" ∨ rule.Condition = "\x7b\x7d" →
      (ParseCondition env rule.Condition).2 = none ∧
        effectiveThreshold (ParseCondition env rule.Condition).1 = 80) := by
  refine ⟨by simp [ParseCondition], by simp [ParseCondition], ?_, ?_, ?_, ?_⟩
  · intro c
    unfold effectiveThreshold
    by_cases h : c.Threshold ≤ 0
    · rw [if_pos h, if_neg (by omega)]
    · rw [if_neg h, if_pos (by omega)]
  · intro h
    unfold warnRule
    simp only [h, Option.isSome_none, Bool.false_eq_true, if_false]
  · intro h
    unfold warnRule
    cases hp : (ParseCondition env rule.Condition).2 with
    | none => exact absurd hp h
    | some e => simp [hp]
  · intro h
    have : ParseCondition env rule.Condition = (⟨0, 0⟩, none) := by
      unfold ParseCondition
      rw [if_pos h]
    rw [this]
    exact ⟨rfl, by decide⟩

/-- Witness for C27: the rule with the empty condition fires for the node at 85% under
the key of threshold 80 and is passed over at 79%; the thresholds parsed as 90, 0 and -5
give 90, 80 and 80. -/
theorem C27_condition_defaults_witness :
    ((warnRule sampleEnv sampleNow 7 "node" "edge" 850 1000
        (sampleState [ruleNoCondition] [hook 1] (sampleNode 850 false)) ruleNoCondition).logs.map
      (fun l => carriesKey (warningKey "node" 7 80) l)) = [true] ∧
    warnRule sampleEnv sampleNow 7 "node" "edge" 790 1000
        (sampleState [ruleNoCondition] [hook 1] (sampleNode 790 false)) ruleNoCondition =
      sampleState [ruleNoCondition] [hook 1] (sampleNode 790 false) ∧
    ([(⟨90, 0⟩ : AlertRuleCondition), ⟨0, 0⟩, ⟨-5, 0⟩].map effectiveThreshold) = [90, 80, 80] ∧
    ((ParseCondition sampleEnv ruleNoCondition.Condition).2 = none ∧
      effectiveThreshold (ParseCondition sampleEnv ruleNoCondition.Condition).1 = 80) :=
  ⟨by decide, by decide, by decide,
    (C27_condition_defaults sampleEnv sampleNow 7 "node" "edge" 850 1000
      (sampleState [ruleNoCondition] [hook 1] (sampleNode 850 false)) ruleNoCondition).2.2.2.2.2
      (Or.inl rfl)⟩

/-! ## C28: the services of a tunnel -/

theorem takeWhile_digits_append (d t : List Char)
    (hd : ∀ c ∈ d, isDecimalDigit c = true)
    (ht : t = [] ∨ ∃ h r, t = h :: r ∧ isDecimalDigit h = false) :
    (d ++ t).takeWhile isDecimalDigit = d := by
  induction d with
  | nil =>
    rcases ht with rfl | ⟨h, r, rfl, hh⟩
    · rfl
    · simp [List.takeWhile, hh]
  | cons c d ih =>
    have hc := hd c (List.mem_cons_self _ _)
    have ih' := ih (fun x hx => hd x (List.mem_cons_of_mem _ hx))
    rw [List.cons_append, List.takeWhile_cons, hc, if_pos rfl, ih']

/-- The decimal rendering of a number followed by nothing or by a text that starts with a
character other than a digit determines the number. -/
theorem toString_append_inj (a b : Nat) (sa sb : List Char)
    (ha : sa = [] ∨ ∃ h r, sa = h :: r ∧ isDecimalDigit h = false)
    (hb : sb = [] ∨ ∃ h r, sb = h :: r ∧ isDecimalDigit h = false)
    (h : (toString a).toList ++ sa = (toString b).toList ++ sb) : a = b := by
  have h1 := takeWhile_digits_append _ sa (toString_digits a).2 ha
  have h2 := takeWhile_digits_append _ sb (toString_digits b).2 hb
  rw [h] at h1
  have h3 : (toString a).toList = (toString b).toList := by rw [← h1, h2]
  have h4 := parseDigits_toString a
  rw [h3, parseDigits_toString b] at h4
  injection h4 with h4
  exact h4.symm

theorem matchTunnelService_iff (name : String) (id : Nat) :
    matchTunnelService name id = true ↔
      name = "tunnel-" ++ toString id ∨ name = "tunnel-" ++ toString id ++ "-tcp" ∨
        name = "tunnel-" ++ toString id ++ "-udp" := by
  unfold matchTunnelService
  simp [or_assoc]

theorem matchTunnelService_form (name : String) (id : Nat)
    (h : matchTunnelService name id = true) :
    ∃ t : List Char, name.toList = "tunnel-".toList ++ ((toString id).toList ++ t) ∧
      (t = [] ∨ ∃ c r, t = c :: r ∧ isDecimalDigit c = false) := by
  rcases (matchTunnelService_iff name id).1 h with rfl | rfl | rfl
  · exact ⟨[], by simp [String.toList, String.data_append], Or.inl rfl⟩
  · exact ⟨"-tcp".toList, by simp [String.toList, String.data_append],
      Or.inr ⟨'-', "tcp".toList, rfl, by decide⟩⟩
  · exact ⟨"-udp".toList, by simp [String.toList, String.data_append],
      Or.inr ⟨'-', "udp".toList, rfl, by decide⟩⟩

theorem matchTunnelService_inj (name : String) (a b : Nat)
    (ha : matchTunnelService name a = true) (hb : matchTunnelService name b = true) : a = b := by
  obtain ⟨ta, ea, hta⟩ := matchTunnelService_form name a ha
  obtain ⟨tb, eb, htb⟩ := matchTunnelService_form name b hb
  rw [ea] at eb
  exact toString_append_inj a b ta tb hta htb (List.append_cancel_left eb)

/-- C28: `matchTunnelService(name, id)` holds exactly for the names `tunnel-{id}`,
`tunnel-{id}-tcp` and `tunnel-{id}-udp`; a name that matches two tunnel ids matches one
id twice; so every path the service loop of `SyncTunnelConfig` deletes for a tunnel is
that of a service whose name matches this tunnel and no other, and tunnel 1 does not
match `tunnel-10-tcp`. -/
theorem C28_tunnel_services_do_not_overlap (services : List (Option String)) (a b : Nat) :
    (∀ name id, matchTunnelService name id = true ↔
      name = "tunnel-" ++ toString id ∨ name = "tunnel-" ++ toString id ++ "-tcp" ∨
        name = "tunnel-" ++ toString id ++ "-udp") ∧
    (∀ name, matchTunnelService name a = true → matchTunnelService name b = true → a = b) ∧
    (a ≠ b → ∀ path ∈ syncDeletes services a, ∃ name, some name ∈ services ∧
      path = "/config/services/" ++ name ∧ matchTunnelService name a = true ∧
        matchTunnelService name b = false) ∧
    (syncDeletes services a = (services.filterMap (fun x => x)).filterMap (fun name =>
      if matchTunnelService name a = true then some ("/config/services/" ++ name) else none)) ∧
    (matchTunnelService "tunnel-10-tcp" 1 = false ∧
      matchTunnelService "tunnel-10-tcp" 10 = true) := by
  refine ⟨matchTunnelService_iff, fun name => matchTunnelService_inj name a b, ?_, ?_,
    by decide, by decide⟩
  · intro hab path hp
    unfold syncDeletes at hp
    obtain ⟨svc, hsvc, hpath⟩ := List.mem_filterMap.1 hp
    cases svc with
    | none => simp at hpath
    | some name =>
      by_cases hm : matchTunnelService name a = true
      · simp only [hm, if_true, Option.some.injEq] at hpath
        refine ⟨name, hsvc, hpath.symm, hm, ?_⟩
        cases hb : matchTunnelService name b with
        | false => rfl
        | true => exact absurd (matchTunnelService_inj name a b hm hb) hab
      · simp [hm] at hpath
  · unfold syncDeletes
    rw [List.filterMap_filterMap]
    congr 1
    funext svc
    cases svc <;> simp

/-- Witness for C28: syncing tunnel 1 deletes its three services and leaves those of the
tunnels 10 and 11 and the unrelated ones. -/
theorem C28_tunnel_services_do_not_overlap_witness :
    syncDeletes [some "tunnel-1", some "tunnel-10-tcp", some "tunnel-1-tcp", none,
        some "tunnel-11", some "tunnel-1-udp", some "tunnel-1-tcp-x", some "Tunnel-1"] 1 =
      ["/config/services/tunnel-1", "/config/services/tunnel-1-tcp",
        "/config/services/tunnel-1-udp"] ∧
    (∀ path ∈ syncDeletes [some "tunnel-1", some "tunnel-10-tcp", some "tunnel-1-tcp", none,
        some "tunnel-11", some "tunnel-1-udp", some "tunnel-1-tcp-x", some "Tunnel-1"] 1,
      ∃ name, some name ∈ [some "tunnel-1", some "tunnel-10-tcp", some "tunnel-1-tcp", none,
        some "tunnel-11", some "tunnel-1-udp", some "tunnel-1-tcp-x", some "Tunnel-1"] ∧
      path = "/config/services/" ++ name ∧ matchTunnelService name 1 = true ∧
        matchTunnelService name 10 = false) :=
  ⟨by decide,
    (C28_tunnel_services_do_not_overlap [some "tunnel-1", some "tunnel-10-tcp",
      some "tunnel-1-tcp", none, some "tunnel-11", some "tunnel-1-udp", some "tunnel-1-tcp-x",
      some "Tunnel-1"] 1 10).2.2.1 (by decide)⟩

/-! ## C29: the origin check of the WebSocket upgrade -/

/-- C29, evaluated: in debug mode the localhost shortcut of `checkWSOrigin` accepts
origins whose host is neither `localhost` nor `127.0.0.1`: the test is a prefix test on
the origin, so `http://localhost.evil.example` and
`https://127.0.0.1.evil.example:8443` are accepted for any request host, with an empty
allow-list and with an allow-list that does not name them, while the same origins are
rejected with debug mode off.  With debug mode off and an empty allow-list the check is
`origin` empty or `extractHost(origin)` equal to the request host. -/
theorem C29_debug_shortcut_accepts_foreign_hosts :
    (extractHost "http://localhost.evil.example" = "localhost.evil.example" ∧
      hostWithoutPort (extractHost "http://localhost.evil.example") =
        "localhost.evil.example" ∧
      checkWSOrigin true [] "http://localhost.evil.example" "panel.example.com" = true ∧
      checkWSOrigin true ["https://panel.example.com"] "http://localhost.evil.example"
        "panel.example.com" = true ∧
      checkWSOrigin false [] "http://localhost.evil.example" "panel.example.com" = false ∧
      checkWSOrigin false ["https://panel.example.com"] "http://localhost.evil.example"
        "panel.example.com" = false) ∧
    (extractHost "https://127.0.0.1.evil.example:8443/x" = "127.0.0.1.evil.example:8443" ∧
      hostWithoutPort (extractHost "https://127.0.0.1.evil.example:8443/x") =
        "127.0.0.1.evil.example" ∧
      checkWSOrigin true [] "https://127.0.0.1.evil.example:8443/x" "panel.example.com" =
        true ∧
      checkWSOrigin false [] "https://127.0.0.1.evil.example:8443/x" "panel.example.com" =
        false) ∧
    (hostWithoutPort (extractHost "http://localhost:3000") = "localhost" ∧
      checkWSOrigin true [] "http://localhost:3000" "panel.example.com" = true) ∧
    (∀ origin host : String,
      checkWSOrigin false [] origin host = (origin == "" || extractHost origin == host)) := by
  refine ⟨by decide, by decide, by decide, ?_⟩
  intro origin host
  unfold checkWSOrigin
  by_cases h : origin = ""
  · simp [h]
  · simp [h]

end GostPanel
